import Mathlib

/-!
# LeicaDMRE hub: serial command protocol

A shallow embedding of `DeviceAdapters/LeicaDMRE/LeicaDMREHub.cpp` and the
properties of its frame encoding, response validation and start-up handshake,
followed by the facades of `DeviceAdapters/LeicaDMRE/LeicaDMRE.cpp` (hub
facade, lamp, focus drive, objective nosepiece) built on it.

Modelling conventions

* `std::string` and C strings are lists of characters (`Str`).
* The Micro-Manager framework (`MM::Core`, `MMDeviceConstants.h`) is not part
  of the adapter; it is the parameter `MM` of every operation.  A serial
  callback is a function of the log of all serial calls made so far (the call
  being answered is the last entry), which covers every deterministic transport.
* `ClearAllRcvBuf` is a `while` loop that need not terminate; it takes a fuel
  argument and every operation that flushes returns an `Option`.
* `MM::Core::LogMessage` and the write-only member `rcvBuf_` are not modelled.
* Values of type `double` are dyadic numbers `m * 2 ^ e` with the arithmetic
  of IEEE 754 binary64 (`Dbl`, `fdiv`, `fmul`); a text written by `sprintf`
  into a fixed buffer exists only when it fits.
-/

namespace LeicaDMRE

/-- Character strings (`std::string`, `char*`). -/
abbrev Str := List Char

/-! ## Stream formatting: `os << std::setw(w) << std::setfill(c) << n` -/

/-- The decimal digit character of `d` (for `d < 10`). -/
def digitChar (d : Nat) : Char :=
  match d with
  | 0 => '0' | 1 => '1' | 2 => '2' | 3 => '3' | 4 => '4'
  | 5 => '5' | 6 => '6' | 7 => '7' | 8 => '8' | _ => '9'

/-- Digits of `n`, most significant first, pushed in front of `acc`. -/
def toDecAux : Nat → Nat → Str → Str
  | 0, _, acc => acc
  | fuel + 1, n, acc =>
    if n < 10 then digitChar n :: acc
    else toDecAux fuel (n / 10) (digitChar (n % 10) :: acc)

/-- Decimal text of a natural number, as `operator<<` prints it. -/
def natToDec (n : Nat) : Str := toDecAux (n + 1) n []

/-- Text of `os << i` for an `int` with the default flags (`dec`, no `showpos`). -/
def intToDec (i : Int) : Str :=
  if i < 0 then '-' :: natToDec i.natAbs else natToDec i.natAbs

/-- Text of `os << std::setw(w) << std::setfill(fill) << i`: the default
adjustment is `right`, so the fill characters come first; a text longer than
`w` is not truncated. -/
def putInt (w : Nat) (fill : Char) (i : Int) : Str :=
  List.replicate (w - (intToDec i).length) fill ++ intToDec i

/-! ## Stream extraction: `ss >> n` -/

/-- The whitespace of the classic locale, skipped by the stream sentry. -/
def isSpace (c : Char) : Bool :=
  c = ' ' || c = '\t' || c = '\n' || c = Char.ofNat 11 || c = Char.ofNat 12 || c = '\r'

/-- Decimal digit test. -/
def isDigit (c : Char) : Bool := decide (48 ≤ c.toNat) && decide (c.toNat ≤ 57)

/-- Value of a digit character. -/
def digitVal (c : Char) : Nat := c.toNat - 48

/-- Accumulates the leading run of digits of `s` onto `acc`. -/
def readDigits : Str → Nat → Nat
  | [], acc => acc
  | c :: cs, acc => if isDigit c then readDigits cs (acc * 10 + digitVal c) else acc

/-- Whether `s` starts with a digit. -/
def startsWithDigit : Str → Bool
  | [] => false
  | c :: _ => isDigit c

/-- Saturation of an extracted value to the range of `int`. -/
def clampInt32 (v : Int) : Int :=
  if v < -2147483648 then -2147483648 else if 2147483647 < v then 2147483647 else v

/-- Value of the target after `ss >> target` on a stream holding `s`, where
`prev` is the value of the target before (`skipws` set, base ten).  When only
whitespace is left the sentry fails and the target is untouched; when no digit
follows the optional sign, zero is stored; an out-of-range value saturates. -/
def extractInt (prev : Int) (s : Str) : Int :=
  match s.dropWhile isSpace with
  | [] => prev
  | c :: cs =>
    let neg := decide (c = '-')
    let ds := if c = '-' ∨ c = '+' then cs else c :: cs
    if startsWithDigit ds then
      clampInt32 (if neg then -(readDigits ds 0 : Int) else (readDigits ds 0 : Int))
    else 0

/-! ## C character buffers -/

/-- Value of `buf[i]`; positions past the modelled contents read as NUL. -/
def charAt (buf : Str) (i : Nat) : Char := buf.getD i (Char.ofNat 0)

/-- The C string that starts at offset `k` of `buf` (up to the first NUL). -/
def cstrFrom (buf : Str) (k : Nat) : Str := (buf.drop k).takeWhile (fun c => c != Char.ofNat 0)

/-- The C string held in `buf`. -/
def cstr (buf : Str) : Str := cstrFrom buf 0

/-- Result of `strlen(buf)`. -/
def strlen (buf : Str) : Nat := (cstr buf).length

/-! ## Constants of `LeicaDMRE.h` and `LeicaDMREHub.h` -/

def ERR_PORT_NOT_SET : Int := 11001
def ERR_UNEXPECTED_ANSWER : Int := 11006
def RCV_BUF_LENGTH : Nat := 1024

/-! ## The framework boundary -/

/-- One call on `MM::Core` made by the hub, with its input arguments. -/
inductive SerialOp where
  | ReadFromSerial (port : Str) (bufLength : Nat)
  | SetSerialCommand (port : Str) (command : Str) (term : Str)
  | GetSerialAnswer (port : Str) (bufLength : Nat) (term : Str)
  deriving DecidableEq, Repr

/-- The Micro-Manager framework the adapter is built and run against.

* `DEVICE_OK` is the success code of `MMDeviceConstants.h`.
* `ReadFromSerial log` is the value of the by-reference argument `read` after
  the call (a call that does not store it leaves the `1024` it held).
* `SetSerialCommand log` is the returned status.
* `GetSerialAnswer log` is the returned status and the contents of the
  receive buffer after the call (the answer, its NUL, and what follows it).
* `deviceIdCheck0`, `commandCheck0` are the indeterminate values the two
  uninitialised locals of the validation code hold before extraction.

`log` is the list of all serial calls so far, the current one last. -/
structure MM where
  DEVICE_OK : Int
  ReadFromSerial : List SerialOp → Nat
  SetSerialCommand : List SerialOp → Int
  GetSerialAnswer : List SerialOp → Int × Str
  deviceIdCheck0 : Int
  commandCheck0 : Int

/-- Value of the C++ expression `!DEVICE_OK` converted to `int`. -/
def MM.notDEVICE_OK (mm : MM) : Int := if mm.DEVICE_OK = 0 then 1 else 0

/-- Data members of `class LeicaDMREHub`. -/
structure LeicaDMREHub where
  port_ : Str
  version_ : Str
  microscope_ : Str
  initialized_ : Bool
  deriving DecidableEq, Repr

/-- The hub together with the log of the serial calls made so far. -/
structure World where
  hub : LeicaDMREHub
  serial : List SerialOp
  deriving DecidableEq, Repr

/-- Records a serial call. -/
def World.call (w : World) (op : SerialOp) : World :=
  { w with serial := w.serial ++ [op] }

/-- State built by the constructor `LeicaDMREHub::LeicaDMREHub()`. -/
def LeicaDMREHub.new : LeicaDMREHub :=
  { port_ := [], version_ := [], microscope_ := [], initialized_ := false }

namespace LeicaDMREHub

/-- Inline member `SetPort`. -/
def SetPort (w : World) (port : Str) : World :=
  { w with hub := { w.hub with port_ := port } }

/-- Inline member `Initialized`. -/
def Initialized (w : World) : Bool := w.hub.initialized_

/-- Inline member `Version`. -/
def Version (w : World) : Str := w.hub.version_

/-- Inline member `Microscope`. -/
def Microscope (w : World) : Str := w.hub.microscope_

/-- Member `ClearAllRcvBuf`: reads while a read reports a full buffer. -/
def ClearAllRcvBuf (mm : MM) : Nat → World → Option World
  | 0, _ => none
  | fuel + 1, w =>
    let w1 := w.call (SerialOp.ReadFromSerial w.hub.port_ RCV_BUF_LENGTH)
    let read := mm.ReadFromSerial w1.serial
    if read = RCV_BUF_LENGTH then ClearAllRcvBuf mm fuel w1 else some w1

/-- Member `GetCommand(device, core, command, std::string& answer)`.
Returns the status, the value of `answer` after the call, and the new world. -/
def GetCommand (mm : MM) (fuel : Nat) (w : World) (command : Int) (answer : Str) :
    Option (Int × Str × World) :=
  if w.hub.port_ = [] then some (ERR_PORT_NOT_SET, answer, w)
  else
    match ClearAllRcvBuf mm fuel w with
    | none => none
    | some w1 =>
      let deviceId : Int := 50
      let os := putInt 2 '0' deviceId ++ putInt 3 '0' command
      let w2 := w1.call (SerialOp.SetSerialCommand w1.hub.port_ os ['\r'])
      let ret := mm.SetSerialCommand w2.serial
      if ret ≠ mm.DEVICE_OK then some (ret, answer, w2)
      else
        let w3 := w2.call (SerialOp.GetSerialAnswer w2.hub.port_ RCV_BUF_LENGTH ['\r'])
        let ret := (mm.GetSerialAnswer w3.serial).1
        let rcvBuf := (mm.GetSerialAnswer w3.serial).2
        if ret ≠ mm.DEVICE_OK then some (ret, answer, w3)
        else
          let deviceIdCheck := extractInt mm.deviceIdCheck0 [charAt rcvBuf 0, charAt rcvBuf 1]
          let commandCheck :=
            extractInt mm.commandCheck0 [charAt rcvBuf 2, charAt rcvBuf 3, charAt rcvBuf 4]
          if deviceId ≠ deviceIdCheck ∨ command ≠ commandCheck then
            some (ERR_UNEXPECTED_ANSWER, answer, w3)
          else
            let s3 := if strlen rcvBuf > 5 then cstrFrom rcvBuf 5 else []
            some (mm.DEVICE_OK, s3, w3)

/-- Member `GetCommand(device, core, command, int& answer)`. -/
def GetCommandInt (mm : MM) (fuel : Nat) (w : World) (command : Int) (answer : Int) :
    Option (Int × Int × World) :=
  match GetCommand mm fuel w command [] with
  | none => none
  | some (ret, reply, w1) =>
    if ret ≠ mm.DEVICE_OK then some (ret, answer, w1)
    else some (mm.DEVICE_OK, extractInt answer reply, w1)

/-- Member `SetCommand(device, core, command, data)`. -/
def SetCommandData (mm : MM) (fuel : Nat) (w : World) (command : Int) (data : Int) :
    Option (Int × World) :=
  if w.hub.port_ = [] then some (ERR_PORT_NOT_SET, w)
  else
    match ClearAllRcvBuf mm fuel w with
    | none => none
    | some w1 =>
      let deviceId : Int := 50
      let os := putInt 2 '0' deviceId ++ (putInt 3 '0' command ++ intToDec data)
      let w2 := w1.call (SerialOp.SetSerialCommand w1.hub.port_ os ['\r'])
      let ret := mm.SetSerialCommand w2.serial
      if ret ≠ mm.DEVICE_OK then some (ret, w2)
      else
        let w3 := w2.call (SerialOp.GetSerialAnswer w2.hub.port_ RCV_BUF_LENGTH ['\r'])
        let ret := (mm.GetSerialAnswer w3.serial).1
        let rcvBuf := (mm.GetSerialAnswer w3.serial).2
        if ret ≠ mm.DEVICE_OK then some (ret, w3)
        else
          let deviceIdCheck := extractInt mm.deviceIdCheck0 [charAt rcvBuf 0, charAt rcvBuf 1]
          let commandCheck :=
            extractInt mm.commandCheck0 [charAt rcvBuf 2, charAt rcvBuf 3, charAt rcvBuf 4]
          if deviceId ≠ deviceIdCheck ∨ command ≠ commandCheck then
            some (ERR_UNEXPECTED_ANSWER, w3)
          else some (mm.DEVICE_OK, w3)

/-- Member `SetCommand(device, core, command)`. -/
def SetCommand (mm : MM) (fuel : Nat) (w : World) (command : Int) : Option (Int × World) :=
  if w.hub.port_ = [] then some (ERR_PORT_NOT_SET, w)
  else
    match ClearAllRcvBuf mm fuel w with
    | none => none
    | some w1 =>
      let deviceId : Int := 50
      let os := putInt 2 '0' deviceId ++ putInt 3 '0' command
      let w2 := w1.call (SerialOp.SetSerialCommand w1.hub.port_ os ['\r'])
      let ret := mm.SetSerialCommand w2.serial
      if ret ≠ mm.DEVICE_OK then some (ret, w2)
      else
        let w3 := w2.call (SerialOp.GetSerialAnswer w2.hub.port_ RCV_BUF_LENGTH ['\r'])
        let ret := (mm.GetSerialAnswer w3.serial).1
        let rcvBuf := (mm.GetSerialAnswer w3.serial).2
        if ret ≠ mm.DEVICE_OK then some (ret, w3)
        else
          let deviceIdCheck := extractInt mm.deviceIdCheck0 [charAt rcvBuf 0, charAt rcvBuf 1]
          let commandCheck :=
            extractInt mm.commandCheck0 [charAt rcvBuf 2, charAt rcvBuf 3, charAt rcvBuf 4]
          if deviceId ≠ deviceIdCheck ∨ command ≠ commandCheck then
            some (ERR_UNEXPECTED_ANSWER, w3)
          else some (mm.DEVICE_OK, w3)

/-- Member `GetVersion`. -/
def GetVersion (mm : MM) (fuel : Nat) (w : World) (version : Str) : Option (Int × Str × World) :=
  GetCommand mm fuel w 25 version

/-- Member `GetMicroscope`. -/
def GetMicroscope (mm : MM) (fuel : Nat) (w : World) (microscope : Str) :
    Option (Int × Str × World) :=
  match GetCommand mm fuel w 26 microscope with
  | none => none
  | some (ret, microscope1, w1) =>
    if ret ≠ mm.DEVICE_OK then some (mm.DEVICE_OK, "RxE".toList, w1)
    else some (mm.notDEVICE_OK, microscope1, w1)

/-- Stores the by-reference result of `GetVersion(device, core, version_)`. -/
def storeVersion (w : World) (version : Str) : World :=
  { w with hub := { w.hub with version_ := version } }

/-- Stores the by-reference result of `GetMicroscope(device, core, microscope_)`. -/
def storeMicroscope (w : World) (microscope : Str) : World :=
  { w with hub := { w.hub with microscope_ := microscope } }

/-- Member `Initialize`. -/
def Initialize (mm : MM) (fuel : Nat) (w : World) : Option (Int × World) :=
  if w.hub.initialized_ then some (mm.DEVICE_OK, w)
  else
    match GetVersion mm fuel w w.hub.version_ with
    | none => none
    | some (ret, v, w1) =>
      let w1 := storeVersion w1 v
      let retried : Option (Int × World) :=
        if ret ≠ mm.DEVICE_OK then
          match GetVersion mm fuel w1 w1.hub.version_ with
          | none => none
          | some (ret2, v2, w2) => some (ret2, storeVersion w2 v2)
        else some (ret, w1)
      match retried with
      | none => none
      | some (ret, w2) =>
        if ret ≠ mm.DEVICE_OK then some (ret, w2)
        else
          match GetMicroscope mm fuel w2 w2.hub.microscope_ with
          | none => none
          | some (ret, m, w3) =>
            let w3 := storeMicroscope w3 m
            if ret ≠ mm.DEVICE_OK then some (ret, w3)
            else some (mm.DEVICE_OK, { w3 with hub := { w3.hub with initialized_ := true } })

/-- Inline member `DeInitialize`. -/
def DeInitialize (mm : MM) (w : World) : Int × World :=
  (mm.DEVICE_OK, { w with hub := { w.hub with initialized_ := false } })

end LeicaDMREHub

/-- The frames handed to `SetSerialCommand` in a log, with their terminators. -/
def framesWritten : List SerialOp → List (Str × Str)
  | [] => []
  | SerialOp.SetSerialCommand _ command term :: ops => (command, term) :: framesWritten ops
  | _ :: ops => framesWritten ops

/-! ## Vocabulary of the properties -/

/-- The write of `frame` that follows the flush, as a serial call. -/
def writeCall (w1 : World) (frame : Str) : SerialOp :=
  SerialOp.SetSerialCommand w1.hub.port_ frame ['\r']

/-- The terminated read that follows a write, as a serial call. -/
def readCall (w1 : World) : SerialOp :=
  SerialOp.GetSerialAnswer w1.hub.port_ RCV_BUF_LENGTH ['\r']

/-- The world after the write of `frame` and the read of its answer. -/
def exchanged (w1 : World) (frame : Str) : World :=
  (w1.call (writeCall w1 frame)).call (readCall w1)

/-- The transport, in the state reached after the flush (`w1`), accepts the
write of `frame` and answers the read that follows with the buffer `rcvBuf`. -/
def Answers (mm : MM) (w1 : World) (frame rcvBuf : Str) : Prop :=
  mm.SetSerialCommand (w1.call (writeCall w1 frame)).serial = mm.DEVICE_OK ∧
  mm.GetSerialAnswer (exchanged w1 frame).serial = (mm.DEVICE_OK, rcvBuf)

/-- The echo test of the validation code accepts `rcvBuf` for `command`. -/
def EchoAccepted (mm : MM) (command : Int) (rcvBuf : Str) : Prop :=
  (50 : Int) = extractInt mm.deviceIdCheck0 [charAt rcvBuf 0, charAt rcvBuf 1] ∧
  command = extractInt mm.commandCheck0 [charAt rcvBuf 2, charAt rcvBuf 3, charAt rcvBuf 4]

/-- The five characters `DDCCC` of a fixed-width frame head. -/
def fixedWidth (d c : Nat) : Str :=
  [digitChar (d / 10), digitChar (d % 10),
   digitChar (c / 100), digitChar (c / 10 % 10), digitChar (c % 10)]

/-- Value of a string of decimal digits, most significant first. -/
def decimalValue (s : Str) : Nat := s.foldl (fun acc ch => acc * 10 + digitVal ch) 0

/-- The text `s` is the plain decimal representation of `d`: a `-` exactly when
`d` is negative, then at least one digit, no leading zero (other than the
single digit of zero), and the digits denote the magnitude of `d`. -/
def IsPlainDecimal (d : Int) (s : Str) : Prop :=
  ∃ body : Str, s = (if d < 0 then ['-'] else []) ++ body ∧ body ≠ [] ∧
    (∀ ch ∈ body, isDigit ch = true) ∧ (body.head? = some '0' → body = ['0']) ∧
    decimalValue body = d.natAbs

/-! ## Concrete transports and worlds -/

/-- Number of terminated reads in a log. -/
def countAnswers : List SerialOp → Nat
  | [] => 0
  | SerialOp.GetSerialAnswer _ _ _ :: ops => countAnswers ops + 1
  | _ :: ops => countAnswers ops

/-- A framework with `DEVICE_OK = 0` whose serial port has an empty receive
buffer, accepts every write, and answers the `k`-th terminated read with the
`k`-th entry of `script` (status and buffer); reads past the script time out
with status 14. -/
def scriptedMM (script : List (Int × Str)) : MM where
  DEVICE_OK := 0
  ReadFromSerial := fun _ => 0
  SetSerialCommand := fun _ => 0
  GetSerialAnswer := fun log => script.getD (countAnswers log - 1) (14, [])
  deviceIdCheck0 := 0
  commandCheck0 := 0

/-- A freshly constructed hub whose port has been set to `COM7`. -/
def com7 : World :=
  LeicaDMREHub.SetPort { hub := LeicaDMREHub.new, serial := [] } "COM7".toList

/-- The world `com7` after one flush read. -/
def com7Flushed : World :=
  com7.call (SerialOp.ReadFromSerial "COM7".toList RCV_BUF_LENGTH)

/-- A freshly constructed hub, no port set. -/
def noPort : World := { hub := LeicaDMREHub.new, serial := [] }

/-- A healthy transport: the first terminated read answers the version query
and the second answers the microscope-type query, each with the correct echo
and a payload. -/
def healthyMM : MM :=
  scriptedMM [(0, "50025V1.2".toList), (0, "50026DMRXE".toList)]

/-- A transport whose first write/read cycle times out (status 14) and whose
later cycles answer the version query and the microscope-type query. -/
def retryMM : MM :=
  scriptedMM [(14, []), (0, "50025V1.2".toList), (0, "50026DMRXE".toList)]

/-! ## Device commands of the hub used by the facades -/

/-- Result of the conversion `(int)v` of a `long` value `v`: the value itself
when it fits `int`, reduced modulo `2^32` into the range of `int` otherwise. -/
def castInt (v : Int) : Int := (v + 2147483648) % 4294967296 - 2147483648

def ERR_INVALID_POSITION : Int := 11009

namespace LeicaDMREHub

/-- Member `GetObjNosepiecePosition`. -/
def GetObjNosepiecePosition (mm : MM) (fuel : Nat) (w : World) (pos : Int) :
    Option (Int × Int × World) :=
  GetCommandInt mm fuel w 10 pos

/-- Member `GetLampIntensity`. -/
def GetLampIntensity (mm : MM) (fuel : Nat) (w : World) (intensity : Int) :
    Option (Int × Int × World) :=
  GetCommandInt mm fuel w 9 intensity

/-- Member `SetLampIntensity`. -/
def SetLampIntensity (mm : MM) (fuel : Nat) (w : World) (intensity : Int) : Option (Int × World) :=
  SetCommandData mm fuel w 6 intensity

/-- Member `SetZAbs` (`position` is a `long`). -/
def SetZAbs (mm : MM) (fuel : Nat) (w : World) (position : Int) : Option (Int × World) :=
  SetCommandData mm fuel w 1 (castInt position)

/-- Member `SetZRel` (`position` is a `long`). -/
def SetZRel (mm : MM) (fuel : Nat) (w : World) (position : Int) : Option (Int × World) :=
  SetCommandData mm fuel w 2 (castInt position)

/-- Member `GetZ`.  `pos0` is the indeterminate value of the uninitialised
local `pos`; the result carries the value of `position` after the call. -/
def GetZ (mm : MM) (fuel : Nat) (w : World) (pos0 : Int) (position : Int) :
    Option (Int × Int × World) :=
  match GetCommandInt mm fuel w 8 pos0 with
  | none => none
  | some (ret, pos, w1) =>
    if ret ≠ mm.DEVICE_OK then some (ret, position, w1)
    else some (mm.DEVICE_OK, pos, w1)

/-- Member `SetZUpperThreshold`. -/
def SetZUpperThreshold (mm : MM) (fuel : Nat) (w : World) : Option (Int × World) :=
  SetCommand mm fuel w 19

end LeicaDMREHub

/-! ## The facades of `LeicaDMRE.cpp`

The global `g_hub` is the hub of the `World` every facade operation receives.
A property (`MM::PropertyBase`) is modelled by its value: an action handler
receives the value `pProp->Get` would read and returns the value the property
holds afterwards (`pProp->Set`).  Values of type `long` are integers (the only
arithmetic on them, `(long)pos - 1` and `numPos_ - 1`, starts from `int`
values), and strings handed over through `c_str()` are taken to hold no NUL.
The members `name_`, `changedTime_` (a clock reading) and the floating-point
members of `ZStage` are not modelled. -/

/-- Modelled from the spec: the kinds of property callback of the host plugin
boundary (`MM::ActionType` of `MMDevice.h`, which is not among the sources).
The handlers test for `BeforeGet` and `AfterSet` only; `NoAction` stands for
every other kind. -/
inductive ActionType where
  | NoAction
  | BeforeGet
  | AfterSet
  deriving DecidableEq, Repr

/-- Data members of the facade `class Hub` that its code reads or writes. -/
structure Hub where
  initialized_ : Bool
  port_ : Str
  deriving DecidableEq, Repr

/-- State built by the constructor `Hub::Hub()`. -/
def Hub.new : Hub := { initialized_ := false, port_ := "Undefined".toList }

/-- Member `Hub::Shutdown`. -/
def Hub.Shutdown (mm : MM) (h : Hub) (w : World) : Int × Hub × World :=
  if h.initialized_ then
    (mm.DEVICE_OK, { h with initialized_ := false }, (LeicaDMREHub.DeInitialize mm w).2)
  else (mm.DEVICE_OK, h, w)

/-- Member `Hub::OnPort`.  Returns the status, the facade, the world and the
value of the property after the call. -/
def Hub.OnPort (mm : MM) (h : Hub) (w : World) (pProp : Str) (eAct : ActionType) :
    Int × Hub × World × Str :=
  match eAct with
  | ActionType.BeforeGet => (mm.DEVICE_OK, h, w, h.port_)
  | ActionType.AfterSet =>
    let pProp1 := if h.initialized_ then h.port_ else pProp
    let h1 := { h with port_ := pProp1 }
    (mm.DEVICE_OK, h1, LeicaDMREHub.SetPort w h1.port_, pProp1)
  | ActionType.NoAction => (mm.DEVICE_OK, h, w, pProp)

/-- Data members of `class Lamp` that its code reads or writes. -/
structure Lamp where
  initialized_ : Bool
  open_ : Bool
  intensity_ : Int
  deriving DecidableEq, Repr

/-- Member `Lamp::SetOpen`. -/
def Lamp.SetOpen (mm : MM) (fuel : Nat) (w : World) (l : Lamp) (open_arg : Bool) :
    Option (Int × Lamp × World) :=
  if open_arg then
    match LeicaDMREHub.SetLampIntensity mm fuel w l.intensity_ with
    | none => none
    | some (ret, w1) =>
      if ret ≠ mm.DEVICE_OK then some (ret, l, w1)
      else some (mm.DEVICE_OK, { l with open_ := true }, w1)
  else
    match LeicaDMREHub.SetLampIntensity mm fuel w 0 with
    | none => none
    | some (ret, w1) =>
      if ret ≠ mm.DEVICE_OK then some (ret, l, w1)
      else some (mm.DEVICE_OK, { l with open_ := false }, w1)

/-- Member `Lamp::GetOpen`: the status and the value stored in `open`. -/
def Lamp.GetOpen (mm : MM) (l : Lamp) : Int × Bool := (mm.DEVICE_OK, l.open_)

/-- Member `Lamp::OnState`. -/
def Lamp.OnState (mm : MM) (fuel : Nat) (w : World) (l : Lamp) (pProp : Int)
    (eAct : ActionType) : Option (Int × Lamp × World × Int) :=
  match eAct with
  | ActionType.BeforeGet =>
    if (Lamp.GetOpen mm l).2 then some (mm.DEVICE_OK, l, w, 1)
    else some (mm.DEVICE_OK, l, w, 0)
  | ActionType.AfterSet =>
    let pos := pProp
    match (if pos = 1 then Lamp.SetOpen mm fuel w l true else Lamp.SetOpen mm fuel w l false) with
    | none => none
    | some (ret, l1, w1) =>
      if ret ≠ mm.DEVICE_OK then some (ret, l1, w1, pProp)
      else some (mm.DEVICE_OK, l1, w1, pos)
  | ActionType.NoAction => some (mm.DEVICE_OK, l, w, pProp)

/-- Member `Lamp::OnIntensity`. -/
def Lamp.OnIntensity (mm : MM) (fuel : Nat) (w : World) (l : Lamp) (pProp : Int)
    (eAct : ActionType) : Option (Int × Lamp × World × Int) :=
  match eAct with
  | ActionType.BeforeGet =>
    if l.open_ then
      match LeicaDMREHub.GetLampIntensity mm fuel w l.intensity_ with
      | none => none
      | some (ret, intensity, w1) =>
        let l1 := { l with intensity_ := intensity }
        if ret ≠ mm.DEVICE_OK then some (ret, l1, w1, pProp)
        else some (mm.DEVICE_OK, l1, w1, l1.intensity_)
    else some (mm.DEVICE_OK, l, w, l.intensity_)
  | ActionType.AfterSet =>
    let intensity := pProp
    let l1 := { l with intensity_ := castInt intensity }
    if l1.open_ then
      match LeicaDMREHub.SetLampIntensity mm fuel w l1.intensity_ with
      | none => none
      | some (ret, w1) =>
        if ret ≠ mm.DEVICE_OK then some (ret, l1, w1, pProp)
        else some (mm.DEVICE_OK, l1, w1, pProp)
    else some (mm.DEVICE_OK, l1, w, pProp)
  | ActionType.NoAction => some (mm.DEVICE_OK, l, w, pProp)

namespace ZStage

/-- Member `ZStage::SetPositionSteps`. -/
def SetPositionSteps (mm : MM) (fuel : Nat) (w : World) (position : Int) : Option (Int × World) :=
  LeicaDMREHub.SetZAbs mm fuel w position

/-- Member `ZStage::SetRelativePositionSteps`. -/
def SetRelativePositionSteps (mm : MM) (fuel : Nat) (w : World) (position : Int) :
    Option (Int × World) :=
  LeicaDMREHub.SetZRel mm fuel w position

/-- Member `ZStage::GetPositionSteps`. -/
def GetPositionSteps (mm : MM) (fuel : Nat) (w : World) (pos0 : Int) (position : Int) :
    Option (Int × Int × World) :=
  LeicaDMREHub.GetZ mm fuel w pos0 position

/-- Member `ZStage::OnThreshold` (the property holds a string). -/
def OnThreshold (mm : MM) (fuel : Nat) (w : World) (pProp : Str) (eAct : ActionType) :
    Option (Int × World × Str) :=
  match eAct with
  | ActionType.BeforeGet => some (mm.DEVICE_OK, w, "Set".toList)
  | ActionType.AfterSet =>
    let value := pProp
    if value = "Update".toList then
      match LeicaDMREHub.SetZUpperThreshold mm fuel w with
      | none => none
      | some (_, w1) => some (mm.DEVICE_OK, w1, pProp)
    else some (mm.DEVICE_OK, w, pProp)
  | ActionType.NoAction => some (mm.DEVICE_OK, w, pProp)

end ZStage

/-- Data members of `class ObjNosepiece` that its code reads or writes. -/
structure ObjNosepiece where
  initialized_ : Bool
  pos_ : Int
  numPos_ : Int
  deriving DecidableEq, Repr

/-- State built by the constructor `ObjNosepiece::ObjNosepiece()`. -/
def ObjNosepiece.new : ObjNosepiece := { initialized_ := false, pos_ := 0, numPos_ := 7 }

/-- Member `ObjNosepiece::OnState`.  `pos0` is the indeterminate value of the
uninitialised local `pos` of the `BeforeGet` branch. -/
def ObjNosepiece.OnState (mm : MM) (fuel : Nat) (w : World) (o : ObjNosepiece) (pos0 : Int)
    (pProp : Int) (eAct : ActionType) : Option (Int × ObjNosepiece × World × Int) :=
  match eAct with
  | ActionType.BeforeGet =>
    match LeicaDMREHub.GetObjNosepiecePosition mm fuel w pos0 with
    | none => none
    | some (ret, pos, w1) =>
      if ret ≠ mm.DEVICE_OK then some (ret, o, w1, pProp)
      else if pos = 0 then some (ERR_INVALID_POSITION, o, w1, pProp)
      else some (mm.DEVICE_OK, o, w1, pos - 1)
  | ActionType.AfterSet =>
    let pos := pProp
    let pos := if pos < 0 then 0 else pos
    let pos := if pos ≥ o.numPos_ then o.numPos_ - 1 else pos
    if pos = o.pos_ then some (mm.DEVICE_OK, o, w, pProp)
    else some (mm.DEVICE_OK, { o with pos_ := pos }, w, pos)
  | ActionType.NoAction => some (mm.DEVICE_OK, o, w, pProp)

/-! ## Concrete facades and worlds -/

/-- A hub connected on `COM7`. -/
def connected : World :=
  { hub := { port_ := "COM7".toList, version_ := "V1.2".toList, microscope_ := "RxE".toList,
             initialized_ := true },
    serial := [] }

/-- A closed lamp with cached intensity 40. -/
def closedLamp : Lamp := { initialized_ := true, open_ := false, intensity_ := 40 }

/-- A transport that answers the version query and lets every later read time
out, so that the hub connects with the placeholder microscope type. -/
def olderControllerMM : MM := scriptedMM [(0, "50025V1.2".toList)]

/-! ## Remaining device commands of the hub -/

namespace LeicaDMREHub

/-- Member `GetChecksum`. -/
def GetChecksum (mm : MM) (fuel : Nat) (w : World) (checksum : Str) :
    Option (Int × Str × World) :=
  GetCommand mm fuel w 24 checksum

/-- Member `SetManual`. -/
def SetManual (mm : MM) (fuel : Nat) (w : World) (manual : Bool) : Option (Int × World) :=
  SetCommand mm fuel w (if manual then 15 else 14)

/-- Member `GetObjNosepieceId`. -/
def GetObjNosepieceId (mm : MM) (fuel : Nat) (w : World) (id : Int) :
    Option (Int × Int × World) :=
  GetCommandInt mm fuel w 20 id

/-- Member `GetObjNosepieceMagnification`. -/
def GetObjNosepieceMagnification (mm : MM) (fuel : Nat) (w : World) (mag : Int) :
    Option (Int × Int × World) :=
  GetCommandInt mm fuel w 21 mag

/-- Member `MoveZMax`. -/
def MoveZMax (mm : MM) (fuel : Nat) (w : World) : Option (Int × World) :=
  SetCommand mm fuel w 17

/-- Member `MoveZMin`. -/
def MoveZMin (mm : MM) (fuel : Nat) (w : World) : Option (Int × World) :=
  SetCommand mm fuel w 16

/-- Member `MoveZConst`. -/
def MoveZConst (mm : MM) (fuel : Nat) (w : World) (speed : Int) : Option (Int × World) :=
  SetCommandData mm fuel w 4 speed

/-- Member `StopZ`. -/
def StopZ (mm : MM) (fuel : Nat) (w : World) : Option (Int × World) :=
  SetCommand mm fuel w 6

/-- Member `GetZLowerThreholdSet`.  The returned `bool` is `none` when
`isSet.at(3)` throws `std::out_of_range`; on a failed query the status is
converted to `bool`. -/
def GetZLowerThreholdSet (mm : MM) (fuel : Nat) (w : World) : Option (Option Bool × World) :=
  match GetCommand mm fuel w 10 [] with
  | none => none
  | some (ret, isSet, w1) =>
    if ret ≠ mm.DEVICE_OK then some (some (decide (ret ≠ 0)), w1)
    else some ((isSet.get? 3).map (fun ch => ch != '0'), w1)

/-- Member `GetZUpperThreholdSet`, with the conventions of `GetZLowerThreholdSet`. -/
def GetZUpperThreholdSet (mm : MM) (fuel : Nat) (w : World) : Option (Option Bool × World) :=
  match GetCommand mm fuel w 10 [] with
  | none => none
  | some (ret, isSet, w1) =>
    if ret ≠ mm.DEVICE_OK then some (some (decide (ret ≠ 0)), w1)
    else some ((isSet.get? 2).map (fun ch => ch != '0'), w1)

end LeicaDMREHub

/-- The text `os.str()` that the send routines build for command `command`:
without payload in `GetCommand` and `SetCommand(command)`, followed by the
text of `data` in `SetCommand(command, data)`. -/
def encodeFrame (command : Int) (data : Option Int) : Str :=
  match data with
  | none => putInt 2 '0' 50 ++ putInt 3 '0' command
  | some d => putInt 2 '0' 50 ++ (putInt 3 '0' command ++ intToDec d)

/-- The flush read `ClearAllRcvBuf` issues in world `w`, as a serial call. -/
def flushCall (w : World) : SerialOp := SerialOp.ReadFromSerial w.hub.port_ RCV_BUF_LENGTH

/-- Every frame written between the worlds `w` and `w2` starts with the five
characters `5`, `0` and three decimal digits of a command id in `[0,999]`, and
is sent with terminator `"\r"`. -/
def WellFramed (w w2 : World) : Prop :=
  ∃ added : List (Str × Str), framesWritten w2.serial = framesWritten w.serial ++ added ∧
    ∀ f ∈ added, ∃ c : Nat, c ≤ 999 ∧ f.1.take 5 = fixedWidth 50 c ∧ f.2 = ['\r']

/-! ## Start-up of the nosepiece facade -/

/-- One call of `ObjNosepiece::Initialize` on the property table of its base
class, with the arguments the properties below depend on. -/
inductive PropCall where
  | CreateProperty (name value : Str) (readOnly : Bool)
  | SetPositionLabel (pos : Int) (label : Str)
  deriving DecidableEq, Repr

/-- The services of the device base class (`DeviceBase.h`, not among the
sources) that `ObjNosepiece::Initialize` calls.

* `CreateProperty log` is the status returned by the `CreateProperty` call that
  is the last entry of `log`.
* `UpdateStatus w log` is the status returned by `UpdateStatus()` and the world
  it leaves (it may run action handlers, which talk to the hub); `none` when it
  does not return. -/
structure DeviceBase where
  CreateProperty : List PropCall → Int
  UpdateStatus : World → List PropCall → Option (Int × World)

/-- Contents of the eight-byte buffer `char buf[8]` after `sprintf(buf, "%dx",
v)`: the decimal text of `v` followed by `x`.  The text and its terminating NUL
must fit the buffer, that is, the text has at most seven characters (`v` from
`-99999` to `999999`); `none` when they do not, where `sprintf` writes past the
end of the buffer and the program has no defined behaviour. -/
def sprintfDx (v : Int) : Option Str :=
  if (intToDec v ++ ['x']).length + 1 ≤ 8 then some (intToDec v ++ ['x']) else none

/-- The labelling loop of `ObjNosepiece::Initialize`, `for (i = 1; i < numPos_;
i++)`, with `n` iterations left: each queries the magnification, ignores the
status, and labels position `i` with the text written into `char label[8]`.
`mag0` is the indeterminate value of the uninitialised local `mag`. -/
def ObjNosepiece.labelLoop (mm : MM) (fuel : Nat) (mag0 : Int) :
    Nat → Int → World → List PropCall → Option (World × List PropCall)
  | 0, _, w, props => some (w, props)
  | n + 1, i, w, props =>
    match LeicaDMREHub.GetObjNosepieceMagnification mm fuel w mag0 with
    | none => none
    | some (_, _, w1) =>
      match sprintfDx i with
      | none => none
      | some label =>
        ObjNosepiece.labelLoop mm fuel mag0 n (i + 1) w1
          (props ++ [PropCall.SetPositionLabel i label])

/-- Member `ObjNosepiece::Initialize`.  `props` is the log of property-table
calls so far; `cpos0`, `cmag0`, `mag0` are the indeterminate values of the
uninitialised locals `cpos`, `cmag`, `mag`.  The property names are the
keywords `Name`, `Description`, `State`, `Label` of `MMDeviceConstants.h`.
The texts `cstate`, `clabel` and `label` are written into buffers of eight
bytes; the result is `none` when a flush or `UpdateStatus` does not return and
when one of these texts does not fit its buffer (this covers the overflow of
`cpos - 1` at the least `int`, whose text would not fit either).  The
argument `(long)(cpos - 1)` of the first `sprintf` is printed with its value. -/
def ObjNosepiece.Initialize (mm : MM) (db : DeviceBase) (fuel : Nat) (w : World)
    (o : ObjNosepiece) (props : List PropCall) (cpos0 cmag0 mag0 : Int) :
    Option (Int × ObjNosepiece × World × List PropCall) :=
  let connect : Option (Int × World) :=
    if !(LeicaDMREHub.Initialized w) then LeicaDMREHub.Initialize mm fuel w
    else some (mm.DEVICE_OK, w)
  match connect with
  | none => none
  | some (ret, w) =>
    if ret ≠ mm.DEVICE_OK then some (ret, o, w, props)
    else
      let props := props ++
        [PropCall.CreateProperty "Name".toList "Objective Nosepiece".toList true]
      if mm.DEVICE_OK ≠ db.CreateProperty props then some (db.CreateProperty props, o, w, props)
      else
        let props := props ++ [PropCall.CreateProperty "Description".toList
          "LeicaDMRE Objective Nosepiece".toList true]
        if mm.DEVICE_OK ≠ db.CreateProperty props then
          some (db.CreateProperty props, o, w, props)
        else
          match LeicaDMREHub.GetObjNosepiecePosition mm fuel w cpos0 with
          | none => none
          | some (ret, cpos, w) =>
            if ret ≠ mm.DEVICE_OK then some (ret, o, w, props)
            else
              match sprintfDx (cpos - 1) with
              | none => none
              | some cstate =>
              let props := props ++ [PropCall.CreateProperty "State".toList cstate true]
              if db.CreateProperty props ≠ mm.DEVICE_OK then
                some (db.CreateProperty props, o, w, props)
              else
                match LeicaDMREHub.GetObjNosepieceMagnification mm fuel w cmag0 with
                | none => none
                | some (ret, cmag, w) =>
                  if ret ≠ mm.DEVICE_OK then some (ret, o, w, props)
                  else
                    match sprintfDx cmag with
                    | none => none
                    | some clabel =>
                    let props := props ++ [PropCall.CreateProperty "Label".toList clabel true]
                    if db.CreateProperty props ≠ mm.DEVICE_OK then
                      some (db.CreateProperty props, o, w, props)
                    else
                      let props := props ++
                        [PropCall.SetPositionLabel 0 "Undefined".toList]
                      match ObjNosepiece.labelLoop mm fuel mag0 (o.numPos_ - 1).toNat 1 w props with
                      | none => none
                      | some (w, props) =>
                        match db.UpdateStatus w props with
                        | none => none
                        | some (ret, w) =>
                          if ret ≠ mm.DEVICE_OK then some (ret, o, w, props)
                          else some (mm.DEVICE_OK, { o with initialized_ := true }, w, props)

/-! ## Further concrete facades and transports -/

/-- An open lamp with cached intensity 40. -/
def openLamp : Lamp := { initialized_ := true, open_ := true, intensity_ := 40 }

/-- A device base class whose property table accepts every call and whose
`UpdateStatus` returns status 0 without touching the world. -/
def plainDeviceBase : DeviceBase where
  CreateProperty := fun _ => 0
  UpdateStatus := fun w _ => some (0, w)

/-- A transport on which the nosepiece reports the reserved position 0 and
every magnification query is answered with 10. -/
def unseatedMM : MM :=
  scriptedMM [(0, "500100".toList), (0, "5002110".toList), (0, "5002110".toList),
    (0, "5002110".toList), (0, "5002110".toList), (0, "5002110".toList),
    (0, "5002110".toList), (0, "5002110".toList)]

/-- A framework whose first two flush reads report a full buffer of 1024 bytes
and whose third reports 17 bytes. -/
def twoFullReadsMM : MM where
  DEVICE_OK := 0
  ReadFromSerial := fun log => if log.length ≤ 2 then 1024 else 17
  SetSerialCommand := fun _ => 0
  GetSerialAnswer := fun _ => (14, [])
  deviceIdCheck0 := 0
  commandCheck0 := 0

/-- One send/receive exchange on the transport, starting from the world `w1`
left by the flush: the write of `frame` and, only if that write returned
`DEVICE_OK`, one terminated read.  `ret` is the status the routine returns and
`w2` the world it leaves: a failing write or read hands its own status back,
and nothing else is logged. -/
def OneExchange (mm : MM) (w1 : World) (frame : Str) (ret : Int) (w2 : World) : Prop :=
  (mm.SetSerialCommand (w1.call (writeCall w1 frame)).serial ≠ mm.DEVICE_OK ∧
    ret = mm.SetSerialCommand (w1.call (writeCall w1 frame)).serial ∧
    w2 = w1.call (writeCall w1 frame)) ∨
  (mm.SetSerialCommand (w1.call (writeCall w1 frame)).serial = mm.DEVICE_OK ∧
    w2 = exchanged w1 frame ∧
    ((mm.GetSerialAnswer (exchanged w1 frame).serial).1 ≠ mm.DEVICE_OK →
      ret = (mm.GetSerialAnswer (exchanged w1 frame).serial).1))

/-! ## The uninitialised locals of the validation code -/

/-- The extraction `ss >> target` from the characters `s` stores a value: `s`
holds a character that is not white space, so the sentry succeeds and the
target does not keep the value it held before. -/
def Extracts (s : Str) : Prop := ∃ ch ∈ s, isSpace ch = false

instance (s : Str) : Decidable (Extracts s) := by
  unfold Extracts
  infer_instance

/-- What the echo of `rcvBuf` reads as, apart from the uninitialised locals:
the first two characters, when they hold more than white space, extract to 50,
and the next three, when they hold more than white space, extract to
`command`, whatever the target held before the extraction. -/
def EchoReads (command : Int) (rcvBuf : Str) : Prop :=
  (Extracts [charAt rcvBuf 0, charAt rcvBuf 1] →
    ∀ prev, extractInt prev [charAt rcvBuf 0, charAt rcvBuf 1] = 50) ∧
  (Extracts [charAt rcvBuf 2, charAt rcvBuf 3, charAt rcvBuf 4] →
    ∀ prev, extractInt prev [charAt rcvBuf 2, charAt rcvBuf 3, charAt rcvBuf 4] = command)

/-- The framework `mm` in a run where the locals `deviceIdCheck` and
`commandCheck` of the routine being executed hold `d` and `c` before the
extraction.  Each of the three send routines declares its own pair
(`LeicaDMREHub.cpp`, lines 264, 325 and 365), so two routines are compared
under records that agree on everything but these two values. -/
def MM.withLocals (mm : MM) (d c : Int) : MM :=
  { mm with deviceIdCheck0 := d, commandCheck0 := c }

/-- A transport that answers the first read with five blanks followed by the
payload `V1.2`. -/
def blankEchoMM : MM := scriptedMM [(0, "     V1.2".toList)]

/-! ## Unit conversion of the focus drive: `double` arithmetic

The type `double` is IEEE 754 binary64; its operations round to nearest, ties
to even, and each is rounded to `double` (no wider intermediate format).  A
finite value is `m * 2 ^ e` with `|m| < 2 ^ 53` and `-1074 ≤ e ≤ 971`.
Infinities and NaN are not values of the model: an operation whose result is
not finite gives `none`.  The sign of a zero is not recorded; it has no effect
on a quotient by the positive step size, on a conversion to `long`, or on a
product of an integer and the step size.  The arithmetic is carried out on
integers, and is related to exact rational arithmetic by the theorems of the
section on rounding. -/

/-- The dyadic number `m * 2 ^ e`. -/
structure Dbl where
  m : Int
  e : Int
  deriving DecidableEq, Repr

/-- The rational number a `Dbl` stands for. -/
def Dbl.toRat (a : Dbl) : ℚ := (a.m : ℚ) * (2 : ℚ) ^ a.e

/-- Number of binary digits of `n`, with `fuel` bounding the count. -/
def bitLenAux : Nat → Nat → Nat
  | 0, _ => 0
  | fuel + 1, n => if n = 0 then 0 else bitLenAux fuel (n / 2) + 1

/-- Number of binary digits of `n` (none for zero). -/
def bitLen (n : Nat) : Nat := bitLenAux n n

/-- The fraction `n / d` multiplied by `2 ^ s`, as numerator and denominator. -/
def scaled (n d : Nat) (s : Int) : Nat × Nat :=
  if 0 ≤ s then (n * 2 ^ s.toNat, d) else (n, d * 2 ^ (-s).toNat)

/-- The integer nearest to `n / d`; the even one of the two when `n / d` lies
half-way between two integers. -/
def nearestEven (n d : Nat) : Nat :=
  if 2 * (n % d) < d then n / d
  else if d < 2 * (n % d) then n / d + 1
  else if n / d % 2 = 0 then n / d else n / d + 1

/-- The integer `k` with `2 ^ k ≤ n / d < 2 ^ (k + 1)`, for positive `n`, `d`. -/
def ilog2Ratio (n d : Nat) : Int :=
  if (scaled n d (-((bitLen n : Int) - (bitLen d : Int)))).2 ≤
      (scaled n d (-((bitLen n : Int) - (bitLen d : Int)))).1
  then (bitLen n : Int) - (bitLen d : Int) else (bitLen n : Int) - (bitLen d : Int) - 1

/-- The `double` nearest to `± (n / d) * 2 ^ x` (`neg` gives the sign, `d` is
positive).  The weight `E` of the last bit is the one that leaves 53
significant bits, and not less than `2 ^ (-1074)` (subnormal range); the
significand is the nearest integer to the value divided by `2 ^ E`, ties to
even; a significand rounded up to `2 ^ 53` is `2 ^ 52` at the next weight.
The result is `none` when the rounded value exceeds the largest finite
`double` (the operation gives an infinity). -/
def roundBinary64 (neg : Bool) (n d : Nat) (x : Int) : Option Dbl :=
  let E := max (ilog2Ratio n d + x - 52) (-1074)
  let M := nearestEven (scaled n d (x - E)).1 (scaled n d (x - E)).2
  let M1 := if M = 2 ^ 53 then 2 ^ 52 else M
  let E1 := if M = 2 ^ 53 then E + 1 else E
  if M = 0 then some ⟨0, 0⟩
  else if 971 < E1 then none
  else some ⟨if neg then -(M1 : Int) else (M1 : Int), E1⟩

/-- The quotient `a / b` of two `double` values; `none` when the divisor is
zero or the quotient overflows (the result is an infinity or NaN). -/
def fdiv (a b : Dbl) : Option Dbl :=
  if b.m = 0 then none
  else roundBinary64 (decide (a.m < 0) != decide (b.m < 0)) a.m.natAbs b.m.natAbs (a.e - b.e)

/-- The integer part of a `double`: the fraction is discarded (truncation
toward zero). -/
def truncate (a : Dbl) : Int :=
  if 0 ≤ a.e then a.m * 2 ^ a.e.toNat
  else if a.m < 0 then -((a.m.natAbs / 2 ^ (-a.e).toNat : Nat) : Int)
  else ((a.m.natAbs / 2 ^ (-a.e).toNat : Nat) : Int)

namespace ZStage

/-- The member `stepSize_um_`, set by the constructor from the literal `0.1`:
the `double` nearest to one tenth, `7205759403792794 * 2 ^ (-56)`. -/
def stepSize_um_ : Dbl := ⟨7205759403792794, -56⟩

end ZStage

theorem toDecAux_eq (n : Nat) : ∀ fuel acc, n < fuel → toDecAux fuel n acc = natToDec n ++ acc := by
  induction n using Nat.strong_induction_on with
  | _ n ih =>
    intro fuel acc hf
    obtain ⟨f, rfl⟩ : ∃ f, fuel = f + 1 := ⟨fuel - 1, by omega⟩
    by_cases h : n < 10
    · simp [natToDec, toDecAux, h]
    · have hlt : n / 10 < n := by omega
      have h1 := ih (n / 10) hlt f (digitChar (n % 10) :: acc) (by omega)
      have h2 := ih (n / 10) hlt n [digitChar (n % 10)] hlt
      simp only [natToDec, toDecAux, h, if_false] at h1 h2 ⊢
      rw [h1, h2]
      simp

theorem natToDec_lt {n : Nat} (h : n < 10) : natToDec n = [digitChar n] := by
  simp [natToDec, toDecAux, h]

theorem natToDec_ge {n : Nat} (h : 10 ≤ n) :
    natToDec n = natToDec (n / 10) ++ [digitChar (n % 10)] := by
  have h1 : ¬ n < 10 := by omega
  have h2 := toDecAux_eq (n / 10) n [digitChar (n % 10)] (by omega)
  simp only [natToDec, toDecAux, h1, if_false] at h2 ⊢
  exact h2

theorem isDigit_digitChar {d : Nat} (h : d < 10) : isDigit (digitChar d) = true := by
  interval_cases d <;> rfl

theorem digitVal_digitChar {d : Nat} (h : d < 10) : digitVal (digitChar d) = d := by
  interval_cases d <;> rfl

theorem digitChar_eq_zero {d : Nat} (h : d < 10) (h0 : digitChar d = '0') : d = 0 := by
  interval_cases d <;> first | rfl | exact absurd h0 (by decide)

theorem natToDec_ne_nil (n : Nat) : natToDec n ≠ [] := by
  by_cases h : n < 10
  · simp [natToDec_lt h]
  · simp [natToDec_ge (n := n) (by omega)]

theorem natToDec_digits (n : Nat) : ∀ ch ∈ natToDec n, isDigit ch = true := by
  induction n using Nat.strong_induction_on with
  | _ n ih =>
    by_cases h : n < 10
    · simp [natToDec_lt h, isDigit_digitChar h]
    · rw [natToDec_ge (n := n) (by omega)]
      intro ch hch
      rcases List.mem_append.1 hch with h1 | h1
      · exact ih (n / 10) (by omega) ch h1
      · simp only [List.mem_singleton] at h1
        rw [h1]; exact isDigit_digitChar (Nat.mod_lt _ (by norm_num))

theorem natToDec_head (n : Nat) (h0 : 0 < n) : (natToDec n).head? ≠ some '0' := by
  induction n using Nat.strong_induction_on with
  | _ n ih =>
    by_cases h : n < 10
    · rw [natToDec_lt h]
      simp only [List.head?_cons, ne_eq, Option.some.injEq]
      intro hz
      have := digitChar_eq_zero h hz
      omega
    · rw [natToDec_ge (n := n) (by omega)]
      have := ih (n / 10) (by omega) (by omega)
      cases hq : natToDec (n / 10) with
      | nil => exact absurd hq (natToDec_ne_nil _)
      | cons a t => rw [hq] at this; simpa using this

theorem readDigits_append (s rest : Str) (hs : ∀ ch ∈ s, isDigit ch = true) :
    ∀ acc, readDigits (s ++ rest) acc = readDigits rest (readDigits s acc) := by
  induction s with
  | nil => intro acc; rfl
  | cons a t ih =>
    intro acc
    have ha : isDigit a = true := hs a (List.mem_cons_self _ _)
    simp only [List.cons_append, readDigits, ha, if_true]
    exact ih (fun ch h => hs ch (List.mem_cons_of_mem _ h)) _

theorem readDigits_natToDec (n : Nat) : readDigits (natToDec n) 0 = n := by
  induction n using Nat.strong_induction_on with
  | _ n ih =>
    by_cases h : n < 10
    · simp [natToDec_lt h, readDigits, isDigit_digitChar h, digitVal_digitChar h]
    · rw [natToDec_ge (n := n) (by omega), readDigits_append _ _ (natToDec_digits _),
        ih (n / 10) (by omega)]
      have hm : n % 10 < 10 := Nat.mod_lt _ (by norm_num)
      simp only [readDigits, isDigit_digitChar hm, digitVal_digitChar hm, if_true]
      omega

/-! ## Fixed-width fields -/

theorem intToDec_ofNat (n : Nat) : intToDec (n : Int) = natToDec n := by
  have h : ¬ ((n : Int) < 0) := by omega
  simp [intToDec, h]

theorem intToDec_neg {i : Int} (h : i < 0) : intToDec i = '-' :: natToDec i.natAbs := by
  simp [intToDec, h]

theorem putInt2 {d : Nat} (h : d ≤ 99) :
    putInt 2 '0' (d : Int) = [digitChar (d / 10), digitChar (d % 10)] := by
  rw [putInt, intToDec_ofNat]
  by_cases h1 : d < 10
  · have e1 : d / 10 = 0 := by omega
    have e2 : d % 10 = d := by omega
    rw [natToDec_lt h1, e1, e2]; rfl
  · rw [natToDec_ge (n := d) (by omega), natToDec_lt (n := d / 10) (by omega)]; rfl

theorem putInt3 {c : Nat} (h : c ≤ 999) :
    putInt 3 '0' (c : Int) = [digitChar (c / 100), digitChar (c / 10 % 10), digitChar (c % 10)] := by
  rw [putInt, intToDec_ofNat]
  by_cases h1 : c < 10
  · have e1 : c / 100 = 0 := by omega
    have e2 : c / 10 % 10 = 0 := by omega
    have e3 : c % 10 = c := by omega
    rw [natToDec_lt h1, e1, e2, e3]; rfl
  · by_cases h2 : c < 100
    · have e1 : c / 100 = 0 := by omega
      have e2 : c / 10 % 10 = c / 10 := by omega
      rw [natToDec_ge (n := c) (by omega), natToDec_lt (n := c / 10) (by omega), e1, e2]; rfl
    · have e1 : c / 10 / 10 = c / 100 := by omega
      rw [natToDec_ge (n := c) (by omega), natToDec_ge (n := c / 10) (by omega),
        natToDec_lt (n := c / 10 / 10) (by omega), e1]; rfl

theorem putInt2_50 : putInt 2 '0' 50 = ['5', '0'] := by decide

/-! ## Extraction of what was formatted -/

theorem isDigit_not_space {c : Char} (h : isDigit c = true) : isSpace c = false := by
  simp only [isDigit, Bool.and_eq_true, decide_eq_true_eq] at h
  simp only [isSpace, Bool.or_eq_false_iff, decide_eq_false_iff_not]
  refine ⟨⟨⟨⟨⟨?_, ?_⟩, ?_⟩, ?_⟩, ?_⟩, ?_⟩ <;> (intro hc; rw [hc] at h; revert h; decide)

theorem isDigit_not_sign {c : Char} (h : isDigit c = true) : ¬ (c = '-' ∨ c = '+') := by
  simp only [isDigit, Bool.and_eq_true, decide_eq_true_eq] at h
  rintro (hc | hc) <;> (rw [hc] at h; revert h; decide)

theorem isDigit_ne_nul {c : Char} (h : isDigit c = true) : (c != Char.ofNat 0) = true := by
  simp only [isDigit, Bool.and_eq_true, decide_eq_true_eq] at h
  simp only [bne_iff_ne, ne_eq]
  intro hc; rw [hc] at h; revert h; decide

theorem extractInt_digits (prev : Int) (c : Char) (cs : Str) (h : isDigit c = true) :
    extractInt prev (c :: cs) = clampInt32 (readDigits (c :: cs) 0 : Nat) := by
  have h1 := isDigit_not_space h
  have h2 := isDigit_not_sign h
  have h3 : c ≠ '-' := fun e => h2 (Or.inl e)
  have h4 : c ≠ '+' := fun e => h2 (Or.inr e)
  simp [extractInt, List.dropWhile, h1, h3, h4, startsWithDigit, h]

theorem extractInt_field2 (prev : Int) {a b : Nat} (ha : a < 10) (hb : b < 10) :
    extractInt prev [digitChar a, digitChar b] = ((a * 10 + b : Nat) : Int) := by
  rw [extractInt_digits _ _ _ (isDigit_digitChar ha)]
  simp only [readDigits, isDigit_digitChar ha, isDigit_digitChar hb, digitVal_digitChar ha,
    digitVal_digitChar hb, if_true, clampInt32]
  split_ifs <;> omega

theorem extractInt_field3 (prev : Int) {a b c : Nat} (ha : a < 10) (hb : b < 10) (hc : c < 10) :
    extractInt prev [digitChar a, digitChar b, digitChar c] = ((a * 100 + b * 10 + c : Nat) : Int) := by
  rw [extractInt_digits _ _ _ (isDigit_digitChar ha)]
  simp only [readDigits, isDigit_digitChar ha, isDigit_digitChar hb, isDigit_digitChar hc,
    digitVal_digitChar ha, digitVal_digitChar hb, digitVal_digitChar hc, if_true, clampInt32]
  split_ifs <;> omega

theorem extractInt_intToDec (prev : Int) (d : Int) (h1 : -2147483648 ≤ d) (h2 : d ≤ 2147483647) :
    extractInt prev (intToDec d) = d := by
  by_cases hneg : d < 0
  · rw [intToDec_neg hneg]
    cases hq : natToDec d.natAbs with
    | nil => exact absurd hq (natToDec_ne_nil _)
    | cons a t =>
      have ha : isDigit a = true := natToDec_digits d.natAbs a (by rw [hq]; exact List.mem_cons_self _ _)
      have hv := readDigits_natToDec d.natAbs
      rw [hq] at hv
      have hsp : isSpace '-' = false := by decide
      simp only [extractInt, List.dropWhile, hsp, startsWithDigit, ha, if_true, true_or,
        decide_True, hv, clampInt32]
      split_ifs <;> omega
  · have hd : d = (d.natAbs : Int) := by omega
    have e : intToDec d = natToDec d.natAbs := by simp [intToDec, hneg]
    rw [e]
    cases hq : natToDec d.natAbs with
    | nil => exact absurd hq (natToDec_ne_nil _)
    | cons a t =>
      have ha : isDigit a = true := natToDec_digits d.natAbs a (by rw [hq]; exact List.mem_cons_self _ _)
      have hv := readDigits_natToDec d.natAbs
      rw [hq] at hv
      rw [extractInt_digits _ _ _ ha, hv, clampInt32]
      split_ifs <;> omega

/-! ## Serial log -/

theorem framesWritten_append (a b : List SerialOp) :
    framesWritten (a ++ b) = framesWritten a ++ framesWritten b := by
  induction a with
  | nil => rfl
  | cons op t ih => cases op <;> simp [framesWritten, ih]

namespace LeicaDMREHub

theorem ClearAllRcvBuf_spec (mm : MM) : ∀ (fuel : Nat) (w w1 : World),
    ClearAllRcvBuf mm fuel w = some w1 →
      w1.hub = w.hub ∧ framesWritten w1.serial = framesWritten w.serial := by
  intro fuel
  induction fuel with
  | zero => intro w w1 h; simp [ClearAllRcvBuf] at h
  | succ f ih =>
    intro w w1 h
    simp only [ClearAllRcvBuf] at h
    split_ifs at h with hr
    · obtain ⟨h1, h2⟩ := ih _ _ h
      refine ⟨h1, ?_⟩
      rw [h2]
      simp [World.call, framesWritten_append, framesWritten]
    · cases h
      simp [World.call, framesWritten_append, framesWritten]

/-- What `GetCommand` does once the flush has ended and the transport answered. -/
theorem GetCommand_answered (mm : MM) (fuel : Nat) (w w1 : World) (command : Int)
    (answer rcvBuf : Str) (hport : w.hub.port_ ≠ [])
    (hflush : ClearAllRcvBuf mm fuel w = some w1)
    (hans : Answers mm w1 (putInt 2 '0' 50 ++ putInt 3 '0' command) rcvBuf) :
    GetCommand mm fuel w command answer =
      if (50 : Int) ≠ extractInt mm.deviceIdCheck0 [charAt rcvBuf 0, charAt rcvBuf 1] ∨
          command ≠ extractInt mm.commandCheck0 [charAt rcvBuf 2, charAt rcvBuf 3, charAt rcvBuf 4]
      then some (ERR_UNEXPECTED_ANSWER, answer,
        exchanged w1 (putInt 2 '0' 50 ++ putInt 3 '0' command))
      else some (mm.DEVICE_OK, if strlen rcvBuf > 5 then cstrFrom rcvBuf 5 else [],
        exchanged w1 (putInt 2 '0' 50 ++ putInt 3 '0' command)) := by
  obtain ⟨h1, h2⟩ := hans
  simp only [exchanged, writeCall, readCall, World.call] at h1 h2
  simp only [GetCommand, hport, if_false, hflush, World.call, h1, h2, ne_eq, not_true_eq_false,
    exchanged, writeCall, readCall]

theorem SetCommand_answered (mm : MM) (fuel : Nat) (w w1 : World) (command : Int)
    (rcvBuf : Str) (hport : w.hub.port_ ≠ [])
    (hflush : ClearAllRcvBuf mm fuel w = some w1)
    (hans : Answers mm w1 (putInt 2 '0' 50 ++ putInt 3 '0' command) rcvBuf) :
    SetCommand mm fuel w command =
      if (50 : Int) ≠ extractInt mm.deviceIdCheck0 [charAt rcvBuf 0, charAt rcvBuf 1] ∨
          command ≠ extractInt mm.commandCheck0 [charAt rcvBuf 2, charAt rcvBuf 3, charAt rcvBuf 4]
      then some (ERR_UNEXPECTED_ANSWER,
        exchanged w1 (putInt 2 '0' 50 ++ putInt 3 '0' command))
      else some (mm.DEVICE_OK, exchanged w1 (putInt 2 '0' 50 ++ putInt 3 '0' command)) := by
  obtain ⟨h1, h2⟩ := hans
  simp only [exchanged, writeCall, readCall, World.call] at h1 h2
  simp only [SetCommand, hport, if_false, hflush, World.call, h1, h2, ne_eq, not_true_eq_false,
    exchanged, writeCall, readCall]

theorem SetCommandData_answered (mm : MM) (fuel : Nat) (w w1 : World) (command data : Int)
    (rcvBuf : Str) (hport : w.hub.port_ ≠ [])
    (hflush : ClearAllRcvBuf mm fuel w = some w1)
    (hans : Answers mm w1 (putInt 2 '0' 50 ++ (putInt 3 '0' command ++ intToDec data)) rcvBuf) :
    SetCommandData mm fuel w command data =
      if (50 : Int) ≠ extractInt mm.deviceIdCheck0 [charAt rcvBuf 0, charAt rcvBuf 1] ∨
          command ≠ extractInt mm.commandCheck0 [charAt rcvBuf 2, charAt rcvBuf 3, charAt rcvBuf 4]
      then some (ERR_UNEXPECTED_ANSWER,
        exchanged w1 (putInt 2 '0' 50 ++ (putInt 3 '0' command ++ intToDec data)))
      else some (mm.DEVICE_OK,
        exchanged w1 (putInt 2 '0' 50 ++ (putInt 3 '0' command ++ intToDec data))) := by
  obtain ⟨h1, h2⟩ := hans
  simp only [exchanged, writeCall, readCall, World.call] at h1 h2
  simp only [SetCommandData, hport, if_false, hflush, World.call, h1, h2, ne_eq,
    not_true_eq_false, exchanged, writeCall, readCall]

/-- Every completed `GetCommand` on a configured port wrote exactly its frame,
and left the hub as it was. -/
theorem GetCommand_frames (mm : MM) (fuel : Nat) (w w1 : World) (command ret : Int)
    (answer ans : Str) (hport : w.hub.port_ ≠ [])
    (h : GetCommand mm fuel w command answer = some (ret, ans, w1)) :
    w1.hub = w.hub ∧ framesWritten w1.serial =
      framesWritten w.serial ++ [(putInt 2 '0' 50 ++ putInt 3 '0' command, ['\r'])] := by
  simp only [GetCommand, hport, if_false] at h
  cases hf : ClearAllRcvBuf mm fuel w with
  | none => simp [hf] at h
  | some w0 =>
    obtain ⟨e1, e2⟩ := ClearAllRcvBuf_spec mm fuel w w0 hf
    simp only [hf] at h
    split_ifs at h <;>
      (simp only [Option.some.injEq, Prod.mk.injEq] at h
       obtain ⟨-, -, rfl⟩ := h
       simp [World.call, framesWritten_append, framesWritten, e1, e2])

/-- A `GetCommand` that does not return `DEVICE_OK` leaves `answer` alone. -/
theorem GetCommand_error_keeps_answer (mm : MM) (fuel : Nat) (w w1 : World) (command ret : Int)
    (answer ans : Str) (h : GetCommand mm fuel w command answer = some (ret, ans, w1))
    (hret : ret ≠ mm.DEVICE_OK) : ans = answer := by
  simp only [GetCommand] at h
  split_ifs at h with hp
  · simp only [Option.some.injEq, Prod.mk.injEq] at h; exact h.2.1.symm
  · cases hf : ClearAllRcvBuf mm fuel w with
    | none => simp [hf] at h
    | some w0 =>
      simp only [hf] at h
      split_ifs at h <;>
        (simp only [Option.some.injEq, Prod.mk.injEq] at h
         first
           | exact h.2.1.symm
           | exact absurd h.1.symm hret)

theorem GetCommand_no_port (mm : MM) (fuel : Nat) (w : World) (command : Int) (answer : Str)
    (hport : w.hub.port_ = []) :
    GetCommand mm fuel w command answer = some (ERR_PORT_NOT_SET, answer, w) := by
  simp [GetCommand, hport]

end LeicaDMREHub

/-! ## C strings -/

theorem takeWhile_drop {α : Type} (p : α → Bool) : ∀ (k : Nat) (l : List α),
    k ≤ (l.takeWhile p).length → (l.drop k).takeWhile p = (l.takeWhile p).drop k := by
  intro k
  induction k with
  | zero => intro l _; rfl
  | succ k ih =>
    intro l h
    cases l with
    | nil => rfl
    | cons a t =>
      by_cases hp : p a = true
      · simp only [List.takeWhile_cons, hp, if_true, List.length_cons, List.drop_succ_cons] at h ⊢
        exact ih t (by omega)
      · simp [List.takeWhile_cons, hp] at h

theorem payload_eq_drop (rcvBuf : Str) :
    (if strlen rcvBuf > 5 then cstrFrom rcvBuf 5 else []) = (cstr rcvBuf).drop 5 := by
  unfold strlen
  split_ifs with h
  · exact takeWhile_drop _ 5 rcvBuf (by unfold cstr cstrFrom at h; simpa using h.le)
  · exact (List.drop_eq_nil_of_le (by omega)).symm

theorem cstr_of_no_nul (s : Str) (h : ∀ ch ∈ s, (ch != Char.ofNat 0) = true) : cstr s = s := by
  unfold cstr cstrFrom
  simpa using List.takeWhile_eq_self_iff.2 h

theorem intToDec_no_nul (d : Int) : ∀ ch ∈ intToDec d, (ch != Char.ofNat 0) = true := by
  intro ch hch
  unfold intToDec at hch
  split_ifs at hch
  · rcases List.mem_cons.1 hch with h | h
    · rw [h]; decide
    · exact isDigit_ne_nul (natToDec_digits _ ch h)
  · exact isDigit_ne_nul (natToDec_digits _ ch hch)

namespace LeicaDMREHub

theorem GetCommand_writes (mm : MM) (fuel : Nat) (w w1 : World) (command : Int) (answer : Str)
    (hport : w.hub.port_ ≠ []) (hflush : ClearAllRcvBuf mm fuel w = some w1) :
    ∃ ret ans w2, GetCommand mm fuel w command answer = some (ret, ans, w2) ∧
      framesWritten w2.serial =
        framesWritten w.serial ++ [(putInt 2 '0' 50 ++ putInt 3 '0' command, ['\r'])] := by
  have hsome : ∃ r, GetCommand mm fuel w command answer = some r := by
    simp only [GetCommand, hport, if_false, hflush]
    split_ifs <;> exact ⟨_, rfl⟩
  obtain ⟨⟨ret, ans, w2⟩, hr⟩ := hsome
  exact ⟨ret, ans, w2, hr, (GetCommand_frames mm fuel w w2 command ret answer ans hport hr).2⟩

theorem SetCommand_writes (mm : MM) (fuel : Nat) (w w1 : World) (command : Int)
    (hport : w.hub.port_ ≠ []) (hflush : ClearAllRcvBuf mm fuel w = some w1) :
    ∃ ret w2, SetCommand mm fuel w command = some (ret, w2) ∧
      framesWritten w2.serial =
        framesWritten w.serial ++ [(putInt 2 '0' 50 ++ putInt 3 '0' command, ['\r'])] := by
  obtain ⟨e1, e2⟩ := ClearAllRcvBuf_spec mm fuel w w1 hflush
  simp only [SetCommand, hport, if_false, hflush]
  split_ifs <;>
    exact ⟨_, _, rfl, by simp [World.call, framesWritten_append, framesWritten, e1, e2]⟩

theorem SetCommandData_writes (mm : MM) (fuel : Nat) (w w1 : World) (command data : Int)
    (hport : w.hub.port_ ≠ []) (hflush : ClearAllRcvBuf mm fuel w = some w1) :
    ∃ ret w2, SetCommandData mm fuel w command data = some (ret, w2) ∧
      framesWritten w2.serial = framesWritten w.serial ++
        [(putInt 2 '0' 50 ++ (putInt 3 '0' command ++ intToDec data), ['\r'])] := by
  obtain ⟨e1, e2⟩ := ClearAllRcvBuf_spec mm fuel w w1 hflush
  simp only [SetCommandData, hport, if_false, hflush]
  split_ifs <;>
    exact ⟨_, _, rfl, by simp [World.call, framesWritten_append, framesWritten, e1, e2]⟩

end LeicaDMREHub

/-! ## Plain decimal text -/

theorem decimalValue_eq_readDigits (s : Str) (hs : ∀ ch ∈ s, isDigit ch = true) :
    ∀ acc, s.foldl (fun a ch => a * 10 + digitVal ch) acc = readDigits s acc := by
  induction s with
  | nil => intro acc; rfl
  | cons a t ih =>
    intro acc
    have ha : isDigit a = true := hs a (List.mem_cons_self _ _)
    simp only [List.foldl_cons, readDigits, ha, if_true]
    exact ih (fun ch h => hs ch (List.mem_cons_of_mem _ h)) _

theorem intToDec_plain (d : Int) : IsPlainDecimal d (intToDec d) := by
  refine ⟨natToDec d.natAbs, ?_, natToDec_ne_nil _, natToDec_digits _, ?_, ?_⟩
  · unfold intToDec; split_ifs <;> rfl
  · intro h
    by_cases h0 : d.natAbs = 0
    · rw [h0]; rfl
    · exact absurd h (natToDec_head _ (Nat.pos_of_ne_zero h0))
  · unfold decimalValue
    rw [decimalValue_eq_readDigits _ (natToDec_digits _), readDigits_natToDec]

open LeicaDMREHub

/-! ## Frame encoding (C1, C2) -/

/-- C1: for every command id `c` in `[0,999]`, once the port is configured and
the flush has ended, `GetCommand` and the payload-less `SetCommand` each
complete and have written exactly one frame: the five characters `5`, `0` and
the three zero-padded decimal digits of `c`, with terminator `"\r"`. -/
theorem query_frame_is_fixed_width (mm : MM) (fuel : Nat) (w w1 : World) (c : Nat)
    (answer : Str) (hc : c ≤ 999) (hport : w.hub.port_ ≠ [])
    (hflush : ClearAllRcvBuf mm fuel w = some w1) :
    (∃ ret ans w2, GetCommand mm fuel w (c : Int) answer = some (ret, ans, w2) ∧
      framesWritten w2.serial = framesWritten w.serial ++
        [(['5', '0', digitChar (c / 100), digitChar (c / 10 % 10), digitChar (c % 10)], ['\r'])]) ∧
    (∃ ret w2, SetCommand mm fuel w (c : Int) = some (ret, w2) ∧
      framesWritten w2.serial = framesWritten w.serial ++
        [(['5', '0', digitChar (c / 100), digitChar (c / 10 % 10), digitChar (c % 10)], ['\r'])]) := by
  have hg := GetCommand_writes mm fuel w w1 (c : Int) answer hport hflush
  have hs := SetCommand_writes mm fuel w w1 (c : Int) hport hflush
  rw [putInt2_50, putInt3 hc] at hg hs
  exact ⟨hg, hs⟩

theorem query_frame_is_fixed_width_witness :
    (∃ ret ans w2, GetCommand (scriptedMM []) 1 com7 ((7 : Nat) : Int) [] = some (ret, ans, w2) ∧
      framesWritten w2.serial = framesWritten com7.serial ++
        [(['5', '0', digitChar (7 / 100), digitChar (7 / 10 % 10), digitChar (7 % 10)], ['\r'])]) ∧
    (∃ ret w2, SetCommand (scriptedMM []) 1 com7 ((7 : Nat) : Int) = some (ret, w2) ∧
      framesWritten w2.serial = framesWritten com7.serial ++
        [(['5', '0', digitChar (7 / 100), digitChar (7 / 10 % 10), digitChar (7 % 10)], ['\r'])]) :=
  query_frame_is_fixed_width (scriptedMM []) 1 com7 com7Flushed 7 [] (by decide) (by decide)
    (by decide)

/-- C2: for every command id `c` in `[0,999]` and every integer `d`, once the
port is configured and the flush has ended, `SetCommand(c, d)` completes and
has written exactly one frame: `5`, `0`, the three zero-padded digits of `c`,
then the text of `d`, which is its plain decimal representation (a leading `-`
exactly when negative, no padding, no leading zeros). -/
theorem action_frame_is_head_then_decimal (mm : MM) (fuel : Nat) (w w1 : World) (c : Nat)
    (d : Int) (hc : c ≤ 999) (hport : w.hub.port_ ≠ [])
    (hflush : ClearAllRcvBuf mm fuel w = some w1) :
    IsPlainDecimal d (intToDec d) ∧
    ∃ ret w2, SetCommandData mm fuel w (c : Int) d = some (ret, w2) ∧
      framesWritten w2.serial = framesWritten w.serial ++
        [(['5', '0', digitChar (c / 100), digitChar (c / 10 % 10), digitChar (c % 10)]
            ++ intToDec d, ['\r'])] := by
  have hs := SetCommandData_writes mm fuel w w1 (c : Int) d hport hflush
  rw [putInt2_50, putInt3 hc] at hs
  exact ⟨intToDec_plain d, by simpa using hs⟩

theorem action_frame_is_head_then_decimal_witness :
    IsPlainDecimal (-150) (intToDec (-150)) ∧
    ∃ ret w2, SetCommandData (scriptedMM []) 1 com7 ((6 : Nat) : Int) (-150) = some (ret, w2) ∧
      framesWritten w2.serial = framesWritten com7.serial ++
        [(['5', '0', digitChar (6 / 100), digitChar (6 / 10 % 10), digitChar (6 % 10)]
            ++ intToDec (-150), ['\r'])] :=
  action_frame_is_head_then_decimal (scriptedMM []) 1 com7 com7Flushed 6 (-150) (by decide)
    (by decide) (by decide)

/-! ## Response validation (C3, C4, C5) -/

theorem echo_of_fixedWidth (mm : MM) (d1 c1 : Nat) (payload : Str)
    (hd : d1 ≤ 99) (hc : c1 ≤ 999) :
    extractInt mm.deviceIdCheck0
        [charAt (fixedWidth d1 c1 ++ payload) 0, charAt (fixedWidth d1 c1 ++ payload) 1] = (d1 : Int) ∧
    extractInt mm.commandCheck0
        [charAt (fixedWidth d1 c1 ++ payload) 2, charAt (fixedWidth d1 c1 ++ payload) 3,
         charAt (fixedWidth d1 c1 ++ payload) 4] = (c1 : Int) := by
  have e1 : d1 / 10 * 10 + d1 % 10 = d1 := by omega
  have e2 : c1 / 100 * 100 + c1 / 10 % 10 * 10 + c1 % 10 = c1 := by omega
  constructor
  · simp only [fixedWidth, charAt, List.cons_append, List.getD_cons_zero, List.getD_cons_succ]
    rw [extractInt_field2 _ (by omega) (by omega), e1]
  · simp only [fixedWidth, charAt, List.cons_append, List.getD_cons_zero, List.getD_cons_succ]
    rw [extractInt_field3 _ (by omega) (by omega) (by omega), e2]

/-- C3: let `c` in `[0,999]` be the command sent on a configured port whose
flush has ended, and let the response start with the fixed-width encoding
(two zero-padded digits, three zero-padded digits) of a device id `d1` in
`[0,99]` and a command id `c1` in `[0,999]` with `(d1, c1) ≠ (50, c)`.  Then
`GetCommand`, `SetCommand(c)` and `SetCommand(c, data)` each return
`ERR_UNEXPECTED_ANSWER`, and `GetCommand` hands back the caller's `answer`
unmodified. -/
theorem mismatched_echo_is_unexpected_answer (mm : MM) (fuel : Nat) (w w1 : World)
    (c d1 c1 : Nat) (data : Int) (answer payload : Str)
    (hc : c ≤ 999) (hd1 : d1 ≤ 99) (hc1 : c1 ≤ 999) (hne : (d1, c1) ≠ (50, c))
    (hport : w.hub.port_ ≠ []) (hflush : ClearAllRcvBuf mm fuel w = some w1) :
    (Answers mm w1 (putInt 2 '0' 50 ++ putInt 3 '0' (c : Int))
        (putInt 2 '0' (d1 : Int) ++ (putInt 3 '0' (c1 : Int) ++ payload)) →
      GetCommand mm fuel w (c : Int) answer = some (ERR_UNEXPECTED_ANSWER, answer,
        exchanged w1 (putInt 2 '0' 50 ++ putInt 3 '0' (c : Int)))) ∧
    (Answers mm w1 (putInt 2 '0' 50 ++ putInt 3 '0' (c : Int))
        (putInt 2 '0' (d1 : Int) ++ (putInt 3 '0' (c1 : Int) ++ payload)) →
      SetCommand mm fuel w (c : Int) = some (ERR_UNEXPECTED_ANSWER,
        exchanged w1 (putInt 2 '0' 50 ++ putInt 3 '0' (c : Int)))) ∧
    (Answers mm w1 (putInt 2 '0' 50 ++ (putInt 3 '0' (c : Int) ++ intToDec data))
        (putInt 2 '0' (d1 : Int) ++ (putInt 3 '0' (c1 : Int) ++ payload)) →
      SetCommandData mm fuel w (c : Int) data = some (ERR_UNEXPECTED_ANSWER,
        exchanged w1 (putInt 2 '0' 50 ++ (putInt 3 '0' (c : Int) ++ intToDec data)))) := by
  have _ := hc
  have hbuf : putInt 2 '0' (d1 : Int) ++ (putInt 3 '0' (c1 : Int) ++ payload) =
      fixedWidth d1 c1 ++ payload := by
    rw [putInt2 hd1, putInt3 hc1]; rfl
  rw [hbuf]
  obtain ⟨e1, e2⟩ := echo_of_fixedWidth mm d1 c1 payload hd1 hc1
  have hmis : (50 : Int) ≠ (d1 : Int) ∨ (c : Int) ≠ (c1 : Int) := by
    by_cases h : d1 = 50
    · right
      intro h2
      apply hne
      have : c1 = c := by exact_mod_cast h2.symm
      rw [h, this]
    · left
      intro h2
      apply h
      exact_mod_cast h2.symm
  refine ⟨fun ha => ?_, fun ha => ?_, fun ha => ?_⟩
  · rw [GetCommand_answered mm fuel w w1 _ answer _ hport hflush ha, e1, e2, if_pos hmis]
  · rw [SetCommand_answered mm fuel w w1 _ _ hport hflush ha, e1, e2, if_pos hmis]
  · rw [SetCommandData_answered mm fuel w w1 _ _ _ hport hflush ha, e1, e2, if_pos hmis]

theorem mismatched_echo_is_unexpected_answer_witness :
    GetCommand (scriptedMM [(0, "5002412".toList)]) 1 com7 ((25 : Nat) : Int) "old".toList =
      some (ERR_UNEXPECTED_ANSWER, "old".toList,
        exchanged com7Flushed (putInt 2 '0' 50 ++ putInt 3 '0' ((25 : Nat) : Int))) ∧
    SetCommand (scriptedMM [(0, "5002412".toList)]) 1 com7 ((25 : Nat) : Int) =
      some (ERR_UNEXPECTED_ANSWER,
        exchanged com7Flushed (putInt 2 '0' 50 ++ putInt 3 '0' ((25 : Nat) : Int))) ∧
    SetCommandData (scriptedMM [(0, "5002412".toList)]) 1 com7 ((25 : Nat) : Int) 3 =
      some (ERR_UNEXPECTED_ANSWER,
        exchanged com7Flushed (putInt 2 '0' 50 ++ (putInt 3 '0' ((25 : Nat) : Int) ++ intToDec 3))) :=
  have h := mismatched_echo_is_unexpected_answer (scriptedMM [(0, "5002412".toList)]) 1 com7
    com7Flushed 25 50 24 3 "old".toList "12".toList (by decide) (by decide) (by decide)
    (by decide) (by decide) (by decide)
  ⟨h.1 ⟨by decide, by decide⟩, h.2.1 ⟨by decide, by decide⟩, h.2.2 ⟨by decide, by decide⟩⟩

/-- C4: when the response passes the echo test, `GetCommand` returns
`DEVICE_OK` and its payload is the response string from offset 5 to its end;
a response of exactly five characters gives the empty payload with
`DEVICE_OK`. -/
theorem payload_is_response_from_offset_five (mm : MM) (fuel : Nat) (w w1 : World)
    (command : Int) (answer rcvBuf : Str) (hport : w.hub.port_ ≠ [])
    (hflush : ClearAllRcvBuf mm fuel w = some w1)
    (hans : Answers mm w1 (putInt 2 '0' 50 ++ putInt 3 '0' command) rcvBuf)
    (hecho : EchoAccepted mm command rcvBuf) :
    GetCommand mm fuel w command answer = some (mm.DEVICE_OK, (cstr rcvBuf).drop 5,
      exchanged w1 (putInt 2 '0' 50 ++ putInt 3 '0' command)) ∧
    ((cstr rcvBuf).length = 5 →
      GetCommand mm fuel w command answer = some (mm.DEVICE_OK, [],
        exchanged w1 (putInt 2 '0' 50 ++ putInt 3 '0' command))) := by
  have hok : ¬ ((50 : Int) ≠ extractInt mm.deviceIdCheck0 [charAt rcvBuf 0, charAt rcvBuf 1] ∨
      command ≠ extractInt mm.commandCheck0
        [charAt rcvBuf 2, charAt rcvBuf 3, charAt rcvBuf 4]) := by
    rintro (h | h)
    · exact h hecho.1
    · exact h hecho.2
  have hmain := GetCommand_answered mm fuel w w1 command answer rcvBuf hport hflush hans
  rw [if_neg hok, payload_eq_drop] at hmain
  refine ⟨hmain, fun h5 => ?_⟩
  rw [hmain, List.drop_eq_nil_of_le (by omega)]

theorem payload_is_response_from_offset_five_witness :
    (GetCommand (scriptedMM [(0, "50025".toList)]) 1 com7 25 "old".toList =
      some ((scriptedMM [(0, "50025".toList)]).DEVICE_OK, (cstr "50025".toList).drop 5,
        exchanged com7Flushed (putInt 2 '0' 50 ++ putInt 3 '0' 25))) ∧
    ((cstr "50025".toList).length = 5 →
      GetCommand (scriptedMM [(0, "50025".toList)]) 1 com7 25 "old".toList =
        some ((scriptedMM [(0, "50025".toList)]).DEVICE_OK, [],
          exchanged com7Flushed (putInt 2 '0' 50 ++ putInt 3 '0' 25))) :=
  payload_is_response_from_offset_five (scriptedMM [(0, "50025".toList)]) 1 com7 com7Flushed 25
    "old".toList "50025".toList (by decide) (by decide) ⟨by decide, by decide⟩
    ⟨by decide, by decide⟩

theorem head_eq_fixedWidth {c : Nat} (hc : c ≤ 999) :
    putInt 2 '0' 50 ++ putInt 3 '0' (c : Int) = fixedWidth 50 c := by
  rw [putInt2_50, putInt3 hc]; rfl

theorem fixedWidth_no_nul (d c : Nat) (hd : d ≤ 99) (hc : c ≤ 999) :
    ∀ ch ∈ fixedWidth d c, (ch != Char.ofNat 0) = true := by
  intro ch hch
  apply isDigit_ne_nul
  simp only [fixedWidth, List.mem_cons, List.mem_singleton, List.not_mem_nil, or_false] at hch
  rcases hch with h | h | h | h | h <;> (rw [h]; apply isDigit_digitChar; omega)

/-- C5: round trip.  For every command id `c` in `[0,999]` and every 32-bit
signed integer `d`, if the transport answers `GetCommand(c)` with the frame
that `SetCommand(c, d)` writes, then `GetCommand` returns `DEVICE_OK` with the
decimal text of `d` as payload, and the integer-typed `GetCommand` returns
`DEVICE_OK` with the value `d`. -/
theorem frame_round_trip (mm : MM) (fuel : Nat) (w w1 : World) (c : Nat) (d prev : Int)
    (answer : Str) (hc : c ≤ 999) (hlo : -2147483648 ≤ d) (hhi : d ≤ 2147483647)
    (hport : w.hub.port_ ≠ []) (hflush : ClearAllRcvBuf mm fuel w = some w1)
    (hans : Answers mm w1 (putInt 2 '0' 50 ++ putInt 3 '0' (c : Int))
      (putInt 2 '0' 50 ++ (putInt 3 '0' (c : Int) ++ intToDec d))) :
    GetCommand mm fuel w (c : Int) answer = some (mm.DEVICE_OK, intToDec d,
      exchanged w1 (putInt 2 '0' 50 ++ putInt 3 '0' (c : Int))) ∧
    GetCommandInt mm fuel w (c : Int) prev = some (mm.DEVICE_OK, d,
      exchanged w1 (putInt 2 '0' 50 ++ putInt 3 '0' (c : Int))) := by
  have hbuf : putInt 2 '0' 50 ++ (putInt 3 '0' (c : Int) ++ intToDec d) =
      fixedWidth 50 c ++ intToDec d := by
    rw [← List.append_assoc, head_eq_fixedWidth hc]
  rw [hbuf] at hans
  obtain ⟨e1, e2⟩ := echo_of_fixedWidth mm 50 c (intToDec d) (by omega) hc
  have hok : ¬ ((50 : Int) ≠ ((50 : Nat) : Int) ∨ (c : Int) ≠ (c : Int)) := by simp
  have hnn : ∀ ch ∈ fixedWidth 50 c ++ intToDec d, (ch != Char.ofNat 0) = true := by
    intro ch hch
    rcases List.mem_append.1 hch with h | h
    · exact fixedWidth_no_nul 50 c (by omega) hc ch h
    · exact intToDec_no_nul d ch h
  have hpay : (cstr (fixedWidth 50 c ++ intToDec d)).drop 5 = intToDec d := by
    rw [cstr_of_no_nul _ hnn]; rfl
  have hget : ∀ a : Str, GetCommand mm fuel w (c : Int) a = some (mm.DEVICE_OK, intToDec d,
      exchanged w1 (putInt 2 '0' 50 ++ putInt 3 '0' (c : Int))) := by
    intro a
    rw [GetCommand_answered mm fuel w w1 _ a _ hport hflush hans, e1, e2, if_neg hok,
      payload_eq_drop, hpay]
  refine ⟨hget answer, ?_⟩
  simp only [GetCommandInt, hget [], ne_eq, not_true_eq_false, if_false,
    extractInt_intToDec prev d hlo hhi]

theorem frame_round_trip_witness :
    GetCommand (scriptedMM [(0, "50008-2147483648".toList)]) 1 com7 ((8 : Nat) : Int) [] =
      some ((scriptedMM [(0, "50008-2147483648".toList)]).DEVICE_OK, intToDec (-2147483648),
        exchanged com7Flushed (putInt 2 '0' 50 ++ putInt 3 '0' ((8 : Nat) : Int))) ∧
    GetCommandInt (scriptedMM [(0, "50008-2147483648".toList)]) 1 com7 ((8 : Nat) : Int) 77 =
      some ((scriptedMM [(0, "50008-2147483648".toList)]).DEVICE_OK, -2147483648,
        exchanged com7Flushed (putInt 2 '0' 50 ++ putInt 3 '0' ((8 : Nat) : Int))) :=
  frame_round_trip (scriptedMM [(0, "50008-2147483648".toList)]) 1 com7 com7Flushed 8
    (-2147483648) 77 [] (by decide) (by decide) (by decide) (by decide) (by decide)
    ⟨by decide, by decide⟩

/-! ## Port not set (C6) -/

/-- C6: when the hub's port is the empty string, `GetCommand`, `SetCommand(c)`
and `SetCommand(c, data)` return `ERR_PORT_NOT_SET` for every command, for
every transport and without any flush: the world, and with it the log of
serial calls, is returned unchanged (no flush read, no write, no read). -/
theorem port_not_set_does_no_io (mm : MM) (fuel : Nat) (w : World) (command data : Int)
    (answer : Str) (hport : w.hub.port_ = []) :
    GetCommand mm fuel w command answer = some (ERR_PORT_NOT_SET, answer, w) ∧
    SetCommand mm fuel w command = some (ERR_PORT_NOT_SET, w) ∧
    SetCommandData mm fuel w command data = some (ERR_PORT_NOT_SET, w) := by
  simp [GetCommand, SetCommand, SetCommandData, hport]

theorem port_not_set_does_no_io_witness :
    GetCommand (scriptedMM [(0, "50025".toList)]) 0 noPort 25 [] =
      some (ERR_PORT_NOT_SET, [], noPort) ∧
    SetCommand (scriptedMM [(0, "50025".toList)]) 0 noPort 25 = some (ERR_PORT_NOT_SET, noPort) ∧
    SetCommandData (scriptedMM [(0, "50025".toList)]) 0 noPort 25 3 =
      some (ERR_PORT_NOT_SET, noPort) :=
  port_not_set_does_no_io (scriptedMM [(0, "50025".toList)]) 0 noPort 25 3 [] (by decide)

/-! ## Start-up handshake (C7 to C10) -/

namespace LeicaDMREHub

/-- Every completed `GetCommand` leaves the hub as it was and writes its frame
exactly when a port is configured. -/
theorem GetCommand_effect (mm : MM) (fuel : Nat) (w w1 : World) (command ret : Int)
    (answer ans : Str) (h : GetCommand mm fuel w command answer = some (ret, ans, w1)) :
    w1.hub = w.hub ∧ framesWritten w1.serial = framesWritten w.serial ++
      (if w.hub.port_ = [] then []
       else [(putInt 2 '0' 50 ++ putInt 3 '0' command, ['\r'])]) := by
  by_cases hp : w.hub.port_ = []
  · rw [GetCommand_no_port mm fuel w command answer hp] at h
    simp only [Option.some.injEq, Prod.mk.injEq] at h
    obtain ⟨-, -, rfl⟩ := h
    simp [hp]
  · simpa [hp] using GetCommand_frames mm fuel w w1 command ret answer ans hp h

end LeicaDMREHub

/-- For every framework: when the version query succeeds at once and the
microscope-type query is answered with a correct echo, `Initialize` returns
the value of `!DEVICE_OK`, which differs from `DEVICE_OK`, and the hub stays
uninitialised. -/
theorem Initialize_answered_type_query (mm : MM) (fuel : Nat) (w w1 w2 : World) (v m : Str)
    (hinit : w.hub.initialized_ = false)
    (h1 : GetVersion mm fuel w w.hub.version_ = some (mm.DEVICE_OK, v, w1))
    (h2 : GetCommand mm fuel (storeVersion w1 v) 26 (storeVersion w1 v).hub.microscope_ =
      some (mm.DEVICE_OK, m, w2)) :
    mm.notDEVICE_OK ≠ mm.DEVICE_OK ∧
    Initialize mm fuel w = some (mm.notDEVICE_OK, storeMicroscope w2 m) ∧
    Initialized (storeMicroscope w2 m) = false := by
  have hne : mm.notDEVICE_OK ≠ mm.DEVICE_OK := by
    unfold MM.notDEVICE_OK
    split_ifs with h0
    · rw [h0]; decide
    · exact fun h => h0 h.symm
  obtain ⟨hh1, -⟩ := GetCommand_effect mm fuel w w1 25 _ _ _ h1
  obtain ⟨hh2, -⟩ := GetCommand_effect mm fuel _ w2 26 _ _ _ h2
  refine ⟨hne, ?_, ?_⟩
  · simp only [Initialize, hinit, h1, GetMicroscope, h2, ne_eq, not_true_eq_false, if_false,
      hne, not_false_eq_true, if_true, Bool.false_eq_true]
  · simp [Initialized, storeMicroscope, hh2, storeVersion, hh1, hinit]

/-- C7 (failing input): on port `COM7`, with a transport that answers the
version query with `50025V1.2` and the microscope-type query with
`50026DMRXE`, both queries return `DEVICE_OK`, yet `Initialize` returns 1
(not `DEVICE_OK = 0`) and `Initialized()` is false; `Microscope()` is the
payload `DMRXE`. -/
theorem Initialize_fails_on_healthy_transport :
    (GetVersion healthyMM 1 com7 []).map (fun r => (r.1, r.2.1)) = some (0, "V1.2".toList) ∧
    ((GetVersion healthyMM 1 com7 []).bind
      (fun r => (GetCommand healthyMM 1 (storeVersion r.2.2 r.2.1) 26 []).map
        (fun r2 => (r2.1, r2.2.1)))) = some (0, "DMRXE".toList) ∧
    (Initialize healthyMM 1 com7).map (fun r => (r.1, Initialized r.2, Microscope r.2)) =
      some (1, false, "DMRXE".toList) := by
  decide

/-- C8 (failing input): on port `COM7`, the first version query times out, the
second is answered `50025V1.2` (status 0), and the microscope-type query is
answered `50026DMRXE` (status 0); `Initialize` returns 1 (not `DEVICE_OK = 0`) and
`Initialized()` is false. -/
theorem Initialize_fails_after_successful_retry :
    (GetVersion retryMM 1 com7 []).map (fun r => r.1) = some 14 ∧
    ((GetVersion retryMM 1 com7 []).bind
      (fun r => (GetVersion retryMM 1 (storeVersion r.2.2 r.2.1) []).map
        (fun r2 => (r2.1, r2.2.1)))) =
        some (0, "V1.2".toList) ∧
    ((GetVersion retryMM 1 com7 []).bind
      (fun r => (GetVersion retryMM 1 (storeVersion r.2.2 r.2.1) []).bind
        (fun r2 => (GetCommand retryMM 1 (storeVersion r2.2.2 r2.2.1) 26 []).map
          (fun r3 => (r3.1, r3.2.1))))) = some (0, "DMRXE".toList) ∧
    (Initialize retryMM 1 com7).map (fun r => (r.1, Initialized r.2)) = some (1, false) := by
  decide

/-- C9: if the hub is not initialised and the version query fails twice in a
row, `Initialize` returns the status of the second attempt, `Initialized()`
stays false and the hub is unchanged; the world is the one left by the second
version query, and the frames written are the two version frames `50025` (none
when no port is set), so no microscope-type frame `50026` is written. -/
theorem Initialize_two_version_failures (mm : MM) (fuel : Nat) (w w1 w2 : World)
    (e1 e2 : Int) (v1 v2 : Str) (hinit : w.hub.initialized_ = false)
    (h1 : GetVersion mm fuel w w.hub.version_ = some (e1, v1, w1)) (he1 : e1 ≠ mm.DEVICE_OK)
    (h2 : GetVersion mm fuel (storeVersion w1 v1) (storeVersion w1 v1).hub.version_ =
      some (e2, v2, w2)) (he2 : e2 ≠ mm.DEVICE_OK) :
    Initialize mm fuel w = some (e2, storeVersion w2 v2) ∧
    Initialized (storeVersion w2 v2) = false ∧
    (storeVersion w2 v2).hub = w.hub ∧
    (storeVersion w2 v2).serial = w2.serial ∧
    framesWritten (storeVersion w2 v2).serial = framesWritten w.serial ++
      (if w.hub.port_ = [] then []
       else [("50025".toList, ['\r']), ("50025".toList, ['\r'])]) := by
  have hv1 : v1 = w.hub.version_ := GetCommand_error_keeps_answer mm fuel w w1 25 e1 _ _ h1 he1
  have hv2 : v2 = (storeVersion w1 v1).hub.version_ :=
    GetCommand_error_keeps_answer mm fuel _ w2 25 e2 _ _ h2 he2
  obtain ⟨hh1, hf1⟩ := GetCommand_effect mm fuel w w1 25 _ _ _ h1
  obtain ⟨hh2, hf2⟩ := GetCommand_effect mm fuel _ w2 25 _ _ _ h2
  have hfr : putInt 2 '0' 50 ++ putInt 3 '0' 25 = "50025".toList := by decide
  have hhub : (storeVersion w2 v2).hub = w.hub := by
    simp only [storeVersion] at hh2 hv2 ⊢
    rw [hv2, hh2, hv1, hh1]
  refine ⟨?_, ?_, hhub, rfl, ?_⟩
  · simp only [Initialize, hinit, h1, he1, h2, he2, ne_eq, not_false_eq_true, if_true,
      Bool.false_eq_true, if_false]
  · simp [Initialized, hhub, hinit]
  · have hs : (storeVersion w2 v2).serial = w2.serial := rfl
    have hp : (storeVersion w1 v1).hub.port_ = w.hub.port_ := by simp [storeVersion, hh1]
    have hs1 : (storeVersion w1 v1).serial = w1.serial := rfl
    rw [hs, hf2, hp, hs1, hf1, hfr]
    by_cases hport : w.hub.port_ = [] <;> simp [hport]

theorem Initialize_two_version_failures_witness :
    Initialize (scriptedMM []) 1 com7 =
      some (14, storeVersion (exchanged
        (((storeVersion (exchanged com7Flushed "50025".toList) []).call
          (SerialOp.ReadFromSerial "COM7".toList RCV_BUF_LENGTH))) "50025".toList) []) ∧
    Initialized (storeVersion (exchanged
        (((storeVersion (exchanged com7Flushed "50025".toList) []).call
          (SerialOp.ReadFromSerial "COM7".toList RCV_BUF_LENGTH))) "50025".toList) []) = false ∧
    (storeVersion (exchanged
        (((storeVersion (exchanged com7Flushed "50025".toList) []).call
          (SerialOp.ReadFromSerial "COM7".toList RCV_BUF_LENGTH))) "50025".toList) []).hub =
      com7.hub ∧
    (storeVersion (exchanged
        (((storeVersion (exchanged com7Flushed "50025".toList) []).call
          (SerialOp.ReadFromSerial "COM7".toList RCV_BUF_LENGTH))) "50025".toList) []).serial =
      (exchanged
        (((storeVersion (exchanged com7Flushed "50025".toList) []).call
          (SerialOp.ReadFromSerial "COM7".toList RCV_BUF_LENGTH))) "50025".toList).serial ∧
    framesWritten (storeVersion (exchanged
        (((storeVersion (exchanged com7Flushed "50025".toList) []).call
          (SerialOp.ReadFromSerial "COM7".toList RCV_BUF_LENGTH))) "50025".toList) []).serial =
      framesWritten com7.serial ++
        (if com7.hub.port_ = [] then []
         else [("50025".toList, ['\r']), ("50025".toList, ['\r'])]) :=
  Initialize_two_version_failures (scriptedMM []) 1 com7 (exchanged com7Flushed "50025".toList)
    (exchanged (((storeVersion (exchanged com7Flushed "50025".toList) []).call
      (SerialOp.ReadFromSerial "COM7".toList RCV_BUF_LENGTH))) "50025".toList)
    14 14 [] [] (by decide) (by decide) (by decide) (by decide) (by decide)

/-- C10: scenario with port `COM7`.  If the hub is not initialised, the version
query succeeds on the first try and the microscope-type query (command 26)
fails with any status, then `Initialize` returns `DEVICE_OK`, `Initialized()`
is true, `Microscope()` is the placeholder `RxE`, and the frames written are
exactly `50025` then `50026`. -/
theorem Initialize_defaults_microscope_type (mm : MM) (fuel : Nat) (w w1 w2 : World)
    (e : Int) (v m : Str) (hport : w.hub.port_ = "COM7".toList)
    (hinit : w.hub.initialized_ = false)
    (h1 : GetVersion mm fuel w w.hub.version_ = some (mm.DEVICE_OK, v, w1))
    (h2 : GetCommand mm fuel (storeVersion w1 v) 26 (storeVersion w1 v).hub.microscope_ =
      some (e, m, w2)) (he : e ≠ mm.DEVICE_OK) :
    ∃ w3, Initialize mm fuel w = some (mm.DEVICE_OK, w3) ∧
      Initialized w3 = true ∧ Microscope w3 = "RxE".toList ∧
      framesWritten w3.serial = framesWritten w.serial ++
        [("50025".toList, ['\r']), ("50026".toList, ['\r'])] := by
  have hp : w.hub.port_ ≠ [] := by rw [hport]; decide
  obtain ⟨hh1, hf1⟩ := GetCommand_frames mm fuel w w1 25 _ _ _ hp h1
  have hp1 : (storeVersion w1 v).hub.port_ ≠ [] := by simpa [storeVersion, hh1] using hp
  obtain ⟨-, hf2⟩ := GetCommand_frames mm fuel _ w2 26 _ _ _ hp1 h2
  have hfr1 : putInt 2 '0' 50 ++ putInt 3 '0' 25 = "50025".toList := by decide
  have hfr2 : putInt 2 '0' 50 ++ putInt 3 '0' 26 = "50026".toList := by decide
  refine ⟨{ storeMicroscope w2 "RxE".toList with
    hub := { (storeMicroscope w2 "RxE".toList).hub with initialized_ := true } }, ?_, rfl, rfl, ?_⟩
  · simp only [Initialize, hinit, h1, GetMicroscope, h2, he, ne_eq, not_true_eq_false, if_false,
      not_false_eq_true, if_true, Bool.false_eq_true]
  · have hs1 : (storeVersion w1 v).serial = w1.serial := rfl
    show framesWritten w2.serial = _
    rw [hf2, hs1, hf1, hfr1, hfr2]
    simp

theorem Initialize_defaults_microscope_type_witness :
    ∃ w3, Initialize (scriptedMM [(0, "50025V1.2".toList)]) 1 com7 =
        some ((scriptedMM [(0, "50025V1.2".toList)]).DEVICE_OK, w3) ∧
      Initialized w3 = true ∧ Microscope w3 = "RxE".toList ∧
      framesWritten w3.serial = framesWritten com7.serial ++
        [("50025".toList, ['\r']), ("50026".toList, ['\r'])] :=
  Initialize_defaults_microscope_type (scriptedMM [(0, "50025V1.2".toList)]) 1 com7
    (exchanged com7Flushed "50025".toList)
    (exchanged (((storeVersion (exchanged com7Flushed "50025".toList) "V1.2".toList).call
      (SerialOp.ReadFromSerial "COM7".toList RCV_BUF_LENGTH))) "50026".toList)
    14 "V1.2".toList [] (by decide) (by decide) (by decide) (by decide) (by decide)


/-! ## Connect and disconnect (C11, C12) -/

/-- C11: whenever `Initialized()` is true, `Initialize` returns `DEVICE_OK` at
once, for every transport and without any flush: the world is returned as it
was, so no serial call is made and port, version, microscope type and
connection state are unchanged. -/
theorem Initialize_is_idempotent_when_connected (mm : MM) (fuel : Nat) (w : World)
    (hinit : Initialized w = true) :
    Initialize mm fuel w = some (mm.DEVICE_OK, w) := by
  simp only [Initialized] at hinit
  simp [Initialize, hinit]

theorem Initialize_is_idempotent_when_connected_witness :
    Initialize (scriptedMM []) 0 connected = some ((scriptedMM []).DEVICE_OK, connected) :=
  Initialize_is_idempotent_when_connected (scriptedMM []) 0 connected (by decide)

/-- C12: `DeInitialize` always returns `DEVICE_OK`, leaves `Initialized()`
false, makes no serial call and leaves the port unchanged, and applying it
twice gives the same result as applying it once.  `Hub::Shutdown` likewise
always returns `DEVICE_OK`, makes no serial call, changes neither port, leaves
the facade uninitialised, and applied twice gives the same state as once. -/
theorem DeInitialize_is_idempotent (mm : MM) (w : World) (h : Hub) :
    ((DeInitialize mm w).1 = mm.DEVICE_OK ∧
      Initialized (DeInitialize mm w).2 = false ∧
      (DeInitialize mm w).2.serial = w.serial ∧
      (DeInitialize mm w).2.hub.port_ = w.hub.port_ ∧
      DeInitialize mm (DeInitialize mm w).2 = DeInitialize mm w) ∧
    ((Hub.Shutdown mm h w).1 = mm.DEVICE_OK ∧
      (Hub.Shutdown mm h w).2.1.initialized_ = false ∧
      (Hub.Shutdown mm h w).2.1.port_ = h.port_ ∧
      (Hub.Shutdown mm h w).2.2.serial = w.serial ∧
      (Hub.Shutdown mm h w).2.2.hub.port_ = w.hub.port_ ∧
      Hub.Shutdown mm (Hub.Shutdown mm h w).2.1 (Hub.Shutdown mm h w).2.2 =
        Hub.Shutdown mm h w) := by
  refine ⟨⟨rfl, rfl, rfl, rfl, rfl⟩, ?_⟩
  cases hi : h.initialized_ <;> simp [Hub.Shutdown, hi, DeInitialize]

/-! ## The integer-typed query (C13) -/

/-- C13 (counterexample): on port `COM7` the response `50009abc` (payload `abc`)
and the response `50009` (empty payload) both make the integer-typed
`GetCommand` return `DEVICE_OK` (0), with value 0 and with the caller's value
77 respectively; no parse error is reported. -/
theorem GetCommandInt_accepts_non_numeric_payload :
    (GetCommandInt (scriptedMM [(0, "50009abc".toList)]) 1 com7 9 77).map
        (fun r => (r.1, r.2.1)) = some (0, 0) ∧
    (GetCommandInt (scriptedMM [(0, "50009".toList)]) 1 com7 9 77).map
        (fun r => (r.1, r.2.1)) = some (0, 77) := by
  decide

/-- C13 (amended): whenever the response passes the echo test, the
integer-typed `GetCommand` returns `DEVICE_OK`, numeric payload or not; the
value handed back is what stream extraction yields from the payload (the
response from offset 5): the caller's value for an empty payload, and `d` when
the payload is the decimal text of a 32-bit integer `d`. -/
theorem GetCommandInt_never_reports_parse_error (mm : MM) (fuel : Nat) (w w1 : World)
    (command prev : Int) (rcvBuf : Str) (hport : w.hub.port_ ≠ [])
    (hflush : ClearAllRcvBuf mm fuel w = some w1)
    (hans : Answers mm w1 (putInt 2 '0' 50 ++ putInt 3 '0' command) rcvBuf)
    (hecho : EchoAccepted mm command rcvBuf) :
    GetCommandInt mm fuel w command prev = some (mm.DEVICE_OK,
      extractInt prev ((cstr rcvBuf).drop 5),
      exchanged w1 (putInt 2 '0' 50 ++ putInt 3 '0' command)) ∧
    ((cstr rcvBuf).drop 5 = [] → extractInt prev ((cstr rcvBuf).drop 5) = prev) ∧
    (∀ d : Int, -2147483648 ≤ d → d ≤ 2147483647 → (cstr rcvBuf).drop 5 = intToDec d →
      extractInt prev ((cstr rcvBuf).drop 5) = d) := by
  have hok : ¬ ((50 : Int) ≠ extractInt mm.deviceIdCheck0 [charAt rcvBuf 0, charAt rcvBuf 1] ∨
      command ≠ extractInt mm.commandCheck0
        [charAt rcvBuf 2, charAt rcvBuf 3, charAt rcvBuf 4]) := by
    rintro (h | h)
    · exact h hecho.1
    · exact h hecho.2
  have hget := GetCommand_answered mm fuel w w1 command [] rcvBuf hport hflush hans
  rw [if_neg hok, payload_eq_drop] at hget
  refine ⟨?_, ?_, ?_⟩
  · simp only [GetCommandInt, hget, ne_eq, not_true_eq_false, if_false]
  · intro h; rw [h]; rfl
  · intro d h1 h2 h; rw [h]; exact extractInt_intToDec prev d h1 h2

theorem GetCommandInt_never_reports_parse_error_witness :
    GetCommandInt (scriptedMM [(0, "50009abc".toList)]) 1 com7 9 77 =
        some ((scriptedMM [(0, "50009abc".toList)]).DEVICE_OK,
          extractInt 77 ((cstr "50009abc".toList).drop 5),
          exchanged com7Flushed (putInt 2 '0' 50 ++ putInt 3 '0' 9)) ∧
    ((cstr "50009abc".toList).drop 5 = [] →
      extractInt 77 ((cstr "50009abc".toList).drop 5) = 77) ∧
    (∀ d : Int, -2147483648 ≤ d → d ≤ 2147483647 →
      (cstr "50009abc".toList).drop 5 = intToDec d →
      extractInt 77 ((cstr "50009abc".toList).drop 5) = d) :=
  GetCommandInt_never_reports_parse_error (scriptedMM [(0, "50009abc".toList)]) 1 com7
    com7Flushed 9 77 "50009abc".toList (by decide) (by decide) ⟨by decide, by decide⟩
    ⟨by decide, by decide⟩

/-! ## Lamp (C14, C15) -/

theorem castInt_of_fits (v : Int) (h1 : -2147483648 ≤ v) (h2 : v ≤ 2147483647) :
    castInt v = v := by
  unfold castInt
  omega

namespace LeicaDMREHub

/-- Every completed `SetCommand(command, data)` on a configured port wrote
exactly its frame, and left the hub as it was. -/
theorem SetCommandData_frames (mm : MM) (fuel : Nat) (w w1 : World) (command data ret : Int)
    (hport : w.hub.port_ ≠ [])
    (h : SetCommandData mm fuel w command data = some (ret, w1)) :
    w1.hub = w.hub ∧ framesWritten w1.serial = framesWritten w.serial ++
      [(putInt 2 '0' 50 ++ (putInt 3 '0' command ++ intToDec data), ['\r'])] := by
  simp only [SetCommandData, hport, if_false] at h
  cases hf : ClearAllRcvBuf mm fuel w with
  | none => simp [hf] at h
  | some w0 =>
    obtain ⟨e1, e2⟩ := ClearAllRcvBuf_spec mm fuel w w0 hf
    simp only [hf] at h
    split_ifs at h <;>
      (simp only [Option.some.injEq, Prod.mk.injEq] at h
       obtain ⟨-, rfl⟩ := h
       simp [World.call, framesWritten_append, framesWritten, e1, e2])

end LeicaDMREHub

/-- What `Lamp::SetOpen` writes: one frame, `50006` followed by the decimal
text of the cached intensity (open) or of zero (close); the cached intensity
and the hub are left as they were. -/
theorem Lamp_SetOpen_writes (mm : MM) (fuel : Nat) (w w1 : World) (l : Lamp) (o : Bool)
    (hport : w.hub.port_ ≠ []) (hflush : ClearAllRcvBuf mm fuel w = some w1) :
    ∃ ret l2 w2, Lamp.SetOpen mm fuel w l o = some (ret, l2, w2) ∧
      l2.intensity_ = l.intensity_ ∧ w2.hub = w.hub ∧
      (ret = mm.DEVICE_OK → l2.open_ = o) ∧
      framesWritten w2.serial = framesWritten w.serial ++
        [("50006".toList ++ intToDec (if o then l.intensity_ else 0), ['\r'])] := by
  have hhead : putInt 2 '0' 50 ++ (putInt 3 '0' 6 ++ intToDec (if o then l.intensity_ else 0)) =
      "50006".toList ++ intToDec (if o then l.intensity_ else 0) := by
    have : putInt 2 '0' 50 ++ putInt 3 '0' 6 = "50006".toList := by decide
    rw [← List.append_assoc, this]
  obtain ⟨ret, w2, hr, -⟩ :=
    SetCommandData_writes mm fuel w w1 6 (if o then l.intensity_ else 0) hport hflush
  obtain ⟨hh, hf⟩ := SetCommandData_frames mm fuel w w2 6 _ ret hport hr
  rw [hhead] at hf
  cases o with
  | true =>
    simp only [if_true] at hr hf ⊢
    by_cases hret : ret = mm.DEVICE_OK
    · refine ⟨mm.DEVICE_OK, { l with open_ := true }, w2, ?_, rfl, hh, fun _ => rfl, hf⟩
      simp [Lamp.SetOpen, SetLampIntensity, hr, hret]
    · refine ⟨ret, l, w2, ?_, rfl, hh, fun h => absurd h hret, hf⟩
      simp [Lamp.SetOpen, SetLampIntensity, hr, hret]
  | false =>
    simp only [Bool.false_eq_true, if_false] at hr hf ⊢
    by_cases hret : ret = mm.DEVICE_OK
    · refine ⟨mm.DEVICE_OK, { l with open_ := false }, w2, ?_, rfl, hh, fun _ => rfl, hf⟩
      simp [Lamp.SetOpen, SetLampIntensity, hr, hret]
    · refine ⟨ret, l, w2, ?_, rfl, hh, fun h => absurd h hret, hf⟩
      simp [Lamp.SetOpen, SetLampIntensity, hr, hret]

/-- C14: for every intensity `v` (a value of `int`), setting the Intensity
property while the lamp is closed returns `DEVICE_OK` with the world unchanged
(no serial call, whatever the transport) and `v` as cached intensity; a
following `SetOpen(true)` on a configured port whose flush ends completes and
writes exactly one frame, `50006` followed by the decimal text of `v`. -/
theorem Lamp_intensity_is_cached_while_closed (mm : MM) (fuel : Nat) (w w1 : World) (l : Lamp)
    (v : Int) (hlo : -2147483648 ≤ v) (hhi : v ≤ 2147483647) (hclosed : l.open_ = false)
    (hport : w.hub.port_ ≠ []) (hflush : ClearAllRcvBuf mm fuel w = some w1) :
    Lamp.OnIntensity mm fuel w l v ActionType.AfterSet =
      some (mm.DEVICE_OK, { l with intensity_ := v }, w, v) ∧
    ∃ ret l2 w2, Lamp.SetOpen mm fuel w { l with intensity_ := v } true = some (ret, l2, w2) ∧
      framesWritten w2.serial = framesWritten w.serial ++
        [("50006".toList ++ intToDec v, ['\r'])] := by
  constructor
  · simp [Lamp.OnIntensity, hclosed, castInt_of_fits v hlo hhi]
  · obtain ⟨ret, l2, w2, hr, -, -, -, hf⟩ :=
      Lamp_SetOpen_writes mm fuel w w1 { l with intensity_ := v } true hport hflush
    exact ⟨ret, l2, w2, hr, by simpa using hf⟩

theorem Lamp_intensity_is_cached_while_closed_witness :
    Lamp.OnIntensity (scriptedMM []) 1 com7 closedLamp 150 ActionType.AfterSet =
      some ((scriptedMM []).DEVICE_OK, { closedLamp with intensity_ := 150 }, com7, 150) ∧
    ∃ ret l2 w2, Lamp.SetOpen (scriptedMM []) 1 com7 { closedLamp with intensity_ := 150 } true =
        some (ret, l2, w2) ∧
      framesWritten w2.serial = framesWritten com7.serial ++
        [("50006150".toList, ['\r'])] :=
  Lamp_intensity_is_cached_while_closed (scriptedMM []) 1 com7 com7Flushed closedLamp 150
    (by decide) (by decide) (by decide) (by decide) (by decide)

/-- C15: on a configured port whose flush ends, `SetOpen(false)` completes,
writes exactly the frame `500060` (intensity zero) and leaves the cached
intensity unchanged; when it succeeded the lamp is closed, and a following
`SetOpen(true)` (flush ending again) writes exactly the frame `50006` followed
by the decimal text of the cached intensity. -/
theorem Lamp_off_then_on_restores_intensity (mm : MM) (fuel : Nat) (w w1 : World) (l : Lamp)
    (hport : w.hub.port_ ≠ []) (hflush : ClearAllRcvBuf mm fuel w = some w1) :
    ∃ ret l2 w2, Lamp.SetOpen mm fuel w l false = some (ret, l2, w2) ∧
      l2.intensity_ = l.intensity_ ∧
      framesWritten w2.serial = framesWritten w.serial ++ [("500060".toList, ['\r'])] ∧
      (ret = mm.DEVICE_OK → l2.open_ = false ∧
        ∀ w3, ClearAllRcvBuf mm fuel w2 = some w3 →
          ∃ ret2 l4 w4, Lamp.SetOpen mm fuel w2 l2 true = some (ret2, l4, w4) ∧
            framesWritten w4.serial = framesWritten w2.serial ++
              [("50006".toList ++ intToDec l.intensity_, ['\r'])]) := by
  obtain ⟨ret, l2, w2, hr, hi, hh, ho, hf⟩ :=
    Lamp_SetOpen_writes mm fuel w w1 l false hport hflush
  refine ⟨ret, l2, w2, hr, hi, ?_, fun hret => ⟨ho hret, fun w3 hflush2 => ?_⟩⟩
  · rw [hf]; rfl
  · have hport2 : w2.hub.port_ ≠ [] := by rw [hh]; exact hport
    obtain ⟨ret2, l4, w4, hr2, -, -, -, hf2⟩ :=
      Lamp_SetOpen_writes mm fuel w2 w3 l2 true hport2 hflush2
    exact ⟨ret2, l4, w4, hr2, by simpa [hi] using hf2⟩

theorem Lamp_off_then_on_restores_intensity_witness :
    ∃ ret l2 w2, Lamp.SetOpen (scriptedMM [(0, "500060".toList)]) 1 com7
        { closedLamp with open_ := true } false = some (ret, l2, w2) ∧
      l2.intensity_ = ({ closedLamp with open_ := true } : Lamp).intensity_ ∧
      framesWritten w2.serial = framesWritten com7.serial ++ [("500060".toList, ['\r'])] ∧
      (ret = (scriptedMM [(0, "500060".toList)]).DEVICE_OK → l2.open_ = false ∧
        ∀ w3, ClearAllRcvBuf (scriptedMM [(0, "500060".toList)]) 1 w2 = some w3 →
          ∃ ret2 l4 w4, Lamp.SetOpen (scriptedMM [(0, "500060".toList)]) 1 w2 l2 true =
              some (ret2, l4, w4) ∧
            framesWritten w4.serial = framesWritten w2.serial ++
              [("50006".toList ++ intToDec ({ closedLamp with open_ := true } : Lamp).intensity_,
                ['\r'])]) :=
  Lamp_off_then_on_restores_intensity (scriptedMM [(0, "500060".toList)]) 1 com7 com7Flushed
    { closedLamp with open_ := true } (by decide) (by decide)

/-- The off/on sequence of the C15 witness, evaluated: closing returns
`DEVICE_OK` having written `500060`, and reopening writes `5000640`. -/
theorem Lamp_off_then_on_example :
    ((Lamp.SetOpen (scriptedMM [(0, "500060".toList)]) 1 com7
        { closedLamp with open_ := true } false).bind
      (fun r => (Lamp.SetOpen (scriptedMM [(0, "500060".toList)]) 1 r.2.2 r.2.1 true).map
        (fun r2 => (r.1, r.2.1.open_, framesWritten r2.2.2.serial)))) =
      some (0, false, [("500060".toList, ['\r']), ("5000640".toList, ['\r'])]) := by
  decide

/-! ## Objective nosepiece (C16, C17) -/

/-- C16: in `ObjNosepiece::OnState` (`BeforeGet`), when the position query
returns `DEVICE_OK` with device position `p`: for `p = 0` the handler returns
`ERR_INVALID_POSITION` and the property keeps its value; for every `p ≠ 0` it
returns `DEVICE_OK` and the property holds the logical index `p - 1`. -/
theorem ObjNosepiece_position_zero_is_invalid (mm : MM) (fuel : Nat) (w w1 : World)
    (o : ObjNosepiece) (pos0 pProp p : Int)
    (hq : GetObjNosepiecePosition mm fuel w pos0 = some (mm.DEVICE_OK, p, w1)) :
    (p = 0 → ObjNosepiece.OnState mm fuel w o pos0 pProp ActionType.BeforeGet =
      some (ERR_INVALID_POSITION, o, w1, pProp)) ∧
    (p ≠ 0 → ObjNosepiece.OnState mm fuel w o pos0 pProp ActionType.BeforeGet =
      some (mm.DEVICE_OK, o, w1, p - 1)) := by
  constructor
  · intro hp
    simp [ObjNosepiece.OnState, hq, hp]
  · intro hp
    simp [ObjNosepiece.OnState, hq, hp]

theorem ObjNosepiece_position_zero_is_invalid_witness :
    ((1 : Int) = 0 → ObjNosepiece.OnState (scriptedMM [(0, "500101".toList)]) 1 com7
        ObjNosepiece.new 99 5 ActionType.BeforeGet =
      some (ERR_INVALID_POSITION, ObjNosepiece.new,
        exchanged com7Flushed "50010".toList, 5)) ∧
    ((1 : Int) ≠ 0 → ObjNosepiece.OnState (scriptedMM [(0, "500101".toList)]) 1 com7
        ObjNosepiece.new 99 5 ActionType.BeforeGet =
      some ((scriptedMM [(0, "500101".toList)]).DEVICE_OK, ObjNosepiece.new,
        exchanged com7Flushed "50010".toList, 1 - 1)) :=
  ObjNosepiece_position_zero_is_invalid (scriptedMM [(0, "500101".toList)]) 1 com7
    (exchanged com7Flushed "50010".toList) ObjNosepiece.new 99 5 1 (by decide)

/-- The sentinel reading, evaluated: the response `500100` (device position 0)
gives `ERR_INVALID_POSITION` with the property left at 5, and `500101` (device
position 1) gives status 0 with logical index 0. -/
theorem ObjNosepiece_sentinel_example :
    (ObjNosepiece.OnState (scriptedMM [(0, "500100".toList)]) 1 com7 ObjNosepiece.new 99 5
        ActionType.BeforeGet).map (fun r => (r.1, r.2.2.2)) = some (ERR_INVALID_POSITION, 5) ∧
    (ObjNosepiece.OnState (scriptedMM [(0, "500101".toList)]) 1 com7 ObjNosepiece.new 99 5
        ActionType.BeforeGet).map (fun r => (r.1, r.2.2.2)) = some (0, 0) := by
  decide

/-- C17 (counterexample): a set request for index 3 on a configured port
returns `DEVICE_OK` (0) and makes no serial call at all: the log stays empty,
so no position command reaches the hardware. -/
theorem ObjNosepiece_set_sends_nothing :
    (ObjNosepiece.OnState (scriptedMM []) 1 com7 ObjNosepiece.new 99 3 ActionType.AfterSet).map
      (fun r => (r.1, r.2.1.pos_, r.2.2.1.serial)) = some (0, 3, []) := by
  decide

/-- C17 (amended): for every requested index `r`, with `numPos_ = 7`,
`ObjNosepiece::OnState` (`AfterSet`) returns `DEVICE_OK` for every transport,
makes no serial call (the world is returned unchanged), and the cached
position becomes `r` clamped to `[0, 6]`. -/
theorem ObjNosepiece_set_clamps_cached_position (mm : MM) (fuel : Nat) (w : World)
    (o : ObjNosepiece) (pos0 r : Int) (hnum : o.numPos_ = 7) :
    ∃ o2 p2, ObjNosepiece.OnState mm fuel w o pos0 r ActionType.AfterSet =
        some (mm.DEVICE_OK, o2, w, p2) ∧
      o2.pos_ = max 0 (min r 6) ∧ o2.numPos_ = 7 := by
  have hclamp : (if (if r < 0 then 0 else r) ≥ (7 : Int) then (7 : Int) - 1
      else (if r < 0 then 0 else r)) = max 0 (min r 6) := by
    split_ifs <;> omega
  by_cases hsame : max 0 (min r 6) = o.pos_
  · refine ⟨o, r, ?_, hsame.symm, hnum⟩
    simp only [ObjNosepiece.OnState, hnum, hclamp, hsame, if_true]
  · refine ⟨{ o with pos_ := max 0 (min r 6) }, max 0 (min r 6), ?_, rfl, hnum⟩
    simp only [ObjNosepiece.OnState, hnum, hclamp, hsame, if_false]

theorem ObjNosepiece_set_clamps_cached_position_witness :
    ∃ o2 p2, ObjNosepiece.OnState (scriptedMM []) 0 com7 ObjNosepiece.new 99 9
        ActionType.AfterSet = some ((scriptedMM []).DEVICE_OK, o2, com7, p2) ∧
      o2.pos_ = max 0 (min 9 6) ∧ o2.numPos_ = 7 :=
  ObjNosepiece_set_clamps_cached_position (scriptedMM []) 0 com7 ObjNosepiece.new 99 9
    (by decide)

/-! ## Port property (C18) -/

/-- C18 (counterexample): the port is set to `COM7` and the shared hub is
connected by `g_hub.Initialize` (as the first step of `Lamp::Initialize` does)
while the `Hub` facade itself is not initialised.  A port-set request with the
new value `COM9` returns `DEVICE_OK` (0) and the facade's port, the shared
hub's port and the property all become `COM9`, with the hub still connected. -/
theorem Hub_OnPort_changes_port_of_connected_hub :
    (Initialize olderControllerMM 1 com7).map
      (fun r => (r.1, Initialized r.2, r.2.hub.port_)) = some (0, true, "COM7".toList) ∧
    (Initialize olderControllerMM 1 com7).map
      (fun r => (Hub.OnPort olderControllerMM { initialized_ := false, port_ := "COM7".toList }
        r.2 "COM9".toList ActionType.AfterSet).1) = some 0 ∧
    (Initialize olderControllerMM 1 com7).map
      (fun r => (Hub.OnPort olderControllerMM { initialized_ := false, port_ := "COM7".toList }
        r.2 "COM9".toList ActionType.AfterSet).2.1) =
      some { initialized_ := false, port_ := "COM9".toList } ∧
    (Initialize olderControllerMM 1 com7).map
      (fun r => (Hub.OnPort olderControllerMM { initialized_ := false, port_ := "COM7".toList }
        r.2 "COM9".toList ActionType.AfterSet).2.2.1.hub) =
      some { port_ := "COM9".toList, version_ := "V1.2".toList, microscope_ := "RxE".toList,
             initialized_ := true } ∧
    (Initialize olderControllerMM 1 com7).map
      (fun r => (Hub.OnPort olderControllerMM { initialized_ := false, port_ := "COM7".toList }
        r.2 "COM9".toList ActionType.AfterSet).2.2.2) = some "COM9".toList := by
  decide

/-- C18 (amended): once the `Hub` facade itself is initialised (its own
`initialized_` is true), a port-set request with any new value returns
`DEVICE_OK`, leaves the facade unchanged, leaves the property equal to the
facade's port, and sets the shared hub's port to the facade's port; the world
is unchanged when the two ports agreed before. -/
theorem Hub_OnPort_reverts_when_facade_initialised (mm : MM) (h : Hub) (w : World)
    (value : Str) (hinit : h.initialized_ = true) :
    Hub.OnPort mm h w value ActionType.AfterSet =
      (mm.DEVICE_OK, h, SetPort w h.port_, h.port_) ∧
    (w.hub.port_ = h.port_ → SetPort w h.port_ = w) := by
  constructor
  · cases h with
    | mk i p =>
      simp only at hinit
      simp [Hub.OnPort, hinit]
  · intro hp
    simp only [SetPort, ← hp]

theorem Hub_OnPort_reverts_when_facade_initialised_witness :
    Hub.OnPort (scriptedMM []) { initialized_ := true, port_ := "COM7".toList } connected
        "COM9".toList ActionType.AfterSet =
      ((scriptedMM []).DEVICE_OK, { initialized_ := true, port_ := "COM7".toList },
        SetPort connected ({ initialized_ := true, port_ := "COM7".toList } : Hub).port_,
        ({ initialized_ := true, port_ := "COM7".toList } : Hub).port_) ∧
    (connected.hub.port_ = ({ initialized_ := true, port_ := "COM7".toList } : Hub).port_ →
      SetPort connected ({ initialized_ := true, port_ := "COM7".toList } : Hub).port_ =
        connected) :=
  Hub_OnPort_reverts_when_facade_initialised (scriptedMM [])
    { initialized_ := true, port_ := "COM7".toList } connected "COM9".toList (by decide)

/-! ## Error propagation (C19) -/

/-- The facade operations that hand the status of their hub call back: when
the hub call returns `e ≠ DEVICE_OK`, so does the facade operation. -/
theorem facade_errors_surface (mm : MM) (fuel : Nat) (w w1 : World) (e : Int)
    (he : e ≠ mm.DEVICE_OK) :
    (∀ (l : Lamp) (o : Bool),
      SetLampIntensity mm fuel w (if o then l.intensity_ else 0) = some (e, w1) →
      Lamp.SetOpen mm fuel w l o = some (e, l, w1)) ∧
    (∀ (l : Lamp) (v i : Int), l.open_ = true →
      GetLampIntensity mm fuel w l.intensity_ = some (e, i, w1) →
      (Lamp.OnIntensity mm fuel w l v ActionType.BeforeGet).map (fun r => r.1) = some e) ∧
    (∀ (l : Lamp) (v : Int), l.open_ = true →
      SetLampIntensity mm fuel w (castInt v) = some (e, w1) →
      (Lamp.OnIntensity mm fuel w l v ActionType.AfterSet).map (fun r => r.1) = some e) ∧
    (∀ p : Int, SetZAbs mm fuel w p = some (e, w1) →
      ZStage.SetPositionSteps mm fuel w p = some (e, w1)) ∧
    (∀ p : Int, SetZRel mm fuel w p = some (e, w1) →
      ZStage.SetRelativePositionSteps mm fuel w p = some (e, w1)) ∧
    (∀ pos0 p q : Int, GetZ mm fuel w pos0 p = some (e, q, w1) →
      ZStage.GetPositionSteps mm fuel w pos0 p = some (e, q, w1)) ∧
    (∀ (o : ObjNosepiece) (pos0 v q : Int),
      GetObjNosepiecePosition mm fuel w pos0 = some (e, q, w1) →
      ObjNosepiece.OnState mm fuel w o pos0 v ActionType.BeforeGet = some (e, o, w1, v)) := by
  refine ⟨?_, ?_, ?_, ?_, ?_, ?_, ?_⟩
  · intro l o h
    cases o <;> simp_all [Lamp.SetOpen]
  · intro l v i ho h
    simp [Lamp.OnIntensity, ho, h, he]
  · intro l v ho h
    simp [Lamp.OnIntensity, ho, h, he]
  · intro p h; exact h
  · intro p h; exact h
  · intro pos0 p q h; exact h
  · intro o pos0 v q h
    simp [ObjNosepiece.OnState, h, he]

/-- C19 (failing input): `ZStage::OnThreshold` (`AfterSet`, value `Update`).
With no port set the hub call `SetZUpperThreshold` returns `ERR_PORT_NOT_SET`
(11001), and on port `COM7` with a transport that never answers it returns the
time-out status 14; in both cases `OnThreshold` returns 0 (`DEVICE_OK`). -/
theorem ZStage_OnThreshold_drops_hub_error :
    (SetZUpperThreshold (scriptedMM []) 1 noPort).map (fun r => r.1) = some 11001 ∧
    (ZStage.OnThreshold (scriptedMM []) 1 noPort "Update".toList ActionType.AfterSet).map
      (fun r => r.1) = some 0 ∧
    (SetZUpperThreshold (scriptedMM []) 1 com7).map (fun r => r.1) = some 14 ∧
    (ZStage.OnThreshold (scriptedMM []) 1 com7 "Update".toList ActionType.AfterSet).map
      (fun r => r.1) = some 0 := by
  decide


/-! ## Cached lamp state on failure (C21) -/

namespace LeicaDMREHub

/-- An integer-typed `GetCommand` that does not return `DEVICE_OK` leaves
`answer` alone. -/
theorem GetCommandInt_error_keeps_answer (mm : MM) (fuel : Nat) (w w1 : World)
    (command ret answer a : Int)
    (h : GetCommandInt mm fuel w command answer = some (ret, a, w1))
    (hret : ret ≠ mm.DEVICE_OK) : a = answer := by
  unfold GetCommandInt at h
  cases hg : GetCommand mm fuel w command [] with
  | none => simp [hg] at h
  | some r =>
    obtain ⟨r1, r2, r3⟩ := r
    simp only [hg] at h
    split_ifs at h with h1
    · simp only [Option.some.injEq, Prod.mk.injEq] at h
      exact h.2.1.symm
    · simp only [Option.some.injEq, Prod.mk.injEq] at h
      exact absurd h.1.symm hret

end LeicaDMREHub

theorem Lamp_SetOpen_error_keeps_lamp (mm : MM) (fuel : Nat) (w w2 : World) (l l2 : Lamp)
    (o : Bool) (e : Int) (he : e ≠ mm.DEVICE_OK)
    (h : Lamp.SetOpen mm fuel w l o = some (e, l2, w2)) : l2 = l := by
  unfold Lamp.SetOpen at h
  cases o with
  | true =>
    simp only [if_true] at h
    cases hs : SetLampIntensity mm fuel w l.intensity_ with
    | none => simp [hs] at h
    | some r =>
      obtain ⟨r1, r2⟩ := r
      simp only [hs] at h
      split_ifs at h <;> simp only [Option.some.injEq, Prod.mk.injEq] at h
      · exact h.2.1.symm
      · exact absurd h.1.symm he
  | false =>
    simp only [Bool.false_eq_true, if_false] at h
    cases hs : SetLampIntensity mm fuel w 0 with
    | none => simp [hs] at h
    | some r =>
      obtain ⟨r1, r2⟩ := r
      simp only [hs] at h
      split_ifs at h <;> simp only [Option.some.injEq, Prod.mk.injEq] at h
      · exact h.2.1.symm
      · exact absurd h.1.symm he

/-- C21 (counterexample): the lamp is open with cached intensity 40 and the
transport never answers.  Setting the Intensity property to 150 returns the
time-out status 14, and the cached intensity is 150 afterwards. -/
theorem Lamp_failed_set_changes_cached_intensity :
    openLamp.intensity_ = 40 ∧
    (Lamp.OnIntensity (scriptedMM []) 1 com7 openLamp 150 ActionType.AfterSet).map
      (fun r => (r.1, r.2.1.intensity_, r.2.1.open_)) = some (14, 150, true) := by
  decide

/-- C21 (amended): when a lamp operation returns an error `e ≠ DEVICE_OK`, the
open/closed flag is the same after the call as before it, and so is the cached
intensity for `SetOpen`, `OnState` and `OnIntensity` get; `OnIntensity` set
stores the requested intensity before the hardware command, so after a failing
set the cached intensity is the requested value. -/
theorem Lamp_failure_keeps_open_flag (mm : MM) (fuel : Nat) (w w2 : World) (l l2 : Lamp)
    (e : Int) (he : e ≠ mm.DEVICE_OK) :
    (∀ o, Lamp.SetOpen mm fuel w l o = some (e, l2, w2) → l2 = l) ∧
    (∀ v act p, Lamp.OnState mm fuel w l v act = some (e, l2, w2, p) → l2 = l) ∧
    (∀ v p, Lamp.OnIntensity mm fuel w l v ActionType.BeforeGet = some (e, l2, w2, p) →
      l2 = l) ∧
    (∀ v p, Lamp.OnIntensity mm fuel w l v ActionType.AfterSet = some (e, l2, w2, p) →
      l2.open_ = l.open_ ∧ l2 = { l with intensity_ := castInt v }) := by
  refine ⟨?_, ?_, ?_, ?_⟩
  · intro o h
    exact Lamp_SetOpen_error_keeps_lamp mm fuel w w2 l l2 o e he h
  · intro v act p h
    cases act with
    | NoAction =>
      simp only [Lamp.OnState, Option.some.injEq, Prod.mk.injEq] at h
      exact absurd h.1.symm he
    | BeforeGet =>
      simp only [Lamp.OnState] at h
      split_ifs at h <;> simp only [Option.some.injEq, Prod.mk.injEq] at h <;>
        exact absurd h.1.symm he
    | AfterSet =>
      simp only [Lamp.OnState] at h
      cases hs : (if v = 1 then Lamp.SetOpen mm fuel w l true
          else Lamp.SetOpen mm fuel w l false) with
      | none => simp [hs] at h
      | some r =>
        obtain ⟨r1, r2, r3⟩ := r
        simp only [hs] at h
        split_ifs at h with h1 <;> simp only [Option.some.injEq, Prod.mk.injEq] at h
        · obtain ⟨ha, hb, hc, -⟩ := h
          subst ha hb hc
          split_ifs at hs
          · exact Lamp_SetOpen_error_keeps_lamp mm fuel w _ l _ true _ he hs
          · exact Lamp_SetOpen_error_keeps_lamp mm fuel w _ l _ false _ he hs
        · exact absurd h.1.symm he
  · intro v p h
    simp only [Lamp.OnIntensity] at h
    split_ifs at h with ho
    · cases hs : GetLampIntensity mm fuel w l.intensity_ with
      | none => simp [hs] at h
      | some r =>
        obtain ⟨r1, r2, r3⟩ := r
        simp only [hs] at h
        split_ifs at h with h1 <;> simp only [Option.some.injEq, Prod.mk.injEq] at h
        · obtain ⟨ha, hb, -, -⟩ := h
          subst ha
          have := GetCommandInt_error_keeps_answer mm fuel w r3 9 r1 l.intensity_ r2 hs he
          rw [← hb, this]
        · exact absurd h.1.symm he
    · simp only [Option.some.injEq, Prod.mk.injEq] at h
      exact absurd h.1.symm he
  · intro v p h
    simp only [Lamp.OnIntensity] at h
    split_ifs at h with ho
    · cases hs : SetLampIntensity mm fuel w (castInt v) with
      | none => simp [hs] at h
      | some r =>
        obtain ⟨r1, r2⟩ := r
        simp only [hs] at h
        split_ifs at h with h1 <;> simp only [Option.some.injEq, Prod.mk.injEq] at h
        · obtain ⟨-, hb, -, -⟩ := h
          rw [← hb]
          exact ⟨rfl, rfl⟩
        · exact absurd h.1.symm he
    · simp only [Option.some.injEq, Prod.mk.injEq] at h
      exact absurd h.1.symm he

theorem Lamp_failure_keeps_open_flag_witness :
    ({ initialized_ := true, open_ := true, intensity_ := 150 } : Lamp).open_ = openLamp.open_ ∧
    ({ initialized_ := true, open_ := true, intensity_ := 150 } : Lamp) =
      { openLamp with intensity_ := castInt 150 } :=
  (Lamp_failure_keeps_open_flag (scriptedMM []) 1 com7
    (com7Flushed.call (writeCall com7Flushed "50006150".toList) |>.call (readCall com7Flushed))
    openLamp { initialized_ := true, open_ := true, intensity_ := 150 } 14 (by decide)).2.2.2
    150 150 (by decide)

/-! ## Frame effect of the send routines (C22) -/

namespace LeicaDMREHub

/-- Every completed `SetCommand(command)` leaves the hub as it was and writes
its frame exactly when a port is configured. -/
theorem SetCommand_effect (mm : MM) (fuel : Nat) (w w1 : World) (command ret : Int)
    (h : SetCommand mm fuel w command = some (ret, w1)) :
    w1.hub = w.hub ∧ framesWritten w1.serial = framesWritten w.serial ++
      (if w.hub.port_ = [] then []
       else [(putInt 2 '0' 50 ++ putInt 3 '0' command, ['\r'])]) := by
  by_cases hp : w.hub.port_ = []
  · simp only [SetCommand, hp, if_true, Option.some.injEq, Prod.mk.injEq] at h
    obtain ⟨-, rfl⟩ := h
    simp [hp]
  · simp only [SetCommand, hp, if_false] at h
    cases hf : ClearAllRcvBuf mm fuel w with
    | none => simp [hf] at h
    | some w0 =>
      obtain ⟨e1, e2⟩ := ClearAllRcvBuf_spec mm fuel w w0 hf
      simp only [hf] at h
      split_ifs at h <;>
        (simp only [Option.some.injEq, Prod.mk.injEq] at h
         obtain ⟨-, rfl⟩ := h
         simp [World.call, framesWritten_append, framesWritten, e1, e2, hp])

/-- Every completed `SetCommand(command, data)` leaves the hub as it was and
writes its frame exactly when a port is configured. -/
theorem SetCommandData_effect (mm : MM) (fuel : Nat) (w w1 : World) (command data ret : Int)
    (h : SetCommandData mm fuel w command data = some (ret, w1)) :
    w1.hub = w.hub ∧ framesWritten w1.serial = framesWritten w.serial ++
      (if w.hub.port_ = [] then []
       else [(putInt 2 '0' 50 ++ (putInt 3 '0' command ++ intToDec data), ['\r'])]) := by
  by_cases hp : w.hub.port_ = []
  · simp only [SetCommandData, hp, if_true, Option.some.injEq, Prod.mk.injEq] at h
    obtain ⟨-, rfl⟩ := h
    simp [hp]
  · simpa [hp] using SetCommandData_frames mm fuel w w1 command data ret hp h

/-- Every completed integer-typed `GetCommand` has the effect of the
string-typed one. -/
theorem GetCommandInt_effect (mm : MM) (fuel : Nat) (w w1 : World) (command ret answer a : Int)
    (h : GetCommandInt mm fuel w command answer = some (ret, a, w1)) :
    w1.hub = w.hub ∧ framesWritten w1.serial = framesWritten w.serial ++
      (if w.hub.port_ = [] then []
       else [(putInt 2 '0' 50 ++ putInt 3 '0' command, ['\r'])]) := by
  unfold GetCommandInt at h
  cases hg : GetCommand mm fuel w command [] with
  | none => simp [hg] at h
  | some r =>
    obtain ⟨r1, r2, r3⟩ := r
    have he := GetCommand_effect mm fuel w r3 command r1 [] r2 hg
    simp only [hg] at h
    split_ifs at h <;>
      (simp only [Option.some.injEq, Prod.mk.injEq] at h
       obtain ⟨-, -, rfl⟩ := h
       exact he)

end LeicaDMREHub

/-- C22: every completed hub query or command, whatever its status, returns
a world whose hub (port, firmware version, microscope type and `initialized_`)
is the one it started from: `GetCommand` (both overloads), `SetCommand` (both
overloads) and each device operation built on them. -/
theorem commands_keep_connection_state (mm : MM) (fuel : Nat) (w w1 : World) :
    (∀ c a ret ans, GetCommand mm fuel w c a = some (ret, ans, w1) → w1.hub = w.hub) ∧
    (∀ c a ret v, GetCommandInt mm fuel w c a = some (ret, v, w1) → w1.hub = w.hub) ∧
    (∀ c ret, SetCommand mm fuel w c = some (ret, w1) → w1.hub = w.hub) ∧
    (∀ c d ret, SetCommandData mm fuel w c d = some (ret, w1) → w1.hub = w.hub) ∧
    (∀ a ret ans, GetChecksum mm fuel w a = some (ret, ans, w1) → w1.hub = w.hub) ∧
    (∀ m ret, SetManual mm fuel w m = some (ret, w1) → w1.hub = w.hub) ∧
    (∀ a ret v, GetObjNosepieceId mm fuel w a = some (ret, v, w1) → w1.hub = w.hub) ∧
    (∀ a ret v, GetObjNosepiecePosition mm fuel w a = some (ret, v, w1) → w1.hub = w.hub) ∧
    (∀ a ret v, GetObjNosepieceMagnification mm fuel w a = some (ret, v, w1) →
      w1.hub = w.hub) ∧
    (∀ a ret v, GetLampIntensity mm fuel w a = some (ret, v, w1) → w1.hub = w.hub) ∧
    (∀ d ret, SetLampIntensity mm fuel w d = some (ret, w1) → w1.hub = w.hub) ∧
    (∀ d ret, SetZAbs mm fuel w d = some (ret, w1) → w1.hub = w.hub) ∧
    (∀ d ret, SetZRel mm fuel w d = some (ret, w1) → w1.hub = w.hub) ∧
    (∀ ret, MoveZMax mm fuel w = some (ret, w1) → w1.hub = w.hub) ∧
    (∀ ret, MoveZMin mm fuel w = some (ret, w1) → w1.hub = w.hub) ∧
    (∀ d ret, MoveZConst mm fuel w d = some (ret, w1) → w1.hub = w.hub) ∧
    (∀ ret, StopZ mm fuel w = some (ret, w1) → w1.hub = w.hub) ∧
    (∀ p0 p ret v, GetZ mm fuel w p0 p = some (ret, v, w1) → w1.hub = w.hub) ∧
    (∀ ret, SetZUpperThreshold mm fuel w = some (ret, w1) → w1.hub = w.hub) ∧
    (∀ b, GetZLowerThreholdSet mm fuel w = some (b, w1) → w1.hub = w.hub) ∧
    (∀ b, GetZUpperThreholdSet mm fuel w = some (b, w1) → w1.hub = w.hub) := by
  refine ⟨?_, ?_, ?_, ?_, ?_, ?_, ?_, ?_, ?_, ?_, ?_, ?_, ?_, ?_, ?_, ?_, ?_, ?_, ?_, ?_, ?_⟩
  · intro c a ret ans h; exact (GetCommand_effect mm fuel w w1 c ret a ans h).1
  · intro c a ret v h; exact (GetCommandInt_effect mm fuel w w1 c ret a v h).1
  · intro c ret h; exact (SetCommand_effect mm fuel w w1 c ret h).1
  · intro c d ret h; exact (SetCommandData_effect mm fuel w w1 c d ret h).1
  · intro a ret ans h; exact (GetCommand_effect mm fuel w w1 24 ret a ans h).1
  · intro m ret h; exact (SetCommand_effect mm fuel w w1 _ ret h).1
  · intro a ret v h; exact (GetCommandInt_effect mm fuel w w1 20 ret a v h).1
  · intro a ret v h; exact (GetCommandInt_effect mm fuel w w1 10 ret a v h).1
  · intro a ret v h; exact (GetCommandInt_effect mm fuel w w1 21 ret a v h).1
  · intro a ret v h; exact (GetCommandInt_effect mm fuel w w1 9 ret a v h).1
  · intro d ret h; exact (SetCommandData_effect mm fuel w w1 6 d ret h).1
  · intro d ret h; exact (SetCommandData_effect mm fuel w w1 1 _ ret h).1
  · intro d ret h; exact (SetCommandData_effect mm fuel w w1 2 _ ret h).1
  · intro ret h; exact (SetCommand_effect mm fuel w w1 17 ret h).1
  · intro ret h; exact (SetCommand_effect mm fuel w w1 16 ret h).1
  · intro d ret h; exact (SetCommandData_effect mm fuel w w1 4 d ret h).1
  · intro ret h; exact (SetCommand_effect mm fuel w w1 6 ret h).1
  · intro p0 p ret v h
    unfold GetZ at h
    cases hg : GetCommandInt mm fuel w 8 p0 with
    | none => simp [hg] at h
    | some r =>
      obtain ⟨r1, r2, r3⟩ := r
      have he := (GetCommandInt_effect mm fuel w r3 8 r1 p0 r2 hg).1
      simp only [hg] at h
      split_ifs at h <;>
        (simp only [Option.some.injEq, Prod.mk.injEq] at h
         obtain ⟨-, -, rfl⟩ := h
         exact he)
  · intro ret h; exact (SetCommand_effect mm fuel w w1 19 ret h).1
  · intro b h
    unfold GetZLowerThreholdSet at h
    cases hg : GetCommand mm fuel w 10 [] with
    | none => simp [hg] at h
    | some r =>
      obtain ⟨r1, r2, r3⟩ := r
      have he := (GetCommand_effect mm fuel w r3 10 r1 [] r2 hg).1
      simp only [hg] at h
      split_ifs at h <;>
        (simp only [Option.some.injEq, Prod.mk.injEq] at h
         obtain ⟨-, rfl⟩ := h
         exact he)
  · intro b h
    unfold GetZUpperThreholdSet at h
    cases hg : GetCommand mm fuel w 10 [] with
    | none => simp [hg] at h
    | some r =>
      obtain ⟨r1, r2, r3⟩ := r
      have he := (GetCommand_effect mm fuel w r3 10 r1 [] r2 hg).1
      simp only [hg] at h
      split_ifs at h <;>
        (simp only [Option.some.injEq, Prod.mk.injEq] at h
         obtain ⟨-, rfl⟩ := h
         exact he)

/-- A failed command after a successful connect, evaluated: on the connected
hub the lamp query times out (status 14) and the hub is still the connected
one. -/
theorem failed_command_keeps_hub_connected :
    (GetLampIntensity (scriptedMM []) 1 connected 0).map (fun r => (r.1, r.2.2.hub)) =
      some (14, connected.hub) ∧ Initialized connected = true := by
  decide

/-! ## Order of the serial calls (C23) -/

namespace LeicaDMREHub

/-- A flush that ends has logged one or more reads of the receive buffer and
nothing else. -/
theorem ClearAllRcvBuf_log (mm : MM) : ∀ (fuel : Nat) (w w1 : World),
    ClearAllRcvBuf mm fuel w = some w1 →
      ∃ k, 1 ≤ k ∧ w1.hub = w.hub ∧ w1.serial = w.serial ++ List.replicate k (flushCall w) := by
  intro fuel
  induction fuel with
  | zero => intro w w1 h; simp [ClearAllRcvBuf] at h
  | succ f ih =>
    intro w w1 h
    simp only [ClearAllRcvBuf] at h
    split_ifs at h with hr
    · obtain ⟨k, -, h1, h2⟩ := ih _ _ h
      refine ⟨k + 1, by omega, h1, ?_⟩
      rw [h2]
      simp [World.call, flushCall, List.replicate_succ]
    · cases h
      exact ⟨1, le_refl 1, rfl, by simp [World.call, flushCall]⟩

end LeicaDMREHub

/-- C23: with a configured port and a flush that ends, `GetCommand`,
`SetCommand(c)` and `SetCommand(c, d)` each complete, and the serial calls they
make are, in this order and nothing else: the flush reads (one or more), one
write of the encoded frame and, only if the write returned `DEVICE_OK`, one
terminated read; a failing write or read hands its status back and is not
repeated. -/
theorem send_is_flush_write_read (mm : MM) (fuel : Nat) (w w1 : World) (c d : Int)
    (answer : Str) (hport : w.hub.port_ ≠ []) (hflush : ClearAllRcvBuf mm fuel w = some w1) :
    (∃ k, 1 ≤ k ∧ w1.hub = w.hub ∧ w1.serial = w.serial ++ List.replicate k (flushCall w)) ∧
    (∃ ret ans w2, GetCommand mm fuel w c answer = some (ret, ans, w2) ∧
      OneExchange mm w1 (encodeFrame c none) ret w2) ∧
    (∃ ret w2, SetCommand mm fuel w c = some (ret, w2) ∧
      OneExchange mm w1 (encodeFrame c none) ret w2) ∧
    (∃ ret w2, SetCommandData mm fuel w c d = some (ret, w2) ∧
      OneExchange mm w1 (encodeFrame c (some d)) ret w2) := by
  refine ⟨ClearAllRcvBuf_log mm fuel w w1 hflush, ?_, ?_, ?_⟩
  · simp only [GetCommand, hport, if_false, hflush, encodeFrame, OneExchange, exchanged,
      writeCall, readCall, World.call]
    split_ifs <;> first
      | exact ⟨_, _, _, rfl, Or.inl ⟨by assumption, rfl, rfl⟩⟩
      | exact ⟨_, _, _, rfl, Or.inr ⟨not_not.1 (by assumption), rfl, fun _ => rfl⟩⟩
      | exact ⟨_, _, _, rfl,
          Or.inr ⟨not_not.1 (by assumption), rfl, fun h => absurd h (by assumption)⟩⟩
  · simp only [SetCommand, hport, if_false, hflush, encodeFrame, OneExchange, exchanged,
      writeCall, readCall, World.call]
    split_ifs <;> first
      | exact ⟨_, _, rfl, Or.inl ⟨by assumption, rfl, rfl⟩⟩
      | exact ⟨_, _, rfl, Or.inr ⟨not_not.1 (by assumption), rfl, fun _ => rfl⟩⟩
      | exact ⟨_, _, rfl,
          Or.inr ⟨not_not.1 (by assumption), rfl, fun h => absurd h (by assumption)⟩⟩
  · simp only [SetCommandData, hport, if_false, hflush, encodeFrame, OneExchange, exchanged,
      writeCall, readCall, World.call]
    split_ifs <;> first
      | exact ⟨_, _, rfl, Or.inl ⟨by assumption, rfl, rfl⟩⟩
      | exact ⟨_, _, rfl, Or.inr ⟨not_not.1 (by assumption), rfl, fun _ => rfl⟩⟩
      | exact ⟨_, _, rfl,
          Or.inr ⟨not_not.1 (by assumption), rfl, fun h => absurd h (by assumption)⟩⟩

theorem send_is_flush_write_read_witness :
    (∃ k, 1 ≤ k ∧ com7Flushed.hub = com7.hub ∧
      com7Flushed.serial = com7.serial ++ List.replicate k (flushCall com7)) ∧
    (∃ ret ans w2, GetCommand (scriptedMM []) 1 com7 8 [] = some (ret, ans, w2) ∧
      OneExchange (scriptedMM []) com7Flushed (encodeFrame 8 none) ret w2) ∧
    (∃ ret w2, SetCommand (scriptedMM []) 1 com7 8 = some (ret, w2) ∧
      OneExchange (scriptedMM []) com7Flushed (encodeFrame 8 none) ret w2) ∧
    (∃ ret w2, SetCommandData (scriptedMM []) 1 com7 8 3 = some (ret, w2) ∧
      OneExchange (scriptedMM []) com7Flushed (encodeFrame 8 (some 3)) ret w2) :=
  send_is_flush_write_read (scriptedMM []) 1 com7 com7Flushed 8 3 [] (by decide) (by decide)

/-- The serial log of one query, evaluated: on `COM7` a query whose read times
out logs one flush read, the write of `50008` and one terminated read, and
returns the time-out status 14. -/
theorem send_log_example :
    (GetCommand (scriptedMM []) 1 com7 8 []).map (fun r => (r.1, r.2.2.serial)) =
      some (14, [SerialOp.ReadFromSerial "COM7".toList 1024,
        SerialOp.SetSerialCommand "COM7".toList "50008".toList ['\r'],
        SerialOp.GetSerialAnswer "COM7".toList 1024 ['\r']]) := by
  decide

/-! ## Echo validation is numeric (C24) -/

/-- C24 (counterexample): on port `COM7` the response `50 25V1.2` to command 25
is accepted by `GetCommand` (status 0, payload `V1.2`), by `SetCommand(25)` and
by `SetCommand(25, 3)`, although its first five characters `50 25` differ from
the five characters `50025` that were sent. -/
theorem echo_with_space_is_accepted :
    (GetCommand (scriptedMM [(0, "50 25V1.2".toList)]) 1 com7 25 []).map
      (fun r => (r.1, r.2.1)) = some (0, "V1.2".toList) ∧
    (SetCommand (scriptedMM [(0, "50 25V1.2".toList)]) 1 com7 25).map (fun r => r.1) = some 0 ∧
    (SetCommandData (scriptedMM [(0, "50 25V1.2".toList)]) 1 com7 25 3).map (fun r => r.1) =
      some 0 ∧
    "50 25V1.2".toList.take 5 ≠ "50025".toList ∧
    (GetCommand (scriptedMM [(0, "50 25V1.2".toList)]) 1 com7 25 []).map
      (fun r => framesWritten r.2.2.serial) = some [("50025".toList, ['\r'])] := by
  decide

theorem extractInt_of_text (p q : Int) (s : Str) (h : Extracts s) :
    extractInt p s = extractInt q s := by
  obtain ⟨ch, hmem, hch⟩ := h
  have hne : s.dropWhile isSpace ≠ [] := by
    intro hnil
    have hall := List.dropWhile_eq_nil_iff.1 hnil ch hmem
    rw [hch] at hall
    exact Bool.false_ne_true hall
  unfold extractInt
  cases hd : s.dropWhile isSpace with
  | nil => exact absurd hd hne
  | cons a t => rfl

/-- A send routine that returns `DEVICE_OK` found its echo test satisfied. -/
theorem success_gives_EchoAccepted (mm : MM) (fuel : Nat) (w w1 : World) (c d : Int)
    (answer rcvBuf : Str) (hcode : ERR_UNEXPECTED_ANSWER ≠ mm.DEVICE_OK)
    (hport : w.hub.port_ ≠ []) (hflush : ClearAllRcvBuf mm fuel w = some w1) :
    (Answers mm w1 (encodeFrame c none) rcvBuf →
      (∀ ans w2, GetCommand mm fuel w c answer = some (mm.DEVICE_OK, ans, w2) →
        EchoAccepted mm c rcvBuf) ∧
      (∀ w2, SetCommand mm fuel w c = some (mm.DEVICE_OK, w2) → EchoAccepted mm c rcvBuf)) ∧
    (Answers mm w1 (encodeFrame c (some d)) rcvBuf →
      ∀ w2, SetCommandData mm fuel w c d = some (mm.DEVICE_OK, w2) →
        EchoAccepted mm c rcvBuf) := by
  refine ⟨fun ha => ⟨fun ans w2 h => ?_, fun w2 h => ?_⟩, fun ha w2 h => ?_⟩
  · rw [GetCommand_answered mm fuel w w1 c answer rcvBuf hport hflush ha, payload_eq_drop] at h
    split_ifs at h with hm
    · simp only [Option.some.injEq, Prod.mk.injEq] at h
      exact absurd h.1 hcode
    · exact ⟨not_not.1 (fun hx => hm (Or.inl hx)), not_not.1 (fun hx => hm (Or.inr hx))⟩
  · rw [SetCommand_answered mm fuel w w1 c rcvBuf hport hflush ha] at h
    split_ifs at h with hm
    · simp only [Option.some.injEq, Prod.mk.injEq] at h
      exact absurd h.1 hcode
    · exact ⟨not_not.1 (fun hx => hm (Or.inl hx)), not_not.1 (fun hx => hm (Or.inr hx))⟩
  · rw [SetCommandData_answered mm fuel w w1 c d rcvBuf hport hflush ha] at h
    split_ifs at h with hm
    · simp only [Option.some.injEq, Prod.mk.injEq] at h
      exact absurd h.1 hcode
    · exact ⟨not_not.1 (fun hx => hm (Or.inl hx)), not_not.1 (fun hx => hm (Or.inr hx))⟩

theorem EchoReads_of_accepted (mm : MM) (c : Int) (rcvBuf : Str)
    (h : EchoAccepted mm c rcvBuf) : EchoReads c rcvBuf :=
  ⟨fun hx prev => (extractInt_of_text prev mm.deviceIdCheck0 _ hx).trans h.1.symm,
   fun hx prev => (extractInt_of_text prev mm.commandCheck0 _ hx).trans h.2.symm⟩

/-- C24 (amended): when `DEVICE_OK` is not the code `ERR_UNEXPECTED_ANSWER` and
the transport answered with `rcvBuf`, a `GetCommand` or `SetCommand` that
returns `DEVICE_OK` has found the echo numerically equal to what was sent:
each echo field that holds a character other than white space extracts to the
number sent, the first two characters to 50 and the next three to the command
id, and does so whatever the check variable held before the extraction.
Nothing is stated for a field of white space only, where the extraction stores
nothing and the routine compares an uninitialised local. -/
theorem success_means_numeric_echo (mm : MM) (fuel : Nat) (w w1 : World) (c d : Int)
    (answer rcvBuf : Str) (hcode : ERR_UNEXPECTED_ANSWER ≠ mm.DEVICE_OK)
    (hport : w.hub.port_ ≠ []) (hflush : ClearAllRcvBuf mm fuel w = some w1) :
    (Answers mm w1 (encodeFrame c none) rcvBuf →
      (∀ ans w2, GetCommand mm fuel w c answer = some (mm.DEVICE_OK, ans, w2) →
        EchoReads c rcvBuf) ∧
      (∀ w2, SetCommand mm fuel w c = some (mm.DEVICE_OK, w2) → EchoReads c rcvBuf)) ∧
    (Answers mm w1 (encodeFrame c (some d)) rcvBuf →
      ∀ w2, SetCommandData mm fuel w c d = some (mm.DEVICE_OK, w2) →
        EchoReads c rcvBuf) := by
  have key := success_gives_EchoAccepted mm fuel w w1 c d answer rcvBuf hcode hport hflush
  exact ⟨fun ha => ⟨fun ans w2 h => EchoReads_of_accepted mm c rcvBuf ((key.1 ha).1 ans w2 h),
      fun w2 h => EchoReads_of_accepted mm c rcvBuf ((key.1 ha).2 w2 h)⟩,
    fun ha w2 h => EchoReads_of_accepted mm c rcvBuf (key.2 ha w2 h)⟩

theorem success_means_numeric_echo_witness :
    (∀ prev, extractInt prev ['5', '0'] = 50) ∧ (∀ prev, extractInt prev [' ', '2', '5'] = 25) :=
  have h : EchoReads 25 "50 25V1.2".toList :=
    ((success_means_numeric_echo (scriptedMM [(0, "50 25V1.2".toList)]) 1 com7 com7Flushed 25 3
      [] "50 25V1.2".toList (by decide) (by decide) (by decide)).1
        ⟨by decide, by decide⟩).1 "V1.2".toList (exchanged com7Flushed (encodeFrame 25 none))
      (by decide)
  ⟨h.1 (by decide), h.2 (by decide)⟩

/-! ## Threshold control (C26) -/

/-- C26: `ZStage::OnThreshold`.  `BeforeGet` returns `DEVICE_OK` and reports
`Set` without any serial call; `AfterSet` with any value other than `Update`
returns `DEVICE_OK` without any serial call; `AfterSet` with `Update`, on a
configured port whose flush ends, returns `DEVICE_OK` and writes exactly one
frame, the payload-less command 19 (`50019`). -/
theorem OnThreshold_update_sends_command_19 (mm : MM) (fuel : Nat) (w w1 : World)
    (value : Str) (hport : w.hub.port_ ≠ []) (hflush : ClearAllRcvBuf mm fuel w = some w1) :
    ZStage.OnThreshold mm fuel w value ActionType.BeforeGet =
      some (mm.DEVICE_OK, w, "Set".toList) ∧
    (value ≠ "Update".toList →
      ZStage.OnThreshold mm fuel w value ActionType.AfterSet = some (mm.DEVICE_OK, w, value)) ∧
    (∃ w2, ZStage.OnThreshold mm fuel w "Update".toList ActionType.AfterSet =
        some (mm.DEVICE_OK, w2, "Update".toList) ∧
      framesWritten w2.serial = framesWritten w.serial ++ [("50019".toList, ['\r'])]) := by
  refine ⟨rfl, fun hv => ?_, ?_⟩
  · simp only [ZStage.OnThreshold, if_neg hv]
  · obtain ⟨ret, w2, hr, hf⟩ := SetCommand_writes mm fuel w w1 19 hport hflush
    have hfr : putInt 2 '0' 50 ++ putInt 3 '0' 19 = "50019".toList := by decide
    rw [hfr] at hf
    exact ⟨w2, by simp [ZStage.OnThreshold, SetZUpperThreshold, hr], hf⟩

theorem OnThreshold_update_sends_command_19_witness :
    ZStage.OnThreshold (scriptedMM []) 1 com7 "Set".toList ActionType.BeforeGet =
      some ((scriptedMM []).DEVICE_OK, com7, "Set".toList) ∧
    ("Set".toList ≠ "Update".toList →
      ZStage.OnThreshold (scriptedMM []) 1 com7 "Set".toList ActionType.AfterSet =
        some ((scriptedMM []).DEVICE_OK, com7, "Set".toList)) ∧
    (∃ w2, ZStage.OnThreshold (scriptedMM []) 1 com7 "Update".toList ActionType.AfterSet =
        some ((scriptedMM []).DEVICE_OK, w2, "Update".toList) ∧
      framesWritten w2.serial = framesWritten com7.serial ++ [("50019".toList, ['\r'])]) :=
  OnThreshold_update_sends_command_19 (scriptedMM []) 1 com7 com7Flushed "Set".toList
    (by decide) (by decide)

/-! ## Termination of the flush (C28) -/

/-- C28: if the first `k` flush reads each report exactly 1024 bytes and read
`k + 1` reports another count (in particular fewer), then every fuel above `k`
lets `ClearAllRcvBuf` end, and it ends having logged exactly `k + 1` reads and
nothing else.  The status a read returns plays no part: the loop looks only at
the reported count. -/
theorem ClearAllRcvBuf_stops_at_first_short_read (mm : MM) : ∀ (k fuel : Nat) (w : World),
    (∀ i, i < k →
      mm.ReadFromSerial (w.serial ++ List.replicate (i + 1) (flushCall w)) = RCV_BUF_LENGTH) →
    mm.ReadFromSerial (w.serial ++ List.replicate (k + 1) (flushCall w)) ≠ RCV_BUF_LENGTH →
    k < fuel →
    ClearAllRcvBuf mm fuel w =
      some { w with serial := w.serial ++ List.replicate (k + 1) (flushCall w) } := by
  intro k
  induction k with
  | zero =>
    intro fuel w _ hshort hfuel
    obtain ⟨f, rfl⟩ : ∃ f, fuel = f + 1 := ⟨fuel - 1, by omega⟩
    have hs : mm.ReadFromSerial (w.serial ++ [flushCall w]) ≠ RCV_BUF_LENGTH := by
      simpa using hshort
    simp only [ClearAllRcvBuf, World.call]
    rw [if_neg (by simpa [flushCall] using hs)]
    simp [flushCall]
  | succ k ih =>
    intro fuel w hfull hshort hfuel
    obtain ⟨f, rfl⟩ : ∃ f, fuel = f + 1 := ⟨fuel - 1, by omega⟩
    have h0 : mm.ReadFromSerial (w.serial ++ [flushCall w]) = RCV_BUF_LENGTH := by
      simpa using hfull 0 (by omega)
    have hfc : flushCall (w.call (flushCall w)) = flushCall w := rfl
    have hser : ∀ n, (w.call (flushCall w)).serial ++ List.replicate n (flushCall w) =
        w.serial ++ List.replicate (n + 1) (flushCall w) := by
      intro n
      simp [World.call, List.replicate_succ]
    have hrec := ih f (w.call (flushCall w))
      (by
        intro i hi
        rw [hfc, hser]
        exact hfull (i + 1) (by omega))
      (by rw [hfc, hser]; exact hshort)
      (by omega)
    simp only [ClearAllRcvBuf]
    rw [if_pos (by simpa [flushCall, World.call] using h0)]
    have hrec2 : ClearAllRcvBuf mm f (w.call (flushCall w)) = _ := hrec
    rw [hfc, hser] at hrec2
    simpa [flushCall, World.call] using hrec2

theorem ClearAllRcvBuf_stops_at_first_short_read_witness :
    ClearAllRcvBuf twoFullReadsMM 3 com7 =
      some { com7 with serial := com7.serial ++ List.replicate (2 + 1) (flushCall com7) } :=
  ClearAllRcvBuf_stops_at_first_short_read twoFullReadsMM 2 3 com7 (by decide) (by decide)
    (by decide)

/-! ## Injectivity of the frame encoding (C29) -/

theorem digitChar_inj {a b : Nat} (ha : a < 10) (hb : b < 10)
    (h : digitChar a = digitChar b) : a = b := by
  have := congrArg digitVal h
  rwa [digitVal_digitChar ha, digitVal_digitChar hb] at this

theorem fixedWidth_inj {c1 c2 : Nat} (h1 : c1 ≤ 999) (h2 : c2 ≤ 999)
    (h : fixedWidth 50 c1 = fixedWidth 50 c2) : c1 = c2 := by
  simp only [fixedWidth, List.cons.injEq, and_true, true_and] at h
  obtain ⟨ha, hb, hc⟩ := h
  have e1 := digitChar_inj (by omega) (by omega) ha
  have e2 := digitChar_inj (by omega) (by omega) hb
  have e3 := digitChar_inj (by omega) (by omega) hc
  omega

theorem intToDec_inj {d1 d2 : Int} (h1 : -2147483648 ≤ d1 ∧ d1 ≤ 2147483647)
    (h2 : -2147483648 ≤ d2 ∧ d2 ≤ 2147483647) (h : intToDec d1 = intToDec d2) : d1 = d2 := by
  have e1 := extractInt_intToDec 0 d1 h1.1 h1.2
  have e2 := extractInt_intToDec 0 d2 h2.1 h2.2
  rw [h] at e1
  rw [← e1, e2]

theorem intToDec_ne_nil (d : Int) : intToDec d ≠ [] := by
  unfold intToDec
  split_ifs
  · simp
  · exact natToDec_ne_nil _

/-- C29: for command ids `c1`, `c2` in `[0,999]` and optional 32-bit payloads
`d1`, `d2` (absent for a query or payload-less command), equal frames come
from equal command ids and equal payloads; in particular a query frame never
equals an action frame. -/
theorem encodeFrame_injective (c1 c2 : Nat) (d1 d2 : Option Int) (h1 : c1 ≤ 999)
    (h2 : c2 ≤ 999) (hd1 : ∀ d ∈ d1, -2147483648 ≤ d ∧ d ≤ 2147483647)
    (hd2 : ∀ d ∈ d2, -2147483648 ≤ d ∧ d ≤ 2147483647)
    (h : encodeFrame (c1 : Int) d1 = encodeFrame (c2 : Int) d2) : c1 = c2 ∧ d1 = d2 := by
  have hl1 : (fixedWidth 50 c1).length = 5 := rfl
  have hl2 : (fixedWidth 50 c2).length = 5 := rfl
  cases d1 with
  | none =>
    cases d2 with
    | none =>
      simp only [encodeFrame, head_eq_fixedWidth h1, head_eq_fixedWidth h2] at h
      exact ⟨fixedWidth_inj h1 h2 h, rfl⟩
    | some b =>
      simp only [encodeFrame, ← List.append_assoc, head_eq_fixedWidth h1,
        head_eq_fixedWidth h2] at h
      have hlen := congrArg List.length h
      rw [List.length_append, hl1, hl2] at hlen
      have : (intToDec b).length ≠ 0 := fun h0 => intToDec_ne_nil b (List.length_eq_zero.1 h0)
      omega
  | some a =>
    cases d2 with
    | none =>
      simp only [encodeFrame, ← List.append_assoc, head_eq_fixedWidth h1,
        head_eq_fixedWidth h2] at h
      have hlen := congrArg List.length h
      rw [List.length_append, hl1, hl2] at hlen
      have : (intToDec a).length ≠ 0 := fun h0 => intToDec_ne_nil a (List.length_eq_zero.1 h0)
      omega
    | some b =>
      simp only [encodeFrame, ← List.append_assoc, head_eq_fixedWidth h1,
        head_eq_fixedWidth h2] at h
      obtain ⟨e1, e2⟩ := List.append_inj h (by rw [hl1, hl2])
      have hab := intToDec_inj (hd1 a rfl) (hd2 b rfl) e2
      exact ⟨fixedWidth_inj h1 h2 e1, by rw [hab]⟩

theorem encodeFrame_injective_witness : (6 : Nat) = 6 ∧ (some (150 : Int)) = some 150 :=
  encodeFrame_injective 6 6 (some 150) (some 150) (by decide) (by decide) (by decide)
    (by decide) (by decide)

/-- Frames of a query and of two actions, evaluated: they are pairwise
different. -/
theorem encodeFrame_examples :
    encodeFrame 6 none = "50006".toList ∧ encodeFrame 6 (some 0) = "500060".toList ∧
    encodeFrame 60 none = "50060".toList ∧ encodeFrame 6 (some (-150)) = "50006-150".toList := by
  decide

/-! ## The copies of the send routine (C30) -/

namespace LeicaDMREHub

theorem ClearAllRcvBuf_withLocals (mm : MM) (d c : Int) :
    ∀ (fuel : Nat) (w : World),
      ClearAllRcvBuf (mm.withLocals d c) fuel w = ClearAllRcvBuf mm fuel w := by
  intro fuel
  induction fuel with
  | zero => intro w; rfl
  | succ n ih =>
    intro w
    simp only [ClearAllRcvBuf, MM.withLocals, ih]
    split_ifs <;> first | rfl | exact ih _

end LeicaDMREHub

/-- The two copies make the same serial calls, whatever their uninitialised
locals hold, and neither ends when the flush does not. -/
theorem SetCommand_same_calls (mm : MM) (dG cG dS cS : Int) (fuel : Nat) (w : World)
    (command : Int) (answer : Str) :
    (GetCommand (mm.withLocals dG cG) fuel w command answer).map (fun r => r.2.2) =
      (SetCommand (mm.withLocals dS cS) fuel w command).map (fun r => r.2) := by
  unfold GetCommand SetCommand
  rw [ClearAllRcvBuf_withLocals, ClearAllRcvBuf_withLocals]
  by_cases hp : w.hub.port_ = []
  · simp [hp]
  · simp only [hp, if_false]
    cases hf : ClearAllRcvBuf mm fuel w with
    | none => rfl
    | some w1 =>
      simp only [MM.withLocals]
      split_ifs <;> rfl

/-- The two copies return the same status and leave the same world, whatever
their uninitialised locals hold, on every run except one in which the
transport answers with an echo field of white space only.  (Both copies run
against the same framework record, hence read the same buffer contents.) -/
theorem SetCommand_agrees_when_echo_extracts (mm : MM) (dG cG dS cS : Int) (fuel : Nat)
    (w : World) (command : Int) (answer : Str)
    (htext : ∀ w1 rcvBuf, ClearAllRcvBuf mm fuel w = some w1 →
      Answers mm w1 (encodeFrame command none) rcvBuf →
      Extracts [charAt rcvBuf 0, charAt rcvBuf 1] ∧
      Extracts [charAt rcvBuf 2, charAt rcvBuf 3, charAt rcvBuf 4]) :
    (GetCommand (mm.withLocals dG cG) fuel w command answer).map (fun r => (r.1, r.2.2)) =
      SetCommand (mm.withLocals dS cS) fuel w command := by
  unfold GetCommand SetCommand
  rw [ClearAllRcvBuf_withLocals, ClearAllRcvBuf_withLocals]
  by_cases hp : w.hub.port_ = []
  · simp [hp]
  · simp only [hp, if_false]
    cases hf : ClearAllRcvBuf mm fuel w with
    | none => rfl
    | some w1 =>
      simp only [MM.withLocals]
      by_cases hw : mm.SetSerialCommand (w1.call (SerialOp.SetSerialCommand w1.hub.port_
          (putInt 2 '0' 50 ++ putInt 3 '0' command) ['\r'])).serial = mm.DEVICE_OK
      · by_cases hr : (mm.GetSerialAnswer ((w1.call (SerialOp.SetSerialCommand w1.hub.port_
            (putInt 2 '0' 50 ++ putInt 3 '0' command) ['\r'])).call
            (SerialOp.GetSerialAnswer w1.hub.port_ RCV_BUF_LENGTH ['\r'])).serial).1 =
            mm.DEVICE_OK
        · obtain ⟨h1, h2⟩ := htext w1 _ hf ⟨hw, Prod.ext hr rfl⟩
          simp only [exchanged, World.call, writeCall, readCall, encodeFrame] at h1 h2
          simp only [World.call] at hw hr
          simp only [World.call, hw, hr, ne_eq, not_true_eq_false, if_false,
            extractInt_of_text dG dS _ h1, extractInt_of_text cG cS _ h2]
          split_ifs <;> rfl
        · simp only [World.call] at hw hr
          simp only [World.call, hw, hr, ne_eq, not_true_eq_false, not_false_eq_true, if_false,
            if_true, Option.map_some']
      · simp only [World.call] at hw
        simp only [World.call, hw, ne_eq, not_false_eq_true, if_true, Option.map_some']

/-- C30 (failing input): on port `COM7` the transport answers command 25 with
five blanks and the payload `V1.2`.  The extraction stores nothing, so each
routine compares what its own uninitialised locals hold.  With 50 and 25 left
in the locals of `GetCommand` and 0 and 0 in those of `SetCommand(25)`, the two
copies make the same three serial calls and write the same frame `50025`, yet
`GetCommand` returns `DEVICE_OK` (0) with payload `V1.2` and `SetCommand`
returns `ERR_UNEXPECTED_ANSWER`. -/
theorem SetCommand_disagrees_on_blank_echo :
    (GetCommand (blankEchoMM.withLocals 50 25) 1 com7 25 []).map (fun r => (r.1, r.2.1)) =
      some (0, "V1.2".toList) ∧
    (SetCommand (blankEchoMM.withLocals 0 0) 1 com7 25).map (fun r => r.1) =
      some ERR_UNEXPECTED_ANSWER ∧
    (GetCommand (blankEchoMM.withLocals 50 25) 1 com7 25 []).map (fun r => r.2.2.serial) =
      (SetCommand (blankEchoMM.withLocals 0 0) 1 com7 25).map (fun r => r.2.serial) ∧
    (SetCommand (blankEchoMM.withLocals 0 0) 1 com7 25).map (fun r => r.2.serial) =
      some [SerialOp.ReadFromSerial "COM7".toList 1024,
        SerialOp.SetSerialCommand "COM7".toList "50025".toList ['\r'],
        SerialOp.GetSerialAnswer "COM7".toList 1024 ['\r']] ∧
    (blankEchoMM.withLocals 50 25).DEVICE_OK = 0 ∧
    ¬ Extracts [charAt "     V1.2".toList 0, charAt "     V1.2".toList 1] := by
  decide

/-! ## Every frame is fixed-width (C25) -/

theorem WellFramed.same (w w1 : World) (h : w1.serial = w.serial) : WellFramed w w1 :=
  ⟨[], by rw [h]; simp, fun f hf => absurd hf (List.not_mem_nil f)⟩

theorem WellFramed.trans {w w1 w2 : World} (h1 : WellFramed w w1) (h2 : WellFramed w1 w2) :
    WellFramed w w2 := by
  obtain ⟨a1, e1, p1⟩ := h1
  obtain ⟨a2, e2, p2⟩ := h2
  refine ⟨a1 ++ a2, by rw [e2, e1, List.append_assoc], fun f hf => ?_⟩
  rcases List.mem_append.1 hf with h | h
  · exact p1 f h
  · exact p2 f h

theorem WellFramed.of_serial_eq {w w1 w2 : World} (h1 : WellFramed w w1)
    (h : w2.serial = w1.serial) : WellFramed w w2 := by
  obtain ⟨a1, e1, p1⟩ := h1
  exact ⟨a1, by rw [h, e1], p1⟩

theorem wellFramed_of_effect (w w1 : World) (c : Nat) (rest : Str) (hc : c ≤ 999)
    (h : framesWritten w1.serial = framesWritten w.serial ++
      (if w.hub.port_ = [] then []
       else [(putInt 2 '0' 50 ++ (putInt 3 '0' (c : Int) ++ rest), ['\r'])])) :
    WellFramed w w1 := by
  refine ⟨_, h, fun f hf => ?_⟩
  split_ifs at hf with hp
  · exact absurd hf (List.not_mem_nil f)
  · simp only [List.mem_singleton] at hf
    refine ⟨c, hc, ?_, ?_⟩
    · rw [hf, ← List.append_assoc, head_eq_fixedWidth hc]; rfl
    · rw [hf]

namespace LeicaDMREHub

theorem GetCommand_wellFramed (mm : MM) (fuel : Nat) (w w1 : World) (c : Nat) (ret : Int)
    (answer ans : Str) (hc : c ≤ 999)
    (h : GetCommand mm fuel w (c : Int) answer = some (ret, ans, w1)) : WellFramed w w1 := by
  have he := (GetCommand_effect mm fuel w w1 c ret answer ans h).2
  exact wellFramed_of_effect w w1 c [] hc (by simpa using he)

theorem GetCommandInt_wellFramed (mm : MM) (fuel : Nat) (w w1 : World) (c : Nat)
    (ret answer a : Int) (hc : c ≤ 999)
    (h : GetCommandInt mm fuel w (c : Int) answer = some (ret, a, w1)) : WellFramed w w1 := by
  have he := (GetCommandInt_effect mm fuel w w1 c ret answer a h).2
  exact wellFramed_of_effect w w1 c [] hc (by simpa using he)

theorem SetCommand_wellFramed (mm : MM) (fuel : Nat) (w w1 : World) (c : Nat) (ret : Int)
    (hc : c ≤ 999) (h : SetCommand mm fuel w (c : Int) = some (ret, w1)) : WellFramed w w1 := by
  have he := (SetCommand_effect mm fuel w w1 c ret h).2
  exact wellFramed_of_effect w w1 c [] hc (by simpa using he)

theorem SetCommandData_wellFramed (mm : MM) (fuel : Nat) (w w1 : World) (c : Nat)
    (d ret : Int) (hc : c ≤ 999)
    (h : SetCommandData mm fuel w (c : Int) d = some (ret, w1)) : WellFramed w w1 :=
  wellFramed_of_effect w w1 c (intToDec d) hc (SetCommandData_effect mm fuel w w1 c d ret h).2

theorem GetMicroscope_wellFramed (mm : MM) (fuel : Nat) (w w1 : World) (ret : Int)
    (m m1 : Str) (h : GetMicroscope mm fuel w m = some (ret, m1, w1)) : WellFramed w w1 := by
  unfold GetMicroscope at h
  cases hg : GetCommand mm fuel w 26 m with
  | none => simp [hg] at h
  | some r =>
    obtain ⟨r1, r2, r3⟩ := r
    have hw := GetCommand_wellFramed mm fuel w r3 26 r1 m r2 (by decide) hg
    simp only [hg] at h
    split_ifs at h <;>
      (simp only [Option.some.injEq, Prod.mk.injEq] at h
       obtain ⟨-, -, rfl⟩ := h
       exact hw)

theorem Initialize_wellFramed (mm : MM) (fuel : Nat) (w w1 : World) (ret : Int)
    (h : Initialize mm fuel w = some (ret, w1)) : WellFramed w w1 := by
  unfold Initialize at h
  split_ifs at h with hi
  · simp only [Option.some.injEq, Prod.mk.injEq] at h
    obtain ⟨-, rfl⟩ := h
    exact WellFramed.same _ _ rfl
  · cases hv : GetVersion mm fuel w w.hub.version_ with
    | none => simp [hv] at h
    | some r =>
      obtain ⟨r1, v1, wa⟩ := r
      have hwa : WellFramed w (storeVersion wa v1) :=
        (GetCommand_wellFramed mm fuel w wa 25 r1 _ v1 (by decide) hv).of_serial_eq rfl
      simp only [hv] at h
      have hretry : ∀ rr wb,
          (if r1 ≠ mm.DEVICE_OK then
            match GetVersion mm fuel (storeVersion wa v1) (storeVersion wa v1).hub.version_ with
            | none => none
            | some (ret2, v2, w2) => some (ret2, storeVersion w2 v2)
          else some (r1, storeVersion wa v1)) = some (rr, wb) → WellFramed w wb := by
        intro rr wb hr
        split_ifs at hr with h1
        · cases hv2 : GetVersion mm fuel (storeVersion wa v1) (storeVersion wa v1).hub.version_ with
          | none => simp [hv2] at hr
          | some r =>
            obtain ⟨r2, v2, wc⟩ := r
            simp only [hv2, Option.some.injEq, Prod.mk.injEq] at hr
            obtain ⟨-, rfl⟩ := hr
            exact hwa.trans
              ((GetCommand_wellFramed mm fuel _ wc 25 r2 _ v2 (by decide) hv2).of_serial_eq rfl)
        · simp only [Option.some.injEq, Prod.mk.injEq] at hr
          obtain ⟨-, rfl⟩ := hr
          exact hwa
      cases hq : (if r1 ≠ mm.DEVICE_OK then
            match GetVersion mm fuel (storeVersion wa v1) (storeVersion wa v1).hub.version_ with
            | none => none
            | some (ret2, v2, w2) => some (ret2, storeVersion w2 v2)
          else some (r1, storeVersion wa v1)) with
      | none => simp [hq] at h
      | some r =>
        obtain ⟨rr, wb⟩ := r
        have hwb := hretry rr wb hq
        simp only [hq] at h
        split_ifs at h with h2
        · simp only [Option.some.injEq, Prod.mk.injEq] at h
          obtain ⟨-, rfl⟩ := h
          exact hwb
        · cases hm : GetMicroscope mm fuel wb wb.hub.microscope_ with
          | none => simp [hm] at h
          | some r =>
            obtain ⟨r3, m3, wc⟩ := r
            have hwc := hwb.trans (GetMicroscope_wellFramed mm fuel wb wc r3 _ m3 hm)
            simp only [hm] at h
            split_ifs at h <;>
              (simp only [Option.some.injEq, Prod.mk.injEq] at h
               obtain ⟨-, rfl⟩ := h
               exact hwc.of_serial_eq rfl)

end LeicaDMREHub

/-- C25: every frame written by a public hub operation starts with the five
characters `5`, `0` and three decimal digits of a command id in `[0,999]`, and
is sent with terminator `"\r"`: for `Initialize`, `SetManual`,
`GetLampIntensity`, `SetLampIntensity`, `SetZAbs`, `SetZRel`, `MoveZMin`,
`MoveZMax`, `MoveZConst`, `StopZ`, `GetZ`, `SetZUpperThreshold`, the two
threshold-set queries and the three nosepiece queries, the frames written
between the world before and the world after are well framed. -/
theorem hub_frames_are_fixed_width (mm : MM) (fuel : Nat) (w w1 : World) :
    (∀ ret, Initialize mm fuel w = some (ret, w1) → WellFramed w w1) ∧
    (∀ m ret, SetManual mm fuel w m = some (ret, w1) → WellFramed w w1) ∧
    (∀ a ret v, GetLampIntensity mm fuel w a = some (ret, v, w1) → WellFramed w w1) ∧
    (∀ d ret, SetLampIntensity mm fuel w d = some (ret, w1) → WellFramed w w1) ∧
    (∀ d ret, SetZAbs mm fuel w d = some (ret, w1) → WellFramed w w1) ∧
    (∀ d ret, SetZRel mm fuel w d = some (ret, w1) → WellFramed w w1) ∧
    (∀ ret, MoveZMin mm fuel w = some (ret, w1) → WellFramed w w1) ∧
    (∀ ret, MoveZMax mm fuel w = some (ret, w1) → WellFramed w w1) ∧
    (∀ d ret, MoveZConst mm fuel w d = some (ret, w1) → WellFramed w w1) ∧
    (∀ ret, StopZ mm fuel w = some (ret, w1) → WellFramed w w1) ∧
    (∀ p0 p ret v, GetZ mm fuel w p0 p = some (ret, v, w1) → WellFramed w w1) ∧
    (∀ ret, SetZUpperThreshold mm fuel w = some (ret, w1) → WellFramed w w1) ∧
    (∀ b, GetZLowerThreholdSet mm fuel w = some (b, w1) → WellFramed w w1) ∧
    (∀ b, GetZUpperThreholdSet mm fuel w = some (b, w1) → WellFramed w w1) ∧
    (∀ a ret v, GetObjNosepieceId mm fuel w a = some (ret, v, w1) → WellFramed w w1) ∧
    (∀ a ret v, GetObjNosepiecePosition mm fuel w a = some (ret, v, w1) → WellFramed w w1) ∧
    (∀ a ret v, GetObjNosepieceMagnification mm fuel w a = some (ret, v, w1) →
      WellFramed w w1) := by
  refine ⟨?_, ?_, ?_, ?_, ?_, ?_, ?_, ?_, ?_, ?_, ?_, ?_, ?_, ?_, ?_, ?_, ?_⟩
  · intro ret h; exact Initialize_wellFramed mm fuel w w1 ret h
  · intro m ret h
    cases m with
    | true => exact SetCommand_wellFramed mm fuel w w1 15 ret (by decide) h
    | false => exact SetCommand_wellFramed mm fuel w w1 14 ret (by decide) h
  · intro a ret v h; exact GetCommandInt_wellFramed mm fuel w w1 9 ret a v (by decide) h
  · intro d ret h; exact SetCommandData_wellFramed mm fuel w w1 6 d ret (by decide) h
  · intro d ret h; exact SetCommandData_wellFramed mm fuel w w1 1 _ ret (by decide) h
  · intro d ret h; exact SetCommandData_wellFramed mm fuel w w1 2 _ ret (by decide) h
  · intro ret h; exact SetCommand_wellFramed mm fuel w w1 16 ret (by decide) h
  · intro ret h; exact SetCommand_wellFramed mm fuel w w1 17 ret (by decide) h
  · intro d ret h; exact SetCommandData_wellFramed mm fuel w w1 4 d ret (by decide) h
  · intro ret h; exact SetCommand_wellFramed mm fuel w w1 6 ret (by decide) h
  · intro p0 p ret v h
    unfold GetZ at h
    cases hg : GetCommandInt mm fuel w 8 p0 with
    | none => simp [hg] at h
    | some r =>
      obtain ⟨r1, r2, r3⟩ := r
      have he := GetCommandInt_wellFramed mm fuel w r3 8 r1 p0 r2 (by decide) hg
      simp only [hg] at h
      split_ifs at h <;>
        (simp only [Option.some.injEq, Prod.mk.injEq] at h
         obtain ⟨-, -, rfl⟩ := h
         exact he)
  · intro ret h; exact SetCommand_wellFramed mm fuel w w1 19 ret (by decide) h
  · intro b h
    unfold GetZLowerThreholdSet at h
    cases hg : GetCommand mm fuel w 10 [] with
    | none => simp [hg] at h
    | some r =>
      obtain ⟨r1, r2, r3⟩ := r
      have he := GetCommand_wellFramed mm fuel w r3 10 r1 [] r2 (by decide) hg
      simp only [hg] at h
      split_ifs at h <;>
        (simp only [Option.some.injEq, Prod.mk.injEq] at h
         obtain ⟨-, rfl⟩ := h
         exact he)
  · intro b h
    unfold GetZUpperThreholdSet at h
    cases hg : GetCommand mm fuel w 10 [] with
    | none => simp [hg] at h
    | some r =>
      obtain ⟨r1, r2, r3⟩ := r
      have he := GetCommand_wellFramed mm fuel w r3 10 r1 [] r2 (by decide) hg
      simp only [hg] at h
      split_ifs at h <;>
        (simp only [Option.some.injEq, Prod.mk.injEq] at h
         obtain ⟨-, rfl⟩ := h
         exact he)
  · intro a ret v h; exact GetCommandInt_wellFramed mm fuel w w1 20 ret a v (by decide) h
  · intro a ret v h; exact GetCommandInt_wellFramed mm fuel w w1 10 ret a v (by decide) h
  · intro a ret v h; exact GetCommandInt_wellFramed mm fuel w w1 21 ret a v (by decide) h

/-- The frames of a connecting `Initialize` and of the remaining public hub
operations on `COM7`, evaluated. -/
theorem hub_frames_example :
    (Initialize olderControllerMM 1 com7).map (fun r => framesWritten r.2.serial) =
      some [("50025".toList, ['\r']), ("50026".toList, ['\r'])] ∧
    (SetManual (scriptedMM []) 1 com7 true).map (fun r => framesWritten r.2.serial) =
      some [("50015".toList, ['\r'])] ∧
    (SetZAbs (scriptedMM []) 1 com7 (-10000)).map (fun r => framesWritten r.2.serial) =
      some [("50001-10000".toList, ['\r'])] ∧
    (StopZ (scriptedMM []) 1 com7).map (fun r => framesWritten r.2.serial) =
      some [("50006".toList, ['\r'])] ∧
    (GetZUpperThreholdSet (scriptedMM []) 1 com7).map (fun r => framesWritten r.2.serial) =
      some [("50010".toList, ['\r'])] := by
  decide

/-! ## Start-up reading of the nosepiece (C27) -/

namespace LeicaDMREHub

theorem GetCommand_total (mm : MM) (fuel : Nat) (w : World) (c : Int) (a : Str)
    (hfl : ∀ w0, ∃ w1, ClearAllRcvBuf mm fuel w0 = some w1) :
    ∃ r, GetCommand mm fuel w c a = some r := by
  obtain ⟨w1, h1⟩ := hfl w
  unfold GetCommand
  simp only [h1]
  split_ifs <;> exact ⟨_, rfl⟩

theorem GetCommandInt_total (mm : MM) (fuel : Nat) (w : World) (c a : Int)
    (hfl : ∀ w0, ∃ w1, ClearAllRcvBuf mm fuel w0 = some w1) :
    ∃ r, GetCommandInt mm fuel w c a = some r := by
  obtain ⟨⟨r1, r2, r3⟩, hr⟩ := GetCommand_total mm fuel w c [] hfl
  unfold GetCommandInt
  simp only [hr]
  split_ifs <;> exact ⟨_, rfl⟩

end LeicaDMREHub

theorem natToDec_length_le : ∀ (k n : Nat), n < 10 ^ (k + 1) → (natToDec n).length ≤ k + 1 := by
  intro k
  induction k with
  | zero =>
    intro n hn
    rw [natToDec_lt (by simpa using hn)]
    simp
  | succ k ih =>
    intro n hn
    by_cases h : n < 10
    · rw [natToDec_lt h]
      simp
    · rw [natToDec_ge (by omega)]
      have h1 : n / 10 < 10 ^ (k + 1) := by
        rw [Nat.div_lt_iff_lt_mul (by norm_num)]
        rw [pow_succ] at hn
        exact hn
      have h2 := ih (n / 10) h1
      simp only [List.length_append, List.length_singleton]
      omega

/-- The text of every value from `-99999` to `999999` fits the buffer. -/
theorem sprintfDx_fits (v : Int) (h1 : -99999 ≤ v) (h2 : v ≤ 999999) :
    sprintfDx v = some (intToDec v ++ ['x']) := by
  have hlen : (intToDec v).length ≤ 6 := by
    unfold intToDec
    split_ifs with hneg
    · have := natToDec_length_le 4 v.natAbs (by norm_num; omega)
      simp only [List.length_cons]
      omega
    · exact natToDec_length_le 5 v.natAbs (by norm_num; omega)
  unfold sprintfDx
  rw [if_pos]
  simp only [List.length_append, List.length_singleton]
  omega

theorem labelLoop_total (mm : MM) (fuel : Nat) (mag0 : Int)
    (hfl : ∀ w0, ∃ w1, ClearAllRcvBuf mm fuel w0 = some w1) :
    ∀ (n : Nat) (i : Int) (w : World) (props : List PropCall), 0 ≤ i → i + n ≤ 1000000 →
      ∃ w2 props2, ObjNosepiece.labelLoop mm fuel mag0 n i w props = some (w2, props2) ∧
        ∀ p ∈ props, p ∈ props2 := by
  intro n
  induction n with
  | zero => intro i w props _ _; exact ⟨w, props, rfl, fun p hp => hp⟩
  | succ n ih =>
    intro i w props hi hn
    obtain ⟨⟨r1, r2, r3⟩, hr⟩ := GetCommandInt_total mm fuel w 21 mag0 hfl
    have hlab := sprintfDx_fits i (by omega) (by push_cast at hn; omega)
    obtain ⟨w2, props2, h2, hsub⟩ :=
      ih (i + 1) r3 (props ++ [PropCall.SetPositionLabel i (intToDec i ++ ['x'])]) (by omega)
        (by push_cast at hn ⊢; omega)
    refine ⟨w2, props2, ?_, fun p hp => hsub p (List.mem_append_left _ hp)⟩
    simp only [ObjNosepiece.labelLoop, GetObjNosepieceMagnification, hr, hlab, h2]

/-- C27 (counterexample): the hub is connected on `COM7`, the property table
accepts every call and the position query returns the reserved index 0
(response `500100`).  `ObjNosepiece::Initialize` returns `DEVICE_OK` (0) with
`initialized_` set, and the third property it created is `State` with the
text `-1x`. -/
theorem ObjNosepiece_Initialize_accepts_position_zero :
    (GetObjNosepiecePosition unseatedMM 1 connected 9).map (fun r => (r.1, r.2.1)) =
      some (0, 0) ∧
    (ObjNosepiece.Initialize unseatedMM plainDeviceBase 1 connected ObjNosepiece.new [] 9 9 9).map
      (fun r => (r.1, r.2.1.initialized_, r.2.2.2.get? 2)) =
      some (0, true, some (PropCall.CreateProperty "State".toList "-1x".toList true)) := by
  decide

/-- C27 (amended): `ObjNosepiece::Initialize` does not reject the reserved
index at start-up.  When the hub is connected, the `Name` and `Description`
properties are created and the position query returns `DEVICE_OK` with index
0, then `Initialize` completes and has created the `State` property with the
text `-1x`.  It completes provided every flush ends, `UpdateStatus` returns
and the label texts fit their eight-byte buffers: a magnification accepted
with `DEVICE_OK` lies between `-99999` and `999999`, and the turret has at
most a million positions (the constructor sets seven). -/
theorem ObjNosepiece_Initialize_creates_state_for_position_zero (mm : MM) (db : DeviceBase)
    (fuel : Nat) (w w1 : World) (o : ObjNosepiece) (props : List PropCall)
    (cpos0 cmag0 mag0 : Int) (hconn : Initialized w = true)
    (hname : db.CreateProperty (props ++
      [PropCall.CreateProperty "Name".toList "Objective Nosepiece".toList true]) = mm.DEVICE_OK)
    (hdesc : db.CreateProperty (props ++
      [PropCall.CreateProperty "Name".toList "Objective Nosepiece".toList true] ++
      [PropCall.CreateProperty "Description".toList "LeicaDMRE Objective Nosepiece".toList
        true]) = mm.DEVICE_OK)
    (hq : GetObjNosepiecePosition mm fuel w cpos0 = some (mm.DEVICE_OK, 0, w1))
    (hfl : ∀ w0, ∃ w2, ClearAllRcvBuf mm fuel w0 = some w2)
    (hup : ∀ w0 p, ∃ r, db.UpdateStatus w0 p = some r)
    (hmag : ∀ cmag w2, GetObjNosepieceMagnification mm fuel w1 cmag0 =
      some (mm.DEVICE_OK, cmag, w2) → -99999 ≤ cmag ∧ cmag ≤ 999999)
    (hnum : o.numPos_ ≤ 1000000) :
    ∃ ret o2 w2 props2,
      ObjNosepiece.Initialize mm db fuel w o props cpos0 cmag0 mag0 =
        some (ret, o2, w2, props2) ∧
      PropCall.CreateProperty "State".toList "-1x".toList true ∈ props2 := by
  have hst : sprintfDx (0 - 1) = some "-1x".toList := by decide
  unfold ObjNosepiece.Initialize
  simp only [hconn, Bool.not_true, Bool.false_eq_true, if_false, ne_eq, not_true_eq_false,
    hname, hdesc, hq, hst]
  by_cases hs : db.CreateProperty (props ++
      [PropCall.CreateProperty "Name".toList "Objective Nosepiece".toList true] ++
      [PropCall.CreateProperty "Description".toList "LeicaDMRE Objective Nosepiece".toList
        true] ++ [PropCall.CreateProperty "State".toList "-1x".toList true]) = mm.DEVICE_OK
  · obtain ⟨⟨m1, m2, m3⟩, hm⟩ := GetCommandInt_total mm fuel w1 21 cmag0 hfl
    simp only [hs, not_true_eq_false, if_false, GetObjNosepieceMagnification, hm]
    by_cases hm1 : m1 = mm.DEVICE_OK
    · have hb := hmag m2 m3 (by simp only [GetObjNosepieceMagnification, hm, hm1])
      simp only [hm1, not_true_eq_false, if_false, sprintfDx_fits m2 hb.1 hb.2]
      by_cases hl : db.CreateProperty (props ++
          [PropCall.CreateProperty "Name".toList "Objective Nosepiece".toList true] ++
          [PropCall.CreateProperty "Description".toList
            "LeicaDMRE Objective Nosepiece".toList true] ++
          [PropCall.CreateProperty "State".toList "-1x".toList true] ++
          [PropCall.CreateProperty "Label".toList (intToDec m2 ++ ['x']) true]) = mm.DEVICE_OK
      · obtain ⟨w2, props2, hloop, hsub⟩ := labelLoop_total mm fuel mag0 hfl
          (o.numPos_ - 1).toNat 1 m3
          (props ++ [PropCall.CreateProperty "Name".toList "Objective Nosepiece".toList true] ++
            [PropCall.CreateProperty "Description".toList
              "LeicaDMRE Objective Nosepiece".toList true] ++
            [PropCall.CreateProperty "State".toList "-1x".toList true] ++
            [PropCall.CreateProperty "Label".toList (intToDec m2 ++ ['x']) true] ++
            [PropCall.SetPositionLabel 0 "Undefined".toList]) (by norm_num) (by omega)
        have hin : PropCall.CreateProperty "State".toList "-1x".toList true ∈ props2 :=
          hsub _ (by simp)
        obtain ⟨⟨u1, u2⟩, hu⟩ := hup w2 props2
        simp only [hl, not_true_eq_false, if_false, hloop, hu]
        by_cases hu1 : u1 = mm.DEVICE_OK
        · simp only [hu1, not_true_eq_false, if_false]
          exact ⟨_, _, _, _, rfl, hin⟩
        · simp only [hu1, not_false_eq_true, if_true]
          exact ⟨_, _, _, _, rfl, hin⟩
      · simp only [hl, not_false_eq_true, if_true]
        exact ⟨_, _, _, _, rfl, by simp⟩
    · simp only [hm1, not_false_eq_true, if_true]
      exact ⟨_, _, _, _, rfl, by simp⟩
  · simp only [hs, not_false_eq_true, if_true]
    exact ⟨_, _, _, _, rfl, by simp⟩

theorem ObjNosepiece_Initialize_creates_state_for_position_zero_witness :
    ∃ ret o2 w2 props2,
      ObjNosepiece.Initialize unseatedMM plainDeviceBase 1 connected ObjNosepiece.new [] 9 9 9 =
        some (ret, o2, w2, props2) ∧
      PropCall.CreateProperty "State".toList "-1x".toList true ∈ props2 :=
  ObjNosepiece_Initialize_creates_state_for_position_zero unseatedMM plainDeviceBase 1 connected
    (exchanged (connected.call (flushCall connected)) "50010".toList) ObjNosepiece.new [] 9 9 9
    (by decide) (by decide) (by decide) (by decide) (fun _ => ⟨_, rfl⟩) (fun _ _ => ⟨_, rfl⟩)
    (fun cmag w2 h => by
      have h1 : (GetObjNosepieceMagnification unseatedMM 1
          (exchanged (connected.call (flushCall connected)) "50010".toList) 9).map
          (fun r => r.2.1) = some 10 := by decide
      rw [h] at h1
      simp only [Option.map_some', Option.some.injEq] at h1
      omega)
    (by decide)

/-! ## Binary64 arithmetic: the model rounds to nearest -/

/-- The quotient is rounded before it is truncated.  The exact quotient of
1000 by the step size is below 10000, and the payload is 10000 because the
division rounds it to 10000; the quotient of the `double` nearest to 0.3 by
the step size rounds below 3, and the payload is 2. -/
theorem quotient_is_rounded_before_truncation :
    (1000 : ℚ) / ZStage.stepSize_um_.toRat < 10000 ∧
    (fdiv ⟨1000, 0⟩ ZStage.stepSize_um_).map Dbl.toRat = some 10000 ∧
    fdiv ⟨3, 0⟩ ⟨10, 0⟩ = some ⟨5404319552844595, -54⟩ ∧
    (fdiv ⟨5404319552844595, -54⟩ ZStage.stepSize_um_).map truncate = some 2 := by
  have h1 : fdiv ⟨1000, 0⟩ ZStage.stepSize_um_ = some ⟨5497558138880000, -39⟩ := by decide
  refine ⟨?_, ?_, by decide, by decide⟩
  · unfold ZStage.stepSize_um_ Dbl.toRat
    norm_num
  · rw [h1, Option.map_some']
    unfold Dbl.toRat
    norm_num

end LeicaDMRE
